import Mathlib

/-!
# Stream load with SQL: a shallow embedding of the HTTP handler

The definitions below follow `be/src/http/action/stream_load_with_sql.cpp`
function by function.  Bytes are natural numbers, C++ objects reached through
shared pointers are records, a null pointer is `none`, and every call that
leaves the file (the sink operations, the two remote calls, the completion
future, the clock-free helpers) is answered by an oracle in `Env`.
Timing counters, metrics and log lines carry no behaviour of interest and are
left out.
-/

set_option autoImplicit false

namespace doris

/-! ## Status -/

/-- Modelled from the spec: the status codes of `common/status.h`, a header
that is not among the sources.  The handler names `OK`, `InternalError`,
`InvalidArgument`, `TimedOut` and tests `is<PUBLISH_TIMEOUT>`; each factory has
its own code, and `PUBLISH_TIMEOUT` is the code of none of the factories the
handler calls.  `CANCELLED`, `RPC_ERROR`, `IO_ERROR` stand for the codes that
sinks and remote calls hand back. -/
inductive TStatusCode where
  | OK
  | INTERNAL_ERROR
  | INVALID_ARGUMENT
  | TIMEOUT
  | PUBLISH_TIMEOUT
  | CANCELLED
  | RPC_ERROR
  | IO_ERROR
  deriving DecidableEq, Repr

/-- Modelled from the spec: a `Status` is a code and a message. -/
structure Status where
  code : TStatusCode
  msg : String
  deriving DecidableEq, Repr

namespace Status

/-- The value of `Status::OK()`. -/
def OK : Status := ⟨TStatusCode.OK, ""⟩

/-- The test `st.ok()`. -/
def ok (st : Status) : Bool := decide (st.code = TStatusCode.OK)

/-- The test `st.is<code>()`. -/
def is (c : TStatusCode) (st : Status) : Bool := decide (st.code = c)

/-- The factory `Status::InternalError(msg)`. -/
def InternalError (msg : String) : Status := ⟨TStatusCode.INTERNAL_ERROR, msg⟩

/-- The factory `Status::InvalidArgument(msg)`. -/
def InvalidArgument (msg : String) : Status := ⟨TStatusCode.INVALID_ARGUMENT, msg⟩

/-- The factory `Status::TimedOut(msg)`. -/
def TimedOut (msg : String) : Status := ⟨TStatusCode.TIMEOUT, msg⟩

end Status

/-! ## Strings and numeric headers -/

/-- Modelled from the spec: `to_lower` of `util/string_util.h`, a header that
is not among the sources; the lower-cased characters of a string. -/
def to_lower (s : String) : List Char := s.data.map Char.toLower

/-- Modelled from the spec: `iequal(lhs, rhs)` of `util/string_util.h`, the
case-insensitive comparison the handler includes it for: equal sizes and equal
lower-cased contents. -/
def iequal (lhs rhs : String) : Bool :=
  decide (lhs.data.length = rhs.data.length) && decide (to_lower lhs = to_lower rhs)

/-- The test `s.empty()`. -/
def empty (s : String) : Bool := s.data.isEmpty

/-- Ways a call ends without returning: the two exceptions `std::stoi`,
`std::stol` and `std::stoll` throw (the handler catches `invalid_argument` in
two places and `out_of_range` nowhere), and a call through a null sink. -/
inductive Abort where
  | invalid_argument
  | out_of_range
  | null_dereference
  deriving DecidableEq, Repr

deriving instance DecidableEq for Except

/-- The characters `isspace` accepts in the C locale. -/
def isspace (c : Char) : Bool :=
  c.toNat = 32 || (9 ≤ c.toNat && c.toNat ≤ 13)

/-- Value of a run of decimal digits. -/
def digits_value (ds : List Char) : Nat :=
  ds.foldl (fun acc c => acc * 10 + (c.toNat - 48)) 0

/-- Sign and remainder after an optional `+` or `-`. -/
def split_sign : List Char → Bool × List Char
  | '-' :: rest => (true, rest)
  | '+' :: rest => (false, rest)
  | cs => (false, cs)

/-- The range check of the conversions: a value outside `[lo, hi]` throws
`out_of_range`. -/
def check_range (lo hi v : Int) : Except Abort Int :=
  if v < lo ∨ hi < v then Except.error Abort.out_of_range else Except.ok v

/-- The value of a sign and a magnitude. -/
def apply_sign (negative : Bool) (n : Nat) : Int := if negative then -(n : Int) else (n : Int)

/-- The conversion behind `std::stoi/stol/stoll` for base 10: leading white
space is skipped, an optional sign and the longest run of digits are read and
what follows is ignored; no digit throws `invalid_argument`, a value outside
`[lo, hi]` throws `out_of_range`. -/
def strto_int (lo hi : Int) (s : String) : Except Abort Int :=
  let cs := s.data.dropWhile isspace
  let sd := split_sign cs
  let ds := sd.2.takeWhile Char.isDigit
  if ds.isEmpty then Except.error Abort.invalid_argument
  else check_range lo hi (apply_sign sd.1 (digits_value ds))

/-- The function `std::stol` (64-bit `long`). -/
def stol (s : String) : Except Abort Int :=
  strto_int (-9223372036854775808) 9223372036854775807 s

/-- The function `std::stoll`. -/
def stoll (s : String) : Except Abort Int :=
  strto_int (-9223372036854775808) 9223372036854775807 s

/-- The function `std::stoi` (32-bit `int`). -/
def stoi (s : String) : Except Abort Int :=
  strto_int (-2147483648) 2147483647 s

/-- Conversion of a signed 64-bit value to `size_t`. -/
def to_size_t (v : Int) : Nat := (v % 18446744073709551616).toNat

/-! ## Formats -/

/-- The members of the Thrift enumeration `TFileFormatType` the handler can
meet. -/
inductive TFileFormatType where
  | FORMAT_UNKNOWN
  | FORMAT_CSV_PLAIN
  | FORMAT_CSV_GZ
  | FORMAT_CSV_LZO
  | FORMAT_CSV_BZ2
  | FORMAT_CSV_LZ4FRAME
  | FORMAT_CSV_LZOP
  | FORMAT_CSV_DEFLATE
  | FORMAT_PARQUET
  | FORMAT_ORC
  | FORMAT_JSON
  | FORMAT_PROTO
  | FORMAT_JNI
  | FORMAT_AVRO
  deriving DecidableEq, Repr

/-- The members of the Thrift enumeration `TFileCompressType`. -/
inductive TFileCompressType where
  | UNKNOWN
  | PLAIN
  | GZ
  | LZO
  | BZ2
  | LZ4FRAME
  | DEFLATE
  deriving DecidableEq, Repr

open TFileFormatType in
/-- Lines 85-117 of `_parse_format`: the body run on a non-empty format name. -/
def _parse_format_body (format_str compress_type_str : String) :
    TFileFormatType × TFileCompressType :=
  if iequal format_str "CSV" then
    if empty compress_type_str then (FORMAT_CSV_PLAIN, TFileCompressType.PLAIN)
    else if iequal compress_type_str "GZ" then (FORMAT_CSV_GZ, TFileCompressType.GZ)
    else if iequal compress_type_str "LZO" then (FORMAT_CSV_LZO, TFileCompressType.LZO)
    else if iequal compress_type_str "BZ2" then (FORMAT_CSV_BZ2, TFileCompressType.BZ2)
    else if iequal compress_type_str "LZ4" then
      (FORMAT_CSV_LZ4FRAME, TFileCompressType.LZ4FRAME)
    else if iequal compress_type_str "LZOP" then (FORMAT_CSV_LZOP, TFileCompressType.LZO)
    else if iequal compress_type_str "DEFLATE" then
      (FORMAT_CSV_DEFLATE, TFileCompressType.DEFLATE)
    else (FORMAT_UNKNOWN, TFileCompressType.PLAIN)
  else if iequal format_str "JSON" then
    if empty compress_type_str then (FORMAT_JSON, TFileCompressType.PLAIN)
    else (FORMAT_UNKNOWN, TFileCompressType.PLAIN)
  else if iequal format_str "PARQUET" then (FORMAT_PARQUET, TFileCompressType.PLAIN)
  else if iequal format_str "ORC" then (FORMAT_ORC, TFileCompressType.PLAIN)
  else (FORMAT_UNKNOWN, TFileCompressType.PLAIN)

/-- The function `StreamLoadWithSqlAction::_parse_format`: the pair written to
`*format_type` and `*compress_type`.  An empty name re-enters with `"CSV"`,
which is not empty, so the recursion is one call deep. -/
def _parse_format (format_str compress_type_str : String) :
    TFileFormatType × TFileCompressType :=
  if empty format_str then _parse_format_body "CSV" compress_type_str
  else _parse_format_body format_str compress_type_str

open TFileFormatType in
/-- The function `StreamLoadWithSqlAction::_is_format_support_streaming`. -/
def _is_format_support_streaming (format : TFileFormatType) : Bool :=
  match format with
  | FORMAT_CSV_PLAIN => true
  | FORMAT_CSV_BZ2 => true
  | FORMAT_CSV_DEFLATE => true
  | FORMAT_CSV_GZ => true
  | FORMAT_CSV_LZ4FRAME => true
  | FORMAT_CSV_LZO => true
  | FORMAT_CSV_LZOP => true
  | FORMAT_JSON => true
  | _ => false

/-! ## Configuration, sinks, the load context -/

/-- A byte of the payload. -/
abbrev Byte := Nat

/-- The `config::` values the handler reads. -/
structure Config where
  streaming_load_max_mb : Int
  streaming_load_json_max_mb : Int
  stream_tvf_buffer_size : Nat
  stream_load_exec_mem_limit : Int
  stream_load_exec_timeout_second : Int
  thrift_rpc_timeout_ms : Int
  enable_stream_load_record : Bool

/-- The two implementations of `MessageBodySink` the handler creates. -/
inductive SinkKind where
  | StreamLoadPipe
  | MessageBodyFileSink
  deriving DecidableEq, Repr

/-- A body sink as the handler sees it: which implementation it is, the
arguments it was created with, and a log of the calls made on it (the buffers
`append` accepted in order, the number of `finish` calls, the reasons passed to
`cancel`).  Sinks are objects of their own: `serial` tells apart the sinks one
request creates, 0 for the sink `_on_header` makes and 1 for the pipe
`on_chunk_data` puts in its place, so that the same call may be answered
differently on the one and on the other. -/
structure MessageBodySink where
  kind : SinkKind
  total_length : Nat
  path : String
  appended : List (List Byte)
  finish_calls : Nat
  cancel_reasons : List String
  serial : Nat
  deriving DecidableEq, Repr

/-- The pipe built by `std::make_shared<io::StreamLoadPipe>(kMaxPipeBufferedBytes,
64 * 1024, total_length)` in `_on_header` (lines 345-347). -/
def new_pipe (total_length : Nat) : MessageBodySink :=
  ⟨SinkKind.StreamLoadPipe, total_length, "", [], 0, [], 0⟩

/-- The pipe built by the same constructor call in `on_chunk_data` (lines
399-401), a second object. -/
def restored_pipe (total_length : Nat) : MessageBodySink :=
  ⟨SinkKind.StreamLoadPipe, total_length, "", [], 0, [], 1⟩

/-- The sink built by `std::make_shared<MessageBodyFileSink>(path)`. -/
def new_file_sink (path : String) : MessageBodySink :=
  ⟨SinkKind.MessageBodyFileSink, 0, path, [], 0, [], 0⟩

/-- The call `sink->cancel(reason)`. -/
def MessageBodySink.cancel (sink : MessageBodySink) (reason : String) : MessageBodySink :=
  { sink with cancel_reasons := sink.cancel_reasons ++ [reason] }

/-- All bytes a sink accepted, in order. -/
def MessageBodySink.bytes (sink : MessageBodySink) : List Byte := sink.appended.flatten

/-- The fields of `TStreamLoadPutRequest` that `_process_put` fills. -/
structure TStreamLoadPutRequest where
  txnId : Int
  version : Int
  load_sql : String
  loadId : Nat
  label : String
  backend_id : Option Int
  execMemLimit : Int
  fileType_is_stream : Bool
  path : Option String
  file_size : Option Nat
  timeout : Int
  thrift_rpc_timeout_ms : Int
  deriving DecidableEq, Repr

/-- The fields of `TStreamLoadWithLoadStatusResult` that `handle` reads. -/
structure TStreamLoadWithLoadStatusResult where
  status : Status
  txn_id : Int
  total_rows : Int
  loaded_rows : Int
  filtered_rows : Int
  unselected_rows : Int
  deriving DecidableEq, Repr

/-- The fields of `StreamLoadContext` the handler touches.  `pipe` records
whether `ctx->pipe` is set; when it is, it points to the same pipe as
`body_sink`.  `restore_pipe_promise` lists the values passed to `set_value`,
and `put_requests` lists the requests sent with `streamLoadPut`, oldest
first. -/
structure StreamLoadContext where
  id : Nat
  label : String
  two_phase_commit : Bool
  header_type : String
  format : TFileFormatType
  compress_type : TFileCompressType
  body_bytes : Nat
  receive_bytes : Nat
  timeout_second : Int
  use_streaming : Bool
  need_schema_buffer : Bool
  need_wait_restore_pipe : Bool
  schema_buffer : List Byte
  schema_buffer_size : Nat
  body_sink : Option MessageBodySink
  pipe : Bool
  path : String
  txn_id : Int
  status : Status
  put_result_status : Status
  restore_pipe_promise : List Status
  put_requests : List TStreamLoadPutRequest
  number_total_rows : Int
  number_loaded_rows : Int
  number_filtered_rows : Int
  number_unselected_rows : Int
  deriving DecidableEq, Repr

/-- Everything the handler asks of its surroundings.  `append` and `finish` give
the status of the sink call on a sink in the given state; `streamLoadPut` gives
the status of the remote call and the status inside the plan result;
`future` is the value the completion future delivers within the configured
wait (`none` when the wait expires); `streamLoadWithLoadStatus k` is the answer
to the `k`-th status call. -/
structure Env where
  append : MessageBodySink → List Byte → Status
  finish : MessageBodySink → Status
  streamLoadPut : TStreamLoadPutRequest → Status × Status
  future : Option Status
  streamLoadWithLoadStatus : Nat → TStreamLoadWithLoadStatusResult
  allocate_dir : Status × String
  time_suffix : String
  file_open : String → Status
  new_load_stream_mgr_put : Status
  generate_uuid_string : String
  gen_uid : Nat
  backend_id : Option Int
  to_json : StreamLoadContext → String
  to_string : Status → String

/-- The request: its headers (`header key` is empty for an absent key), the
input `evbuffer`, the handler context, and the bodies passed to
`HttpChannel::send_reply` so far. -/
structure HttpRequest where
  header : String → String
  input_buffer : List Byte
  handler_ctx : Option StreamLoadContext
  replies : List String

/-- Modelled from the spec: the context built by
`std::make_shared<StreamLoadContext>(_exec_env)`; the class is declared in
`runtime/stream_load/stream_load_context.h`, which is not among the sources.
Pointers are null, the status is OK, counters are zero, flags are unset and
`timeout_second` is the `-1` that `_process_put` tests for. -/
def fresh_context (env : Env) : StreamLoadContext where
  id := env.gen_uid
  label := ""
  two_phase_commit := false
  header_type := ""
  format := TFileFormatType.FORMAT_CSV_PLAIN
  compress_type := TFileCompressType.UNKNOWN
  body_bytes := 0
  receive_bytes := 0
  timeout_second := -1
  use_streaming := false
  need_schema_buffer := false
  need_wait_restore_pipe := false
  schema_buffer := []
  schema_buffer_size := 0
  body_sink := none
  pipe := false
  path := ""
  txn_id := -1
  status := Status.OK
  put_result_status := Status.OK
  restore_pipe_promise := []
  put_requests := []
  number_total_rows := 0
  number_loaded_rows := 0
  number_filtered_rows := 0
  number_unselected_rows := 0

/-! ## Header names and constants -/

/-- Modelled from the spec: header name of the data format (`http/http_common.h`
is not among the sources). -/
def HTTP_FORMAT_KEY : String := "format"
/-- Modelled from the spec: header name of the compression. -/
def HTTP_COMPRESS_TYPE : String := "compress_type"
/-- Modelled from the spec: header name of the read-by-line flag. -/
def HTTP_READ_JSON_BY_LINE : String := "read_json_by_line"
/-- Modelled from the spec: header name of the request timeout override. -/
def HTTP_TIMEOUT : String := "timeout"
/-- Modelled from the spec: header name of the execution memory-limit override. -/
def HTTP_EXEC_MEM_LIMIT : String := "exec_mem_limit"
/-- Modelled from the spec: header name of the label. -/
def HTTP_LABEL_KEY : String := "label"
/-- Modelled from the spec: header name of the two-phase-commit flag. -/
def HTTP_TWO_PHASE_COMMIT : String := "two_phase_commit"
/-- Modelled from the spec: header name of the SQL text. -/
def HTTP_SQL : String := "sql"
/-- Modelled from the spec: the header `HttpHeaders::CONTENT_LENGTH`. -/
def CONTENT_LENGTH : String := "Content-Length"

namespace BeConsts
/-- Modelled from the spec: `BeConsts::CSV` of `common/consts.h`, which is not
among the sources. -/
def CSV : String := "csv"
/-- Modelled from the spec: `BeConsts::CSV_WITH_NAMES`. -/
def CSV_WITH_NAMES : String := "csv_with_names"
/-- Modelled from the spec: `BeConsts::CSV_WITH_NAMES_AND_TYPES`. -/
def CSV_WITH_NAMES_AND_TYPES : String := "csv_with_names_and_types"
end BeConsts

/-- The local constant `stream_buffer_size` of `on_chunk_data`. -/
def stream_buffer_size : Nat := 128 * 1024

/-! ## The plan request -/

/-- Lines 462-496 of `_process_put`: the request, given the memory limit
chosen at lines 474-482. -/
def put_request (env : Env) (cfg : Config) (header : String → String)
    (ctx : StreamLoadContext) (execMemLimit : Int) : TStreamLoadPutRequest where
  txnId := ctx.txn_id
  version := 1
  load_sql := header HTTP_SQL
  loadId := ctx.id
  label := ctx.label
  backend_id := env.backend_id
  execMemLimit := execMemLimit
  fileType_is_stream := ctx.use_streaming
  path := if ctx.use_streaming then none else some ctx.path
  file_size := if ctx.use_streaming then none else some ctx.body_bytes
  timeout :=
    if ctx.timeout_second ≠ -1 then ctx.timeout_second
    else cfg.stream_load_exec_timeout_second
  thrift_rpc_timeout_ms := cfg.thrift_rpc_timeout_ms

/-- Lines 498-512 of `_process_put`: the remote call and the plan status. -/
def exec_put (env : Env) (ctx : StreamLoadContext) (request : TStreamLoadPutRequest) :
    Status × StreamLoadContext :=
  let r := env.streamLoadPut request
  let ctx0 := { ctx with put_requests := ctx.put_requests ++ [request] }
  if !r.1.ok then (r.1, ctx0)
  else
    let ctx1 := { ctx0 with put_result_status := r.2 }
    if !r.2.ok then (r.2, ctx1) else (Status.OK, ctx1)

/-- The function `StreamLoadWithSqlAction::_process_put`: the returned status
and the context afterwards. -/
def _process_put (env : Env) (cfg : Config) (header : String → String)
    (ctx : StreamLoadContext) : Except Abort (Status × StreamLoadContext) :=
  if !empty (header HTTP_EXEC_MEM_LIMIT) then
    match stoll (header HTTP_EXEC_MEM_LIMIT) with
    | Except.error Abort.invalid_argument =>
      Except.ok (Status.InvalidArgument "Invalid mem limit format", ctx)
    | Except.error e => Except.error e
    | Except.ok v => Except.ok (exec_put env ctx (put_request env cfg header ctx v))
  else
    Except.ok (exec_put env ctx (put_request env cfg header ctx cfg.stream_load_exec_mem_limit))

/-! ## Header processing -/

/-- The value of `csv_max_body_bytes` at line 304. -/
def csv_max_body_bytes (cfg : Config) : Nat :=
  to_size_t (cfg.streaming_load_max_mb * 1024 * 1024)

/-- The value of `json_max_body_bytes` at line 305. -/
def json_max_body_bytes (cfg : Config) : Nat :=
  to_size_t (cfg.streaming_load_json_max_mb * 1024 * 1024)

/-- The value of `read_json_by_line` after lines 306-311. -/
def read_json_by_line (header : String → String) : Bool :=
  !empty (header HTTP_READ_JSON_BY_LINE) && iequal (header HTTP_READ_JSON_BY_LINE) "true"

/-- The function `StreamLoadWithSqlAction::_data_saved_path`. -/
def _data_saved_path (env : Env) : Status × Option String :=
  if !env.allocate_dir.1.ok then (env.allocate_dir.1, none)
  else (Status.OK, some (env.allocate_dir.2 ++ env.time_suffix))

/-- Lines 341-360 of `_on_header`: the choice of the sink and the
registration of the context. -/
def _on_header_sink (env : Env) (ctx : StreamLoadContext) : Status × StreamLoadContext :=
  let ctx1 := { ctx with use_streaming := _is_format_support_streaming ctx.format }
  if ctx1.use_streaming then
    let ctx2 := { ctx1 with
      need_schema_buffer := true
      body_sink := some (new_pipe ctx1.body_bytes)
      pipe := true }
    if !env.new_load_stream_mgr_put.ok then (env.new_load_stream_mgr_put, ctx2)
    else (Status.OK, { ctx2 with txn_id := 0 })
  else
    let ctx2 := { ctx1 with need_schema_buffer := false }
    match _data_saved_path env with
    | (st, none) => (st, ctx2)
    | (_, some path) =>
      let ctx3 := { ctx2 with path := path }
      if !(env.file_open path).ok then (env.file_open path, ctx3)
      else
        let ctx4 := { ctx3 with body_sink := some (new_file_sink path) }
        if !env.new_load_stream_mgr_put.ok then (env.new_load_stream_mgr_put, ctx4)
        else (Status.OK, { ctx4 with txn_id := 0 })

/-- Lines 333-360 of `_on_header`: the timeout header, then the sink. -/
def _on_header_timeout (env : Env) (header : String → String) (ctx : StreamLoadContext) :
    Except Abort (Status × StreamLoadContext) :=
  if !empty (header HTTP_TIMEOUT) then
    match stoi (header HTTP_TIMEOUT) with
    | Except.error Abort.invalid_argument =>
      Except.ok (Status.InvalidArgument "Invalid timeout format", ctx)
    | Except.error e => Except.error e
    | Except.ok v => Except.ok (_on_header_sink env { ctx with timeout_second := v })
  else Except.ok (_on_header_sink env ctx)

/-- Lines 302-360 of `_on_header`: the content-length check and what follows. -/
def _on_header_length (env : Env) (cfg : Config) (header : String → String)
    (ctx : StreamLoadContext) : Except Abort (Status × StreamLoadContext) :=
  let ctx1 := { ctx with body_bytes := 0 }
  if !empty (header CONTENT_LENGTH) then
    match stol (header CONTENT_LENGTH) with
    | Except.error e => Except.error e
    | Except.ok v =>
      let ctx2 := { ctx1 with body_bytes := to_size_t v }
      if decide (ctx2.format = TFileFormatType.FORMAT_JSON) &&
          decide (ctx2.body_bytes > json_max_body_bytes cfg) && !read_json_by_line header then
        Except.ok (Status.InternalError
          ("The size of this batch exceed the max size [" ++ toString (json_max_body_bytes cfg)
            ++ "]  of json type data  data [ " ++ toString ctx2.body_bytes
            ++ " ]. Split the file, or use \x27read_json_by_line\x27"), ctx2)
      else if ctx2.body_bytes > csv_max_body_bytes cfg then
        Except.ok (Status.InternalError
          ("body exceed max size: " ++ toString (csv_max_body_bytes cfg) ++ ", data: "
            ++ toString ctx2.body_bytes), ctx2)
      else _on_header_timeout env header ctx2
  else _on_header_timeout env header ctx1

/-- The value of `format_str` handed to `_parse_format` (lines 288-294). -/
def header_format_str (header : String → String) : String :=
  if iequal (header HTTP_FORMAT_KEY) BeConsts.CSV_WITH_NAMES ||
      iequal (header HTTP_FORMAT_KEY) BeConsts.CSV_WITH_NAMES_AND_TYPES then BeConsts.CSV
  else header HTTP_FORMAT_KEY

/-- The value `_parse_format` writes to `ctx->format` at line 295. -/
def parsed_format (header : String → String) : TFileFormatType :=
  (_parse_format (header_format_str header) (header HTTP_COMPRESS_TYPE)).1

/-- Lines 288-296 of `_on_header`: the context once the format is parsed. -/
def after_parse (header : String → String) (ctx : StreamLoadContext) : StreamLoadContext :=
  let ctx1 :=
    if iequal (header HTTP_FORMAT_KEY) BeConsts.CSV_WITH_NAMES ||
        iequal (header HTTP_FORMAT_KEY) BeConsts.CSV_WITH_NAMES_AND_TYPES then
      { ctx with header_type := header HTTP_FORMAT_KEY }
    else ctx
  { ctx1 with
    format := parsed_format header
    compress_type := (_parse_format (header_format_str header) (header HTTP_COMPRESS_TYPE)).2 }

/-- The function `StreamLoadWithSqlAction::_on_header`: the returned status
and the context afterwards.  The call that caps the body size of the
connection when no length is declared (line 329) acts on the connection only
and is left out. -/
def _on_header (env : Env) (cfg : Config) (header : String → String)
    (ctx : StreamLoadContext) : Except Abort (Status × StreamLoadContext) :=
  if !empty (header HTTP_COMPRESS_TYPE) && iequal (header HTTP_FORMAT_KEY) "JSON" then
    Except.ok (Status.InternalError "compress data of JSON format is not supported.", ctx)
  else
    let ctx2 := after_parse header ctx
    if ctx2.format = TFileFormatType.FORMAT_UNKNOWN then
      Except.ok (Status.InternalError
        ("unknown data format, format=" ++ header HTTP_FORMAT_KEY), ctx2)
    else _on_header_length env cfg header ctx2

/-- Lines 245-256 of `on_header`: the new context with its label and
two-phase-commit flag. -/
def new_context (env : Env) (header : String → String) : StreamLoadContext :=
  { fresh_context env with
    label :=
      if empty (header HTTP_LABEL_KEY) then env.generate_uuid_string
      else header HTTP_LABEL_KEY
    two_phase_commit := decide (header HTTP_TWO_PHASE_COMMIT = "true") }

/-- The function `StreamLoadWithSqlAction::on_header`: the value returned
(`0` or `-1`) and the request afterwards.  Saving the load record (lines
272-275) and the metrics are left out. -/
def on_header (env : Env) (cfg : Config) (req : HttpRequest) : Except Abort (Int × HttpRequest) :=
  match _on_header env cfg req.header (new_context env req.header) with
  | Except.error e => Except.error e
  | Except.ok (st, ctx2) =>
    if !st.ok then
      let ctx3 := { ctx2 with status := st }
      let ctx4 :=
        match ctx3.body_sink with
        | some sink => { ctx3 with body_sink := some (sink.cancel (env.to_string ctx3.status)) }
        | none => ctx3
      Except.ok (-1, { req with
        handler_ctx := some ctx4
        replies := req.replies ++ [env.to_json ctx4 ++ "\n"] })
    else Except.ok (0, { req with handler_ctx := some ctx2 })

/-! ## Body chunks -/

/-- The number of bytes the schema loop can still take when the schema buffer
holds `schema_buffer_size` bytes: whole buffers of `stream_buffer_size` bytes
for as long as the test at line 378 lets the loop go on. -/
def sniff_room (cfg : Config) (schema_buffer_size : Nat) : Nat :=
  stream_buffer_size * ((cfg.stream_tvf_buffer_size - schema_buffer_size) / stream_buffer_size)

/-- The call `ctx->body_sink->append(bb)`: the status, and the sink with the
buffer logged when the call succeeded. -/
def sink_append (env : Env) (sink : MessageBodySink) (bb : List Byte) :
    Status × MessageBodySink :=
  let st := env.append sink bb
  if st.ok then (st, { sink with appended := sink.appended ++ [bb] }) else (st, sink)

/-- The call `memcpy(buf + offset, data, data.length)`. -/
def memcpy_at (buf : List Byte) (offset : Nat) (data : List Byte) : List Byte :=
  buf.take offset ++ data ++ buf.drop (offset + data.length)

/-- State of a loop of `on_chunk_data` when control leaves it: the context,
what is left in the `evbuffer`, and whether the function returned from inside
the loop. -/
structure LoopExit where
  ctx : StreamLoadContext
  evbuf : List Byte
  returned : Bool

/-- The loop at lines 377-393 (schema buffering).  Every iteration removes at
least one byte, so `fuel = evbuffer length` iterations are enough. -/
def sniff_loop (env : Env) (cfg : Config) :
    Nat → StreamLoadContext → List Byte → Except Abort LoopExit
  | 0, ctx, evbuf => Except.ok ⟨ctx, evbuf, false⟩
  | fuel + 1, ctx, evbuf =>
    if evbuf.length > 0 then
      if ctx.schema_buffer_size + stream_buffer_size > cfg.stream_tvf_buffer_size then
        Except.ok ⟨ctx, evbuf, false⟩
      else
        let bb := evbuf.take stream_buffer_size
        let remove_bytes := bb.length
        let evbuf1 := evbuf.drop stream_buffer_size
        match ctx.body_sink with
        | none => Except.error Abort.null_dereference
        | some sink =>
          let r := sink_append env sink bb
          if !r.1.ok then
            Except.ok ⟨{ ctx with body_sink := some r.2, status := r.1 }, evbuf1, true⟩
          else
            sniff_loop env cfg fuel
              { ctx with
                body_sink := some r.2
                schema_buffer := memcpy_at ctx.schema_buffer ctx.schema_buffer_size bb
                schema_buffer_size := ctx.schema_buffer_size + remove_bytes }
              evbuf1
    else Except.ok ⟨ctx, evbuf, false⟩

/-- The loop at lines 405-421 (replay of the schema buffer into the new pipe);
`remove_bytes` is the local read offset.  Every iteration lowers
`schema_buffer_size`, so `fuel = schema_buffer_size` iterations are enough.
The result is the context and whether the function returned from inside the
loop. -/
def replay_loop (env : Env) :
    Nat → StreamLoadContext → Nat → Except Abort (StreamLoadContext × Bool)
  | 0, ctx, _ => Except.ok (ctx, false)
  | fuel + 1, ctx, remove_bytes =>
    if ctx.schema_buffer_size > 0 then
      let cur_remove_bytes := min ctx.schema_buffer_size stream_buffer_size
      let bb := (ctx.schema_buffer.drop remove_bytes).take cur_remove_bytes
      let ctx1 := { ctx with
        schema_buffer_size := ctx.schema_buffer_size - cur_remove_bytes
        receive_bytes := ctx.receive_bytes + cur_remove_bytes }
      match ctx1.body_sink with
      | none => Except.error Abort.null_dereference
      | some sink =>
        let r := sink_append env sink bb
        if !r.1.ok then Except.ok ({ ctx1 with body_sink := some r.2, status := r.1 }, true)
        else
          replay_loop env fuel { ctx1 with body_sink := some r.2 }
            (remove_bytes + cur_remove_bytes)
    else Except.ok (ctx, false)

/-- The loop at lines 429-441 (direct forwarding). -/
def forward_loop (env : Env) :
    Nat → StreamLoadContext → List Byte → Except Abort LoopExit
  | 0, ctx, evbuf => Except.ok ⟨ctx, evbuf, false⟩
  | fuel + 1, ctx, evbuf =>
    if evbuf.length > 0 then
      let bb := evbuf.take stream_buffer_size
      let remove_bytes := bb.length
      let evbuf1 := evbuf.drop stream_buffer_size
      match ctx.body_sink with
      | none => Except.error Abort.null_dereference
      | some sink =>
        let r := sink_append env sink bb
        if !r.1.ok then
          Except.ok ⟨{ ctx with body_sink := some r.2, status := r.1 }, evbuf1, true⟩
        else
          forward_loop env fuel
            { ctx with body_sink := some r.2, receive_bytes := ctx.receive_bytes + remove_bytes }
            evbuf1
    else Except.ok ⟨ctx, evbuf, false⟩

/-- Lines 394-425 of `on_chunk_data`: end of the schema read, the plan call,
the new pipe and the replay. -/
def restore_pipe (env : Env) (cfg : Config) (header : String → String)
    (ctx : StreamLoadContext) : Except Abort StreamLoadContext :=
  match ctx.body_sink with
  | none => Except.error Abort.null_dereference
  | some sink =>
    let ctx1 := { ctx with body_sink := some { sink with finish_calls := sink.finish_calls + 1 } }
    match _process_put env cfg header ctx1 with
    | Except.error e => Except.error e
    | Except.ok (st, ctx2) =>
      let ctx3 := { ctx2 with
        status := st
        body_sink := some (restored_pipe ctx2.body_bytes)
        pipe := true }
      match replay_loop env ctx3.schema_buffer_size ctx3 0 with
      | Except.error e => Except.error e
      | Except.ok (ctx4, true) => Except.ok ctx4
      | Except.ok (ctx4, false) =>
        Except.ok { ctx4 with
          restore_pipe_promise := ctx4.restore_pipe_promise ++ [ctx4.status]
          need_schema_buffer := false
          need_wait_restore_pipe := false }

/-- The function `StreamLoadWithSqlAction::on_chunk_data`: the request after
the call. -/
def on_chunk_data (env : Env) (cfg : Config) (req : HttpRequest) : Except Abort HttpRequest :=
  match req.handler_ctx with
  | none => Except.ok req
  | some ctx =>
    if !ctx.status.ok then Except.ok req
    else if ctx.need_schema_buffer then
      match sniff_loop env cfg req.input_buffer.length ctx req.input_buffer with
      | Except.error e => Except.error e
      | Except.ok ⟨ctx1, evbuf1, true⟩ =>
        Except.ok { req with handler_ctx := some ctx1, input_buffer := evbuf1 }
      | Except.ok ⟨ctx1, evbuf1, false⟩ =>
        if ctx1.schema_buffer_size ≠ 0 then
          match restore_pipe env cfg req.header ctx1 with
          | Except.error e => Except.error e
          | Except.ok ctx2 =>
            Except.ok { req with handler_ctx := some ctx2, input_buffer := evbuf1 }
        else Except.ok { req with handler_ctx := some ctx1, input_buffer := evbuf1 }
    else
      match forward_loop env req.input_buffer.length ctx req.input_buffer with
      | Except.error e => Except.error e
      | Except.ok ⟨ctx1, evbuf1, _⟩ =>
        Except.ok { req with handler_ctx := some ctx1, input_buffer := evbuf1 }

/-- Arrival of the payload: each chunk is added to the input buffer of the
request and `on_chunk_data` is called.  Bytes a call leaves in the buffer are
still there at the next call. -/
def deliver (env : Env) (cfg : Config) : List (List Byte) → HttpRequest → Except Abort HttpRequest
  | [], req => Except.ok req
  | chunk :: rest, req =>
    match on_chunk_data env cfg { req with input_buffer := req.input_buffer ++ chunk } with
    | Except.error e => Except.error e
    | Except.ok req1 => deliver env cfg rest req1

/-! ## End of the request -/

/-- The function `StreamLoadWithSqlAction::_handle`: the returned status and
the context afterwards. -/
def _handle (env : Env) (cfg : Config) (header : String → String) (ctx : StreamLoadContext) :
    Except Abort (Status × StreamLoadContext) :=
  if ctx.body_bytes > 0 ∧ ctx.receive_bytes ≠ ctx.body_bytes then
    Except.ok (Status.InternalError "receive body don\x27t equal with body bytes", ctx)
  else
    let wait (ctx1 : StreamLoadContext) : Status × StreamLoadContext :=
      match env.future with
      | none => (Status.TimedOut "stream load timeout", ctx1)
      | some st => if !st.ok then (st, ctx1) else (ctx1.status, ctx1)
    if !ctx.use_streaming then
      match _process_put env cfg header { ctx with body_sink := none } with
      | Except.error e => Except.error e
      | Except.ok (_, ctx1) => Except.ok (wait ctx1)
    else
      match ctx.body_sink with
      | none => Except.error Abort.null_dereference
      | some sink =>
        let ctx1 := { ctx with
          body_sink := some { sink with finish_calls := sink.finish_calls + 1 } }
        if !(env.finish sink).ok then Except.ok (env.finish sink, ctx1)
        else Except.ok (wait ctx1)

/-- The loop at lines 187-202 of `handle`: `k` status calls have been made;
the result is the number of calls made in all and the first answer whose
status is OK, or `none` when `fuel` calls brought none. -/
def poll_status (env : Env) : Nat → Nat → Option (Nat × TStreamLoadWithLoadStatusResult)
  | 0, _ => none
  | fuel + 1, k =>
    let result := env.streamLoadWithLoadStatus k
    if result.status.ok then some (k + 1, result) else poll_status env fuel (k + 1)

/-- Lines 167-171 of `handle`: a status that is neither OK nor
`PUBLISH_TIMEOUT` cancels the body sink, when there is one, with the text of the
status. -/
def cancel_if_failed (env : Env) (ctx : StreamLoadContext) : StreamLoadContext :=
  if !ctx.status.ok && !ctx.status.is TStatusCode.PUBLISH_TIMEOUT then
    match ctx.body_sink with
    | some sink => { ctx with body_sink := some (sink.cancel (env.to_string ctx.status)) }
    | none => ctx
  else ctx

/-- The reply of `handle` (lines 174-177 and 204-207): the JSON text of the
context and a newline, passed to `HttpChannel::send_reply`. -/
def send_reply (env : Env) (req : HttpRequest) (ctx : StreamLoadContext) : HttpRequest :=
  { req with handler_ctx := some ctx, replies := req.replies ++ [env.to_json ctx ++ "\n"] }

/-- The function `StreamLoadWithSqlAction::handle`.  `fuel` bounds the number
of status calls; `none` means that the status loop made `fuel` calls without a
definitive answer.  Saving the load record (lines 208-211) and the metrics are
left out. -/
def handle (env : Env) (cfg : Config) (fuel : Nat) (req : HttpRequest) :
    Except Abort (Option HttpRequest) :=
  match req.handler_ctx with
  | none => Except.ok (some req)
  | some ctx =>
    let r : Except Abort StreamLoadContext :=
      if ctx.status.ok then
        match _handle env cfg req.header ctx with
        | Except.error e => Except.error e
        | Except.ok (st, ctx1) => Except.ok { ctx1 with status := st }
      else Except.ok ctx
    match r with
    | Except.error e => Except.error e
    | Except.ok ctx1 =>
      let ctx2 := cancel_if_failed env ctx1
      if !ctx2.status.ok then Except.ok (some (send_reply env req ctx2))
      else
        match poll_status env fuel 0 with
        | none => Except.ok none
        | some (_, result) =>
          Except.ok (some (send_reply env req { ctx2 with
            txn_id := result.txn_id
            number_total_rows := result.total_rows
            number_loaded_rows := result.loaded_rows
            number_filtered_rows := result.filtered_rows
            number_unselected_rows := result.unselected_rows }))

/-- The function `StreamLoadWithSqlAction::free_handler_ctx`. -/
def free_handler_ctx (param : Option StreamLoadContext) : Option StreamLoadContext :=
  match param with
  | none => none
  | some ctx =>
    match ctx.body_sink with
    | some sink => some { ctx with body_sink := some (sink.cancel "sender is gone") }
    | none => some ctx

/-! ## Properties in the words of the specification, and sample inputs -/

/-- The accepted (format, compression) pairs as the specification lists them:
an empty, CSV, csv_with_names or csv_with_names_and_types format with an empty,
GZ, LZO, BZ2, LZ4, LZOP or DEFLATE compression; JSON with empty compression;
PARQUET; ORC; all compared without regard to case. -/
def format_accepted (f c : String) : Prop :=
  ((empty f = true ∨ iequal f "CSV" = true ∨ iequal f "csv_with_names" = true ∨
        iequal f "csv_with_names_and_types" = true) ∧
      (empty c = true ∨ iequal c "GZ" = true ∨ iequal c "LZO" = true ∨ iequal c "BZ2" = true ∨
        iequal c "LZ4" = true ∨ iequal c "LZOP" = true ∨ iequal c "DEFLATE" = true)) ∨
    (iequal f "JSON" = true ∧ empty c = true) ∨ iequal f "PARQUET" = true ∨ iequal f "ORC" = true

instance (f c : String) : Decidable (format_accepted f c) := by
  unfold format_accepted; infer_instance

/-- A declared size `n` is over the ceiling: the format is JSON, the request
does not read JSON by line and `n` exceeds the JSON ceiling, or `n` exceeds the
general ceiling. -/
def size_over (cfg : Config) (header : String → String) (n : Nat) : Prop :=
  (parsed_format header = TFileFormatType.FORMAT_JSON ∧ read_json_by_line header = false ∧
      n > json_max_body_bytes cfg) ∨
    n > csv_max_body_bytes cfg

instance (cfg : Config) (header : String → String) (n : Nat) : Decidable (size_over cfg header n) := by
  unfold size_over; infer_instance

/-- A declared size `n` is over the ceiling, in the words of the claim and from
the request headers and the configuration alone: the format header names JSON,
the header `read_json_by_line` is not `true`, and `n` exceeds the JSON ceiling;
or `n` exceeds the general (CSV) ceiling.  Letter case is ignored in the two
header values; a ceiling is the configured number of megabytes in bytes, as an
unsigned 64-bit number. -/
def declared_size_over (cfg : Config) (header : String → String) (n : Nat) : Prop :=
  (iequal (header "format") "JSON" = true ∧ iequal (header "read_json_by_line") "true" = false ∧
      n > to_size_t (cfg.streaming_load_json_max_mb * 1024 * 1024)) ∨
    n > to_size_t (cfg.streaming_load_max_mb * 1024 * 1024)

instance (cfg : Config) (header : String → String) (n : Nat) :
    Decidable (declared_size_over cfg header n) := by
  unfold declared_size_over; infer_instance

/-- The steps of `_on_header` that depend on the surroundings all succeed. -/
def sink_steps_ok (env : Env) : Prop :=
  env.new_load_stream_mgr_put.ok = true ∧ env.allocate_dir.1.ok = true ∧
    ∀ p, (env.file_open p).ok = true

/-- Every `append` succeeds. -/
def appends_ok (env : Env) : Prop := ∀ sink bb, (env.append sink bb).ok = true

/-- The formats with a streaming sink, as the specification lists them. -/
def streaming_formats : List TFileFormatType :=
  [TFileFormatType.FORMAT_CSV_PLAIN, TFileFormatType.FORMAT_CSV_GZ, TFileFormatType.FORMAT_CSV_LZO,
   TFileFormatType.FORMAT_CSV_BZ2, TFileFormatType.FORMAT_CSV_LZ4FRAME,
   TFileFormatType.FORMAT_CSV_LZOP, TFileFormatType.FORMAT_CSV_DEFLATE,
   TFileFormatType.FORMAT_JSON]

/-- Sample surroundings: every sink call and remote call succeeds, the
completion future delivers OK, the first status answer is definitive. -/
def sample_env : Env where
  append := fun _ _ => Status.OK
  finish := fun _ => Status.OK
  streamLoadPut := fun _ => (Status.OK, Status.OK)
  future := some Status.OK
  streamLoadWithLoadStatus := fun _ => ⟨Status.OK, 7, 1, 1, 0, 0⟩
  allocate_dir := (Status.OK, "/load/")
  time_suffix := "20230601120000.0"
  file_open := fun _ => Status.OK
  new_load_stream_mgr_put := Status.OK
  generate_uuid_string := "uuid"
  gen_uid := 1
  backend_id := some 10001
  to_json := fun ctx => ctx.status.msg
  to_string := fun st => st.msg

/-- Sample configuration with the sniff ceiling left open: a general body
ceiling of 10240 MB and a JSON ceiling of 100 MB. -/
def sample_cfg (stream_tvf_buffer_size : Nat) : Config where
  streaming_load_max_mb := 10240
  streaming_load_json_max_mb := 100
  stream_tvf_buffer_size := stream_tvf_buffer_size
  stream_load_exec_mem_limit := 2147483648
  stream_load_exec_timeout_second := 600
  thrift_rpc_timeout_ms := 10000
  enable_stream_load_record := false

/-- Sample headers: a format, a compression and a content length. -/
def sample_header (format compress content_length : String) : String → String :=
  fun key =>
    if key = HTTP_FORMAT_KEY then format
    else if key = HTTP_COMPRESS_TYPE then compress
    else if key = CONTENT_LENGTH then content_length
    else ""

/-- The context `_on_header` hands back (the entry context when it throws). -/
def on_header_context (env : Env) (cfg : Config) (header : String → String)
    (ctx : StreamLoadContext) : StreamLoadContext :=
  match _on_header env cfg header ctx with
  | Except.ok (_, ctx1) => ctx1
  | Except.error _ => ctx

/-- Sample request with the given headers, before `on_header`. -/
def sample_request (format compress content_length : String) : HttpRequest where
  header := sample_header format compress content_length
  input_buffer := []
  handler_ctx := none
  replies := []

/-- The calls the HTTP server makes while a request arrives: `on_header`, then,
when it returned 0, `on_chunk_data` for every chunk of the body. -/
def receive (env : Env) (cfg : Config) (req : HttpRequest) (chunks : List (List Byte)) :
    Except Abort HttpRequest :=
  match on_header env cfg req with
  | Except.error e => Except.error e
  | Except.ok (ret, req1) => if ret = 0 then deliver env cfg chunks req1 else Except.ok req1

/-- The context of the request once headers and chunks have arrived. -/
def received_context (env : Env) (cfg : Config) (req : HttpRequest)
    (chunks : List (List Byte)) : Option StreamLoadContext :=
  match receive env cfg req chunks with
  | Except.ok req1 => req1.handler_ctx
  | Except.error _ => none

/-- The bytes still unread in the input buffer once headers and chunks have
arrived. -/
def received_unread (env : Env) (cfg : Config) (req : HttpRequest)
    (chunks : List (List Byte)) : Option (List Byte) :=
  match receive env cfg req chunks with
  | Except.ok req1 => some req1.input_buffer
  | Except.error _ => none

/-- The context of the request after `handle`. -/
def handled_context (env : Env) (cfg : Config) (fuel : Nat) (req : HttpRequest) :
    Option StreamLoadContext :=
  match handle env cfg fuel req with
  | Except.ok (some req1) => req1.handler_ctx
  | _ => none

/-- The whole request: arrival, then `handle`; the final context. -/
def served_context (env : Env) (cfg : Config) (fuel : Nat) (req : HttpRequest)
    (chunks : List (List Byte)) : Option StreamLoadContext :=
  match receive env cfg req chunks with
  | Except.ok req1 => handled_context env cfg fuel req1
  | Except.error _ => none

/-- The context of a sample request once headers and chunks have arrived in
the given surroundings (a fresh context when the arrival throws). -/
def sample_received (env : Env) (format content_length : String) (chunks : List (List Byte)) :
    StreamLoadContext :=
  (received_context env (sample_cfg 1048576) (sample_request format "" content_length)
    chunks).getD (fresh_context env)

/-- Sample surroundings in which the completion signal is not set within the
wait. -/
def timeout_env : Env := { sample_env with future := none }

/-- The status of a failed plan call in the samples. -/
def plan_failure : Status := ⟨TStatusCode.RPC_ERROR, "plan failed"⟩

/-- Sample surroundings in which the plan call fails and, no execution having
started, the completion signal is never set. -/
def plan_failure_env : Env :=
  { sample_env with streamLoadPut := fun _ => (plan_failure, Status.OK), future := none }

/-! ## Call sequences and their invariant -/

/-- The requests the handler can hold: what `on_header` hands back when it
returns 0, and from there every call of `on_chunk_data`, on whatever has
arrived in the input buffer, and of `handle`, in any order, each call in
surroundings of its own. -/
inductive Reachable (cfg : Config) : HttpRequest → Prop where
  | start (env : Env) (req0 req : HttpRequest) :
      on_header env cfg req0 = Except.ok (0, req) → Reachable cfg req
  | chunk (env : Env) (req req1 : HttpRequest) (data : List Byte) :
      Reachable cfg req →
      on_chunk_data env cfg { req with input_buffer := req.input_buffer ++ data } =
        Except.ok req1 →
      Reachable cfg req1
  | finish (env : Env) (fuel : Nat) (req req1 : HttpRequest) :
      Reachable cfg req → handle env cfg fuel req = Except.ok (some req1) → Reachable cfg req1

/-- The schema buffer has been replayed in full into the pipe that took the
place of the first sink: the sink of the context is that pipe, nothing is left
to replay, and the bytes the pipe accepted begin with the schema buffer. -/
def fully_replayed (ctx : StreamLoadContext) : Prop :=
  match ctx.body_sink with
  | some sink =>
    sink.serial = 1 ∧ ctx.schema_buffer_size = 0 ∧ ctx.schema_buffer <+: sink.bytes
  | none => False

instance (ctx : StreamLoadContext) : Decidable (fully_replayed ctx) := by
  unfold fully_replayed; split <;> infer_instance

/-- What holds of the context of every request the handler can hold: the
bounds of the schema buffer, and one of three stages: before the pipe swap
(no promise value, the first sink or none, the schema buffer filled up to
`schema_buffer_size`), after a replay that broke off (no promise value, a
failed status, the new pipe holding less than the schema buffer), or after a
full replay (one promise value, schema buffering ended). -/
def handler_inv (cfg : Config) (ctx : StreamLoadContext) : Prop :=
  ctx.schema_buffer_size ≤ cfg.stream_tvf_buffer_size ∧
  ctx.schema_buffer.length ≤ cfg.stream_tvf_buffer_size ∧
  ((ctx.restore_pipe_promise = [] ∧
      (∀ sink, ctx.body_sink = some sink → sink.serial = 0) ∧
      ctx.schema_buffer.length = ctx.schema_buffer_size ∧
      (ctx.need_schema_buffer = true → ctx.use_streaming = true)) ∨
    (ctx.restore_pipe_promise = [] ∧ ctx.need_schema_buffer = true ∧
      ctx.use_streaming = true ∧ ctx.status.ok = false ∧
      ∃ sink, ctx.body_sink = some sink ∧ sink.serial = 1 ∧
        sink.bytes.length < ctx.schema_buffer.length) ∨
    (∃ st, ctx.restore_pipe_promise = [st] ∧ ctx.need_schema_buffer = false ∧
      ctx.use_streaming = true ∧ fully_replayed ctx))

/-- The status of a failed append in the samples. -/
def replay_failure : Status := ⟨TStatusCode.CANCELLED, "cancelled"⟩

/-- Sample surroundings in which the plan call fails and every append on the
pipe that replaces the first sink fails too. -/
def replay_failure_env : Env :=
  { plan_failure_env with
    append := fun sink _ => if sink.serial = 1 then replay_failure else Status.OK }

/-- The headers `header` with the value of `key` replaced. -/
def with_header (header : String → String) (key value : String) : String → String :=
  fun k => if k = key then value else header k

/-- Sample surroundings in which the first two status answers are not
definitive and the third is. -/
def polling_env : Env :=
  { sample_env with
    streamLoadWithLoadStatus := fun k =>
      if k < 2 then ⟨⟨TStatusCode.INTERNAL_ERROR, "not finished"⟩, 99, 5, 5, 5, 5⟩
      else ⟨Status.OK, 7, 3, 2, 1, 0⟩ }

/-- Sample surroundings in which the completion future delivers a publish
timeout. -/
def publish_timeout_env : Env :=
  { sample_env with future := some ⟨TStatusCode.PUBLISH_TIMEOUT, "publish timeout"⟩ }

/-! ## The bounded pipe -/

/-- Modelled from the spec: the `BoundedPipe` of sections 3 and 4.1, which is
the class `io::StreamLoadPipe`; its source is not among the sources.  An
ordered queue of byte chunks, a capacity in bytes, the declared total length,
an end-of-stream flag and a cancellation flag that carries the reason. -/
structure BoundedPipe where
  capacity : Nat
  total_length : Nat
  queue : List (List Byte)
  finished : Bool
  cancelled : Option String
  deriving DecidableEq, Repr

namespace BoundedPipe

/-- Modelled from the spec: the pipe made by the constructor call
`StreamLoadPipe(max_buffered_bytes, min_chunk_size, total_length)` of lines
345-347 and 399-401: nothing queued, not finished, not cancelled.  The minimum
chunk size is a performance hint only (section 4.1) and is left out. -/
def create (max_buffered_bytes total_length : Nat) : BoundedPipe :=
  ⟨max_buffered_bytes, total_length, [], false, none⟩

/-- Modelled from the spec: the sum of the bytes of the queued, unconsumed
chunks. -/
def buffered (p : BoundedPipe) : Nat := (p.queue.map List.length).sum

end BoundedPipe

/-- Modelled from the spec: how a call on the pipe stands at one instant: it
has returned (`ok`, a chunk, end of stream, `Cancelled(reason)`, or the refusal
of an append after `finish`), or its caller is blocked in it. -/
inductive PipeOutcome where
  | ok
  | chunk (bytes : List Byte)
  | end_of_stream
  | cancelled (reason : String)
  | refused
  | blocked
  deriving DecidableEq, Repr

namespace BoundedPipe

/-- Modelled from the spec: `append(chunk)` of section 4.1.  It fails with
`Cancelled` on a cancelled pipe, appends nothing once end-of-stream is set,
blocks while the buffered bytes with the chunk would exceed the capacity, and
else queues the chunk. -/
def append (p : BoundedPipe) (chunk : List Byte) : PipeOutcome × BoundedPipe :=
  match p.cancelled with
  | some reason => (PipeOutcome.cancelled reason, p)
  | none =>
    if p.finished then (PipeOutcome.refused, p)
    else if p.buffered + chunk.length > p.capacity then (PipeOutcome.blocked, p)
    else (PipeOutcome.ok, { p with queue := p.queue ++ [chunk] })

/-- Modelled from the spec: `read(max_bytes)` of section 4.1.  It observes
`Cancelled` on a cancelled pipe, blocks while the queue is empty and the stream
is not finished, reports the end of the stream once the queue is empty after
`finish`, and else hands out the next chunk, whole or cut at `max_bytes`, the
rest staying at the head of the queue. -/
def read (p : BoundedPipe) (max_bytes : Nat) : PipeOutcome × BoundedPipe :=
  match p.cancelled with
  | some reason => (PipeOutcome.cancelled reason, p)
  | none =>
    match p.queue with
    | [] => if p.finished then (PipeOutcome.end_of_stream, p) else (PipeOutcome.blocked, p)
    | c :: rest =>
      if c.length ≤ max_bytes then (PipeOutcome.chunk c, { p with queue := rest })
      else (PipeOutcome.chunk (c.take max_bytes), { p with queue := c.drop max_bytes :: rest })

/-- Modelled from the spec: `finish()`, which marks that no more data will
arrive. -/
def finish (p : BoundedPipe) : BoundedPipe := { p with finished := true }

/-- Modelled from the spec: `cancel(reason)`: it sets the cancellation flag;
the first reason wins. -/
def cancel (p : BoundedPipe) (reason : String) : BoundedPipe :=
  match p.cancelled with
  | some _ => p
  | none => { p with cancelled := some reason }

end BoundedPipe

/-- A call on the pipe. -/
inductive PipeOp where
  | append (chunk : List Byte)
  | read (max_bytes : Nat)
  | finish
  | cancel (reason : String)
  deriving DecidableEq, Repr

namespace BoundedPipe

/-- The pipe after one call. -/
def step (p : BoundedPipe) : PipeOp → BoundedPipe
  | PipeOp.append chunk => (p.append chunk).2
  | PipeOp.read max_bytes => (p.read max_bytes).2
  | PipeOp.finish => p.finish
  | PipeOp.cancel reason => p.cancel reason

/-- The pipe after a sequence of calls, in the order in which they take
effect. -/
def run (p : BoundedPipe) (ops : List PipeOp) : BoundedPipe := ops.foldl step p

/-- What the call `op` gives on the pipe as it stands. -/
def outcome (p : BoundedPipe) : PipeOp → PipeOutcome
  | PipeOp.append chunk => (p.append chunk).1
  | PipeOp.read max_bytes => (p.read max_bytes).1
  | PipeOp.finish => PipeOutcome.ok
  | PipeOp.cancel _ => PipeOutcome.ok

end BoundedPipe

/-! ## Schema scanners: slots, columns and blocks -/

/-- The members of `PrimitiveType` that the sources name.  The enumeration is
declared in `runtime/define_primitive_type.h`, which is not among the sources;
`TYPE_OTHER` stands for each of its remaining members, all of which the
switches of `fill_dest_column` and `write_slot_to_vectorized_column` leave to
`default`. -/
inductive PrimitiveType where
  | TYPE_BOOLEAN
  | TYPE_TINYINT
  | TYPE_SMALLINT
  | TYPE_INT
  | TYPE_BIGINT
  | TYPE_LARGEINT
  | TYPE_FLOAT
  | TYPE_DOUBLE
  | TYPE_VARCHAR
  | TYPE_DATE
  | TYPE_DATETIME
  | TYPE_CHAR
  | TYPE_HLL
  | TYPE_DECIMALV2
  | TYPE_STRING
  | TYPE_DATEV2
  | TYPE_DATETIMEV2
  | TYPE_DECIMAL32
  | TYPE_DECIMAL64
  | TYPE_DECIMAL128I
  | TYPE_OTHER
  deriving DecidableEq, Repr

/-- A `DateTimeValue` (`runtime/datetime_value.h`, not among the sources), as
the number its bytes form. -/
structure DateTimeValue where
  packed : Nat
  deriving DecidableEq, Repr

/-- Functions the scanners call whose code is not among the sources:
`VecDateTimeValue::convert_dt_to_vec_dt` followed by the read of the eight
bytes of the result, `DateTimeValue::from_unixtime` in the default time zone,
`SchemaHelper::extract_db_name`, and the printing of a `PrimitiveType`. -/
structure ScanEnv where
  convert_dt_to_vec_dt : DateTimeValue → Int
  from_unixtime : Int → DateTimeValue
  extract_db_name : String → String
  type_to_string : PrimitiveType → String

/-- What a non-null `void* data` points to: bytes that are read as a number
(given as the unsigned little-endian number formed by the sixteen bytes at the
address), a `StringRef`, a `DateTimeValue` or a `HyperLogLog`. -/
inductive SlotData where
  | number (raw : Nat)
  | string (s : String)
  | datetime (v : DateTimeValue)
  | hll (h : Nat)
  deriving DecidableEq, Repr

/-- A value held by a column: the default a nested column inserts under a
null, the number of a `ColumnVector` or decimal column, the bits of a floating
point column, a string, or a `HyperLogLog`. -/
inductive Field where
  | Default
  | Int (v : Int)
  | Float (bits : Nat)
  | String (s : String)
  | HLL (h : Nat)
  deriving DecidableEq, Repr

/-- The value of `*reinterpret_cast<uintN_t*>(data)` for `N = bits`. -/
def read_unsigned (bits raw : Nat) : Nat := raw % 2 ^ bits

/-- The value of `*reinterpret_cast<intN_t*>(data)` for `N = bits`, in two\x27s
complement. -/
def read_signed (bits raw : Nat) : Int :=
  if raw % 2 ^ bits < 2 ^ (bits - 1) then ((raw % 2 ^ bits : Nat) : Int)
  else ((raw % 2 ^ bits : Nat) : Int) - ((2 ^ bits : Nat) : Int)

/-- The eight bytes that the store of a 64-bit integer (`int64_t` or `size_t`)
leaves in a slot. -/
def store64 (v : Int) : SlotData := SlotData.number (to_size_t v)

/-- How the switch on the type ends for one datum: with a value for the
nested column, in the `default` branch, or with undefined behaviour because
the datum is not of the kind the branch casts it to. -/
inductive Converted where
  | value (f : Field)
  | bad_type
  | undefined
  deriving DecidableEq, Repr

/-- A branch of the switch that reads the datum as a number. -/
def as_number (data : SlotData) (f : Nat → Field) : Converted :=
  match data with
  | SlotData.number raw => Converted.value (f raw)
  | _ => Converted.undefined

/-- The switch on the type in `SchemaScanner::fill_dest_column`
(schema_scanner.cpp, lines 150-283) and, with the same branches, in
`VSchemaScanNode::write_slot_to_vectorized_column` (vschema_scan_node.cpp,
lines 307-437).  In the `TYPE_DATETIMEV2` branch the 64-bit value read from the
slot initialises `uint32_t num`, which is then inserted into the `UInt64`
column. -/
def convert_slot (senv : ScanEnv) (type : PrimitiveType) (data : SlotData) : Converted :=
  match type with
  | PrimitiveType.TYPE_HLL =>
    match data with
    | SlotData.hll h => Converted.value (Field.HLL h)
    | _ => Converted.undefined
  | PrimitiveType.TYPE_VARCHAR | PrimitiveType.TYPE_CHAR | PrimitiveType.TYPE_STRING =>
    match data with
    | SlotData.string s => Converted.value (Field.String s)
    | _ => Converted.undefined
  | PrimitiveType.TYPE_BOOLEAN =>
    match data with
    | SlotData.number raw =>
      if read_unsigned 8 raw ≤ 1 then Converted.value (Field.Int (read_unsigned 8 raw))
      else Converted.undefined
    | _ => Converted.undefined
  | PrimitiveType.TYPE_TINYINT => as_number data (fun raw => Field.Int (read_signed 8 raw))
  | PrimitiveType.TYPE_SMALLINT => as_number data (fun raw => Field.Int (read_signed 16 raw))
  | PrimitiveType.TYPE_INT => as_number data (fun raw => Field.Int (read_signed 32 raw))
  | PrimitiveType.TYPE_BIGINT => as_number data (fun raw => Field.Int (read_signed 64 raw))
  | PrimitiveType.TYPE_LARGEINT => as_number data (fun raw => Field.Int (read_signed 128 raw))
  | PrimitiveType.TYPE_FLOAT => as_number data (fun raw => Field.Float (read_unsigned 32 raw))
  | PrimitiveType.TYPE_DOUBLE => as_number data (fun raw => Field.Float (read_unsigned 64 raw))
  | PrimitiveType.TYPE_DATE | PrimitiveType.TYPE_DATETIME =>
    match data with
    | SlotData.datetime v => Converted.value (Field.Int (senv.convert_dt_to_vec_dt v))
    | _ => Converted.undefined
  | PrimitiveType.TYPE_DATEV2 => as_number data (fun raw => Field.Int (read_unsigned 32 raw))
  | PrimitiveType.TYPE_DATETIMEV2 =>
    as_number data (fun raw =>
      let num : Nat := read_unsigned 64 raw % 2 ^ 32
      Field.Int num)
  | PrimitiveType.TYPE_DECIMALV2 | PrimitiveType.TYPE_DECIMAL128I =>
    as_number data (fun raw => Field.Int (read_signed 128 raw))
  | PrimitiveType.TYPE_DECIMAL32 => as_number data (fun raw => Field.Int (read_signed 32 raw))
  | PrimitiveType.TYPE_DECIMAL64 => as_number data (fun raw => Field.Int (read_signed 64 raw))
  | PrimitiveType.TYPE_OTHER => Converted.bad_type

/-- A `SchemaScanner::ColumnDesc`. -/
structure ColumnDesc where
  name : String
  type : PrimitiveType
  size : Nat
  is_null : Bool
  deriving DecidableEq, Repr

/-- A column of a block: the null map and the nested column of a
`vectorized::ColumnNullable`.  A column that is not nullable has the nested
part only, its null map staying empty. -/
structure ColumnNullable where
  null_map : List Nat
  nested : List Field
  deriving DecidableEq, Repr

/-- Modelled from the spec: `ColumnNullable::insert_data(nullptr, 0)`, whose
code is not among the sources and on which the spec is silent: as the class
does elsewhere in the repository, it inserts a default into the nested column
and marks the cell as null. -/
def ColumnNullable.insert_null (c : ColumnNullable) : ColumnNullable :=
  ⟨c.null_map ++ [1], c.nested ++ [Field.Default]⟩

/-- A `vectorized::ColumnWithTypeAndName`; the data type is left out. -/
structure ColumnWithTypeAndName where
  column : ColumnNullable
  name : String
  deriving DecidableEq, Repr

/-- A `vectorized::Block`: its columns by position. -/
structure Block where
  data : List ColumnWithTypeAndName
  deriving DecidableEq, Repr

namespace Block

/-- The result of `Block::has(name)`. -/
def has (block : Block) (name : String) : Bool :=
  block.data.any (fun c => decide (c.name = name))

/-- The position `Block::get_by_name(name)` resolves to: the first column of
that name. -/
def position_of (block : Block) (name : String) : Nat :=
  block.data.findIdx (fun c => decide (c.name = name))

/-- The block after the column at `pos` was changed in place. -/
def set_column (block : Block) (pos : Nat) (column : ColumnNullable) : Block :=
  ⟨block.data.modify (fun c => { c with column := column }) pos⟩

/-- The column at `pos`, as `get_by_position(pos).column`; `none` past the
last column, where the access is undefined. -/
def column_at (block : Block) (pos : Nat) : Option ColumnNullable :=
  (block.data[pos]?).map (fun c => c.column)

end Block

/-- The block `VSchemaScanNode::get_next` hands to the scanner (lines
264-269): one empty column per slot, under the name of the slot. -/
def empty_block (names : List String) : Block :=
  ⟨names.map (fun name => ⟨⟨[], []⟩, name⟩)⟩

/-- The part of `fill_dest_column` after the column was fetched (lines
142-285): a null datum inserts a null cell; else the null map gets a zero and
the switch appends the converted value, or fails in its `default` branch with
the null map already extended. -/
def fill_cell (senv : ScanEnv) (col_desc : ColumnDesc) (data : Option SlotData)
    (column : ColumnNullable) : Option (Status × ColumnNullable) :=
  match data with
  | none => some (Status.OK, column.insert_null)
  | some d =>
    let column := { column with null_map := column.null_map ++ [0] }
    match convert_slot senv col_desc.type d with
    | Converted.value f => some (Status.OK, { column with nested := column.nested ++ [f] })
    | Converted.bad_type =>
      some (Status.InternalError
        ("Fail to convert schema type:\x27" ++ senv.type_to_string col_desc.type
          ++ " on column:\x60" ++ col_desc.name ++ "\x60"), column)
    | Converted.undefined => none

/-- `SchemaScanner::fill_dest_column(block, data, col_desc)`
(schema_scanner.cpp, lines 133-285).  A block without a column of that name is
left alone.  `none` is undefined behaviour. -/
def fill_dest_column (senv : ScanEnv) (block : Block) (data : Option SlotData)
    (col_desc : ColumnDesc) : Option (Status × Block) :=
  if !block.has col_desc.name then some (Status.OK, block)
  else
    match block.column_at (block.position_of col_desc.name) with
    | none => none
    | some column =>
      match fill_cell senv col_desc data column with
      | none => none
      | some (st, column) => some (st, block.set_column (block.position_of col_desc.name) column)

/-- The cells a call of `fill_dest_column_for_range` adds for its data, one
after the other, up to the first that fails. -/
def fill_cells (senv : ScanEnv) (col_desc : ColumnDesc) :
    List (Option SlotData) → ColumnNullable → Option (Status × ColumnNullable)
  | [], column => some (Status.OK, column)
  | data :: rest, column =>
    match fill_cell senv col_desc data column with
    | none => none
    | some (st, column) =>
      if st.ok then fill_cells senv col_desc rest column else some (st, column)

/-- Modelled from the spec: `SchemaScanner::fill_dest_column_for_range(block,
pos, datas)`, which the scanners call and whose definition is not among the
sources.  The spec is silent on it; it is modelled on `fill_dest_column` and on
its call sites: it adds to the column at position `pos` one cell for each entry
of `datas`, in order, each in the way `fill_dest_column` adds a cell for the
column description `_columns[pos]`. -/
def fill_dest_column_for_range (senv : ScanEnv) (columns : List ColumnDesc) (block : Block)
    (pos : Nat) (datas : List (Option SlotData)) : Option (Status × Block) :=
  match columns[pos]?, block.column_at pos with
  | some col_desc, some column =>
    match fill_cells senv col_desc datas column with
    | none => none
    | some (st, column) => some (st, block.set_column pos column)
  | _, _ => none

/-- A run of calls of `fill_dest_column_for_range`, one after the other on the
same block, each given by its position and its data; the statuses are
dropped, as the scanners drop them. -/
def fill_ranges (senv : ScanEnv) (columns : List ColumnDesc) :
    Block → List (Nat × List (Option SlotData)) → Option Block
  | block, [] => some block
  | block, (pos, datas) :: rest =>
    match fill_dest_column_for_range senv columns block pos datas with
    | none => none
    | some (_, block) => fill_ranges senv columns block rest

/-- A `SlotDescriptor`, as far as the scan node reads it. -/
structure SlotDescriptor where
  col_name : String
  type : PrimitiveType
  is_nullable : Bool
  is_materialized : Bool
  deriving DecidableEq, Repr

/-- `VSchemaScanNode::write_slot_to_vectorized_column(slot, slot_desc,
column_ptr)` (vschema_scan_node.cpp, lines 299-440): for a nullable slot the
null map gets a zero, then the switch appends the converted value. -/
def write_slot_to_vectorized_column (senv : ScanEnv) (slot : SlotData)
    (slot_desc : SlotDescriptor) (column : ColumnNullable) : Option (Status × ColumnNullable) :=
  let column :=
    if slot_desc.is_nullable then { column with null_map := column.null_map ++ [0] } else column
  match convert_slot senv slot_desc.type slot with
  | Converted.value f => some (Status.OK, { column with nested := column.nested ++ [f] })
  | Converted.bad_type =>
    some (Status.InternalError
      ("Fail to convert schema type:\x27" ++ senv.type_to_string slot_desc.type
        ++ " on column:\x60" ++ slot_desc.col_name ++ "\x60"), column)
  | Converted.undefined => none

/-- A scan environment for examples. -/
def sample_scan_env : ScanEnv where
  convert_dt_to_vec_dt := fun v => (v.packed : Int)
  from_unixtime := fun t => ⟨t.toNat⟩
  extract_db_name := fun db => db
  type_to_string := fun _ => "type"

/-! ## The scanner base class -/

/-- A `SchemaScannerParam` (`exec/schema_scanner.h`, not among the sources), as
far as the sources read it. -/
structure SchemaScannerParam where
  db : Option String
  table : Option String
  wild : Option String
  user : Option String
  user_ip : Option String
  ip : Option String
  port : Int
  catalog : Option String
  deriving DecidableEq, Repr

/-- An `ObjectPool`, of which only the address is used. -/
structure ObjectPool where
  id : Nat
  deriving DecidableEq, Repr

/-- The state of a `SchemaScanner` that the base class reads and writes. -/
structure SchemaScanner where
  _is_init : Bool
  _param : Option SchemaScannerParam
  _columns : List ColumnDesc
  deriving DecidableEq, Repr

namespace SchemaScanner

/-- The constructors of `SchemaScanner` (schema_scanner.cpp, lines 44-51). -/
def construct (columns : List ColumnDesc) : SchemaScanner := ⟨false, none, columns⟩

/-- `SchemaScanner::start` (lines 55-61). -/
def start (s : SchemaScanner) : Status :=
  if !s._is_init then Status.InternalError "call Start before Init."
  else Status.OK

/-- `SchemaScanner::get_next_block(block, eos)` of the base class (lines
63-74).  A pointer is `none` when null; the result holds the status and what
`eos` points to afterwards. -/
def get_next_block (s : SchemaScanner) (block : Option Block) (eos : Option Bool) :
    Status × Option Bool :=
  if !s._is_init then (Status.InternalError "used before initialized.", eos)
  else if block.isNone || eos.isNone then (Status.InternalError "input pointer is nullptr.", eos)
  else (Status.OK, some true)

/-- `SchemaScanner::init(param, pool)` (lines 76-92). -/
def init (s : SchemaScanner) (param : Option SchemaScannerParam) (pool : Option ObjectPool) :
    Status × SchemaScanner :=
  if s._is_init then (Status.OK, s)
  else if param.isNone || pool.isNone then (Status.InternalError "invalid parameter", s)
  else if s._columns.isEmpty then (Status.InternalError "invalid parameter", s)
  else (Status.OK, { s with _param := param, _is_init := true })

/-- The scanner after a sequence of `init` calls, with the statuses they
returned. -/
def inits : SchemaScanner → List (Option SchemaScannerParam × Option ObjectPool) →
    List Status × SchemaScanner
  | s, [] => ([], s)
  | s, (param, pool) :: rest =>
    ((s.init param pool).1 :: (inits (s.init param pool).2 rest).1,
      (inits (s.init param pool).2 rest).2)

end SchemaScanner

/-! ## The rowsets scanner -/

/-- What the scanner reads of a rowset, each field the value its getter
returns. -/
structure Rowset where
  rowset_id : String
  tablet_id : Int
  num_rows : Int
  txn_id : Int
  num_segments : Int
  start_version : Int
  end_version : Int
  index_disk_size : Int
  data_disk_size : Int
  creation_time : Int
  oldest_write_timestamp : Int
  newest_write_timestamp : Int
  deriving DecidableEq, Repr

/-- A `SchemaRowsetsScanner`. -/
structure SchemaRowsetsScanner extends SchemaScanner where
  backend_id_ : Int
  rowsets_ : List Rowset
  _rowsets_idx : Nat
  deriving DecidableEq, Repr

namespace SchemaRowsetsScanner

/-- The table `SchemaRowsetsScanner::_s_tbls_columns`
(schema_rowsets_scanner.cpp, lines 33-50). -/
def _s_tbls_columns : List ColumnDesc :=
  [⟨"BACKEND_ID", PrimitiveType.TYPE_BIGINT, 8, true⟩,
   ⟨"ROWSET_ID", PrimitiveType.TYPE_VARCHAR, 16, true⟩,
   ⟨"TABLET_ID", PrimitiveType.TYPE_BIGINT, 8, true⟩,
   ⟨"ROWSET_NUM_ROWS", PrimitiveType.TYPE_BIGINT, 8, true⟩,
   ⟨"TXN_ID", PrimitiveType.TYPE_BIGINT, 8, true⟩,
   ⟨"NUM_SEGMENTS", PrimitiveType.TYPE_BIGINT, 8, true⟩,
   ⟨"START_VERSION", PrimitiveType.TYPE_BIGINT, 8, true⟩,
   ⟨"END_VERSION", PrimitiveType.TYPE_BIGINT, 8, true⟩,
   ⟨"INDEX_DISK_SIZE", PrimitiveType.TYPE_BIGINT, 8, true⟩,
   ⟨"DATA_DISK_SIZE", PrimitiveType.TYPE_BIGINT, 8, true⟩,
   ⟨"CREATION_TIME", PrimitiveType.TYPE_BIGINT, 8, true⟩,
   ⟨"OLDEST_WRITE_TIMESTAMP", PrimitiveType.TYPE_BIGINT, 8, true⟩,
   ⟨"NEWEST_WRITE_TIMESTAMP", PrimitiveType.TYPE_BIGINT, 8, true⟩]

/-- The constructor (lines 52-55). -/
def construct : SchemaRowsetsScanner :=
  { SchemaScanner.construct _s_tbls_columns with backend_id_ := 0, rowsets_ := [], _rowsets_idx := 0 }

/-- `SchemaRowsetsScanner::fill_one_row(tuple, pool)` (lines 99-174).  The
tuple is given by its thirteen slots; `none` is the undefined read of
`rowsets_[_rowsets_idx]` past the end. -/
def fill_one_row (s : SchemaRowsetsScanner) (tuple : List SlotData) :
    Option (Status × SchemaRowsetsScanner × List SlotData) :=
  match s.rowsets_[s._rowsets_idx]? with
  | none => none
  | some rowset =>
    let tuple := tuple.set 0 (store64 s.backend_id_)
    let tuple := tuple.set 1 (SlotData.string rowset.rowset_id)
    let tuple := tuple.set 2 (store64 rowset.tablet_id)
    let tuple := tuple.set 3 (store64 rowset.num_rows)
    let tuple := tuple.set 4 (store64 rowset.txn_id)
    let tuple := tuple.set 5 (store64 rowset.num_segments)
    let tuple := tuple.set 6 (store64 rowset.start_version)
    let tuple := tuple.set 7 (store64 rowset.end_version)
    let tuple := tuple.set 8 (store64 rowset.index_disk_size)
    let tuple := tuple.set 9 (store64 rowset.data_disk_size)
    let tuple := tuple.set 10 (store64 rowset.creation_time)
    let tuple := tuple.set 11 (store64 rowset.oldest_write_timestamp)
    let tuple := tuple.set 12 (store64 rowset.newest_write_timestamp)
    some (Status.OK, { s with _rowsets_idx := s._rowsets_idx + 1 }, tuple)

/-- `SchemaRowsetsScanner::get_next_row(tuple, pool, eos)` (lines 66-79). -/
def get_next_row (s : SchemaRowsetsScanner) (tuple : Option (List SlotData))
    (pool : Option ObjectPool) (eos : Option Bool) :
    Option (Status × SchemaRowsetsScanner × Option (List SlotData) × Option Bool) :=
  if !s._is_init then some (Status.InternalError "Used before initialized.", s, tuple, eos)
  else
    match tuple, pool, eos with
    | some t, some _, some _ =>
      if s._rowsets_idx ≥ s.rowsets_.length then some (Status.OK, s, some t, some true)
      else
        match s.fill_one_row t with
        | none => none
        | some (st, s1, t1) => some (st, s1, some t1, some false)
    | _, _, _ => some (Status.InternalError "input pointer is nullptr.", s, tuple, eos)

/-- The array `datas` one block of `_fill_block_impl` builds: for each `i` from
`fill_idx_begin` up to `fill_idx_end`, the address of what `get` takes from
`rowsets_[i]`. -/
def range_datas (s : SchemaRowsetsScanner) (fill_idx_begin fill_rowsets_num : Nat)
    (get : Rowset → SlotData) : List (Option SlotData) :=
  ((s.rowsets_.drop fill_idx_begin).take fill_rowsets_num).map (fun rowset => some (get rowset))

/-- `SchemaRowsetsScanner::_fill_block_impl(block)` (lines 192-321): twelve
blocks, each of which fills one column position for the rowsets from
`_rowsets_idx` on, a thousand at most; the statuses of
`fill_dest_column_for_range` are dropped.  The subtraction is the one of
`size_t`.  `none` is undefined behaviour: a read of `rowsets_` past its end, or
an index that does not fit the loop variable `int i`. -/
def _fill_block_impl (senv : ScanEnv) (s : SchemaRowsetsScanner) (block : Block) :
    Option (Status × SchemaRowsetsScanner × Block) :=
  let fill_rowsets_num :=
    min 1000 ((s.rowsets_.length + 2 ^ 64 - s._rowsets_idx % 2 ^ 64) % 2 ^ 64)
  let fill_idx_begin := s._rowsets_idx
  let fill_idx_end := s._rowsets_idx + fill_rowsets_num
  let datas := s.range_datas fill_idx_begin fill_rowsets_num
  if fill_idx_end ≤ s.rowsets_.length ∧ fill_idx_end < 2 ^ 31 then
    match fill_ranges senv s._columns block
      [ -- BACKEND_ID
        (0, List.replicate fill_rowsets_num (some (store64 s.backend_id_))),
        -- ROWSET_ID
        (1, datas (fun rowset => SlotData.string rowset.rowset_id)),
        -- TABLET_ID
        (2, datas (fun rowset => store64 rowset.tablet_id)),
        -- ROWSET_NUM_ROWS
        (3, datas (fun rowset => store64 rowset.num_rows)),
        -- TXN_ID
        (4, datas (fun rowset => store64 rowset.txn_id)),
        -- NUM_SEGMENTS
        (5, datas (fun rowset => store64 rowset.num_segments)),
        -- START_VERSION
        (6, datas (fun rowset => store64 rowset.start_version)),
        -- END_VERSION
        (7, datas (fun rowset => store64 rowset.end_version)),
        -- INDEX_DISK_SIZE
        (8, datas (fun rowset => store64 rowset.index_disk_size)),
        -- DATA_DISK_SIZE
        (9, datas (fun rowset => store64 rowset.data_disk_size)),
        -- CREATION_TIME
        (10, datas (fun rowset => store64 rowset.creation_time)),
        -- NEWEST_WRITE_TIMESTAMP
        (11, datas (fun rowset => store64 rowset.newest_write_timestamp)) ] with
    | none => none
    | some block =>
      some (Status.OK, { s with _rowsets_idx := s._rowsets_idx + fill_rowsets_num }, block)
  else none

/-- `SchemaRowsetsScanner::get_next_block(block, eos)` (lines 176-190). -/
def get_next_block (senv : ScanEnv) (s : SchemaRowsetsScanner) (block : Option Block)
    (eos : Option Bool) : Option (Status × SchemaRowsetsScanner × Option Block × Option Bool) :=
  if !s._is_init then some (Status.InternalError "Used before initialized.", s, block, eos)
  else
    match block, eos with
    | some b, some _ =>
      if s._rowsets_idx ≥ s.rowsets_.length then some (Status.OK, s, some b, some true)
      else
        match s._fill_block_impl senv b with
        | none => none
        | some (st, s1, b1) => some (st, s1, some b1, some false)
    | _, _ => some (Status.InternalError "input pointer is nullptr.", s, block, eos)

/-- Repeated calls of `get_next_block`, `count` of them, each on the block the
call before left: the scanner and the block afterwards, and the statuses and
the values of `eos` the calls gave, the first call first. -/
def calls (senv : ScanEnv) : Nat → SchemaRowsetsScanner → Block →
    Option (SchemaRowsetsScanner × Block × List (Status × Bool))
  | 0, s, block => some (s, block, [])
  | count + 1, s, block =>
    match s.get_next_block senv (some block) (some false) with
    | some (st, s1, some block1, some eos) =>
      match calls senv count s1 block1 with
      | none => none
      | some (s2, block2, log) => some (s2, block2, (st, eos) :: log)
    | _ => none

end SchemaRowsetsScanner

/-! ## The tables scanner -/

/-- The `__isset` flags of a `TTableStatus` that the scanner tests. -/
structure TTableStatus_isset where
  engine : Bool
  rows : Bool
  avg_row_length : Bool
  data_length : Bool
  create_time : Bool
  update_time : Bool
  last_check_time : Bool
  collation : Bool
  deriving DecidableEq, Repr

/-- A `TTableStatus` of the front end, as far as the scanner reads it. -/
structure TTableStatus where
  name : String
  type : String
  comment : String
  engine : String
  rows : Int
  avg_row_length : Int
  data_length : Int
  create_time : Int
  update_time : Int
  last_check_time : Int
  collation : String
  __isset : TTableStatus_isset
  deriving DecidableEq, Repr

/-- A `TGetDbsResult`. -/
structure TGetDbsResult where
  dbs : List String
  catalogs : List String
  deriving DecidableEq, Repr

/-- A `TListTableStatusResult`. -/
structure TListTableStatusResult where
  tables : List TTableStatus
  deriving DecidableEq, Repr

/-- A `SchemaTablesScanner`. -/
structure SchemaTablesScanner extends SchemaScanner where
  _db_index : Nat
  _db_result : TGetDbsResult
  _table_result : TListTableStatusResult
  deriving DecidableEq, Repr

namespace SchemaTablesScanner

/-- The table `SchemaTablesScanner::_s_tbls_columns`
(schema_tables_scanner.cpp, lines 28-51). -/
def _s_tbls_columns : List ColumnDesc :=
  [⟨"TABLE_CATALOG", PrimitiveType.TYPE_VARCHAR, 16, true⟩,
   ⟨"TABLE_SCHEMA", PrimitiveType.TYPE_VARCHAR, 16, false⟩,
   ⟨"TABLE_NAME", PrimitiveType.TYPE_VARCHAR, 16, false⟩,
   ⟨"TABLE_TYPE", PrimitiveType.TYPE_VARCHAR, 16, false⟩,
   ⟨"ENGINE", PrimitiveType.TYPE_VARCHAR, 16, true⟩,
   ⟨"VERSION", PrimitiveType.TYPE_BIGINT, 8, true⟩,
   ⟨"ROW_FORMAT", PrimitiveType.TYPE_VARCHAR, 16, true⟩,
   ⟨"TABLE_ROWS", PrimitiveType.TYPE_BIGINT, 8, true⟩,
   ⟨"AVG_ROW_LENGTH", PrimitiveType.TYPE_BIGINT, 8, true⟩,
   ⟨"DATA_LENGTH", PrimitiveType.TYPE_BIGINT, 8, true⟩,
   ⟨"MAX_DATA_LENGTH", PrimitiveType.TYPE_BIGINT, 8, true⟩,
   ⟨"INDEX_LENGTH", PrimitiveType.TYPE_BIGINT, 8, true⟩,
   ⟨"DATA_FREE", PrimitiveType.TYPE_BIGINT, 8, true⟩,
   ⟨"AUTO_INCREMENT", PrimitiveType.TYPE_BIGINT, 8, true⟩,
   ⟨"CREATE_TIME", PrimitiveType.TYPE_DATETIME, 16, true⟩,
   ⟨"UPDATE_TIME", PrimitiveType.TYPE_DATETIME, 16, true⟩,
   ⟨"CHECK_TIME", PrimitiveType.TYPE_DATETIME, 16, true⟩,
   ⟨"TABLE_COLLATION", PrimitiveType.TYPE_VARCHAR, 16, true⟩,
   ⟨"CHECKSUM", PrimitiveType.TYPE_BIGINT, 8, true⟩,
   ⟨"CREATE_OPTIONS", PrimitiveType.TYPE_VARCHAR, 16, true⟩,
   ⟨"TABLE_COMMENT", PrimitiveType.TYPE_VARCHAR, 16, false⟩]

/-- One loop of `fill_block_imp` over the tables, for the slot `slot`: each
pass makes one call of `fill_dest_column` with a datum (`some data`, of which
`some none` is the call with `nullptr`) or makes no call (`none`).  The status
of a call is dropped.  The overload of `fill_dest_column` that takes
`_tuple_desc->slots()[slot]` is not among the sources; the slot describes the
column `_columns[slot]`, and the call is taken as the one with that column
description. -/
def fill_loop (senv : ScanEnv) (columns : List ColumnDesc) (slot : Nat) :
    Block → List (Option (Option SlotData)) → Option Block
  | block, [] => some block
  | block, none :: rest => fill_loop senv columns slot block rest
  | block, some data :: rest =>
    match columns[slot]? with
    | none => none
    | some col_desc =>
      match fill_dest_column senv block data col_desc with
      | none => none
      | some (_, block) => fill_loop senv columns slot block rest

/-- The body of the loops for `create_time`, `update_time` and
`last_check_time` (lines 230-268): with the field set, a null for a time that
is not positive and else the `DateTimeValue` of the time; with the field not
set, no call. -/
def time_datum (senv : ScanEnv) (isset : Bool) (time : Int) : Option (Option SlotData) :=
  if isset then
    if time ≤ 0 then some none
    else some (some (SlotData.datetime (senv.from_unixtime time)))
  else none

/-- The loops of `fill_block_imp`, one after the other on the same block, each
given by its slot and by what its passes do. -/
def fill_loops (senv : ScanEnv) (columns : List ColumnDesc) :
    Block → List (Nat × List (Option (Option SlotData))) → Option Block
  | block, [] => some block
  | block, (slot, passes) :: rest =>
    match fill_loop senv columns slot block passes with
    | none => none
    | some block => fill_loops senv columns block rest

/-- `SchemaTablesScanner::fill_block_imp(block)` (lines 137-301): twenty-one
loops over the tables, one for each slot.  `none` is undefined behaviour, as
the read of `catalogs[_db_index - 1]` past the end is. -/
def fill_block_imp (senv : ScanEnv) (s : SchemaTablesScanner) (block : Block) :
    Option (Status × Block) :=
  let tables := s._table_result.tables
  if s._db_index = 0 then none
  else
    match s._db_result.catalogs[s._db_index - 1]?, s._db_result.dbs[s._db_index - 1]? with
    | some catalog_name, some db =>
      match fill_loops senv s._columns block
        [ -- catalog
          (0, tables.map (fun _ => some (some (SlotData.string catalog_name)))),
          -- schema
          (1, tables.map (fun _ => some (some (SlotData.string (senv.extract_db_name db))))),
          -- name
          (2, tables.map (fun t => some (some (SlotData.string t.name)))),
          -- type
          (3, tables.map (fun t => some (some (SlotData.string t.type)))),
          -- engine
          (4, tables.map (fun t =>
            if t.__isset.engine then some (some (SlotData.string t.engine)) else some none)),
          -- version
          (5, tables.map (fun _ => some none)),
          -- row_format
          (6, tables.map (fun _ => some none)),
          -- rows
          (7, tables.map (fun t =>
            if t.__isset.rows then some (some (store64 t.rows)) else some none)),
          -- avg_row_length
          (8, tables.map (fun t =>
            if t.__isset.avg_row_length then some (some (store64 t.avg_row_length))
            else some none)),
          -- data_length
          (9, tables.map (fun t =>
            if t.__isset.avg_row_length then some (some (store64 t.data_length))
            else some none)),
          -- max_data_length
          (10, tables.map (fun _ => some none)),
          -- index_length
          (11, tables.map (fun _ => some none)),
          -- data_free
          (12, tables.map (fun _ => some none)),
          -- auto_increment
          (13, tables.map (fun _ => some none)),
          -- creation_time
          (14, tables.map (fun t => time_datum senv t.__isset.create_time t.create_time)),
          -- update_time
          (15, tables.map (fun t => time_datum senv t.__isset.update_time t.update_time)),
          -- check_time
          (16, tables.map (fun t =>
            time_datum senv t.__isset.last_check_time t.last_check_time)),
          -- collation
          (17, tables.map (fun t =>
            if t.__isset.collation then some (some (SlotData.string t.collation))
            else some none)),
          -- checksum
          (18, tables.map (fun _ => some none)),
          -- create_options
          (19, tables.map (fun _ => some none)),
          -- create_comment
          (20, tables.map (fun t => some (some (SlotData.string t.comment)))) ] with
      | none => none
      | some block => some (Status.OK, block)
    | _, _ => none

end SchemaTablesScanner

/-! ## The schema scan node -/

/-- The result of `boost::iequals(a, b)`: the strings are equal once every
character is lowered. -/
def iequals (a b : String) : Bool := decide (to_lower a = to_lower b)

/-- A `TupleDescriptor`: its slots. -/
structure TupleDescriptor where
  slots : List SlotDescriptor
  deriving DecidableEq, Repr

/-- What `VSchemaScanNode::prepare` obtains from the state and the runtime, in
the order in which it asks: the status of `ScanNode::prepare(state)`, whether
`new (std::nothrow) MemPool()` gave a pool, the tuple descriptor of
`_tuple_id` and whether it has a schema table descriptor, the scanner
`SchemaScanner::create` made, the tuple descriptor of that scanner, and
whether the three tuple buffers could be allocated. -/
structure RuntimeState where
  scan_node_prepare : Status
  mem_pool : Bool
  dest_tuple_desc : Option TupleDescriptor
  schema_table : Bool
  scanner : Option SchemaScanner
  src_tuple_desc : Option TupleDescriptor
  src_tuple : Bool
  src_single_tuple : Bool
  dest_single_tuple : Bool

/-- The members of a `VSchemaScanNode` that `prepare` reads and writes; a
buffer is given by whether it is allocated. -/
structure VSchemaScanNode where
  _is_init : Bool
  _pool : Option ObjectPool
  _scanner_param : SchemaScannerParam
  _dest_tuple_desc : Option TupleDescriptor
  _src_tuple_desc : Option TupleDescriptor
  _tuple_idx : Nat
  _slot_num : Nat
  _tuple_pool : Bool
  _schema_scanner : Option SchemaScanner
  _src_tuple : Bool
  _src_single_tuple : Bool
  _dest_single_tuple : Bool
  _index_map : List Nat
  deriving DecidableEq, Repr

namespace VSchemaScanNode

/-- The node the constructor leaves (lines 34-46). -/
def construct (pool : Option ObjectPool) (scanner_param : SchemaScannerParam) : VSchemaScanNode :=
  ⟨false, pool, scanner_param, none, none, 0, 0, false, none, false, false, false, []⟩

/-- The vector after `_index_map.resize(n)`. -/
def resize (index_map : List Nat) (n : Nat) : List Nat :=
  index_map.take n ++ List.replicate (n - index_map.length) 0

/-- The loop of lines 203-227 over the destination slots from slot `i` on.
The inner loop stops at the first source slot whose column name equals the
destination name ignoring case, or at the number of source slots. -/
def index_loop (src : List SlotDescriptor) :
    List SlotDescriptor → Nat → List Nat → Status × List Nat
  | [], _, index_map => (Status.OK, index_map)
  | dest :: rest, i, index_map =>
    let j := src.findIdx (fun s => iequals dest.col_name s.col_name)
    if j ≥ src.length then (Status.InternalError "no match column for this column.", index_map)
    else if (src[j]?).map (fun s => s.type) ≠ some dest.type then
      (Status.InternalError "schema not match.", index_map)
    else index_loop src rest (i + 1) (index_map.set i j)

/-- `VSchemaScanNode::prepare(state)` (lines 138-246). -/
def prepare (node : VSchemaScanNode) (state : Option RuntimeState) : Status × VSchemaScanNode :=
  if node._is_init then (Status.OK, node)
  else
    match state with
    | none => (Status.InternalError "state pointer is nullptr.", node)
    | some state =>
      if !state.scan_node_prepare.ok then (state.scan_node_prepare, node)
      else
        let node := { node with _tuple_pool := state.mem_pool }
        if !node._tuple_pool then (Status.InternalError "Allocate MemPool failed.", node)
        else
          let node := { node with _dest_tuple_desc := state.dest_tuple_desc }
          match node._dest_tuple_desc with
          | none => (Status.InternalError "Failed to get tuple descriptor.", node)
          | some dest =>
            let node := { node with _slot_num := dest.slots.length }
            if !state.schema_table then
              (Status.InternalError "Failed to get schema table descriptor.", node)
            else
              let node := { node with _schema_scanner := state.scanner }
              match node._schema_scanner with
              | none => (Status.InternalError "schema scanner get nullptr pointer.", node)
              | some scanner =>
                let r := scanner.init (some node._scanner_param) node._pool
                let node := { node with _schema_scanner := some r.2 }
                if !r.1.ok then (r.1, node)
                else
                  let node := { node with _src_tuple_desc := state.src_tuple_desc }
                  match node._src_tuple_desc with
                  | none => (Status.InternalError "failed to get src schema tuple desc.", node)
                  | some src =>
                    let node := { node with _src_tuple := state.src_tuple }
                    if !node._src_tuple then (Status.InternalError "new src tuple failed.", node)
                    else
                      let node :=
                        { node with
                          _slot_num := if src.slots.length = 0 then 0 else node._slot_num }
                      let node :=
                        { node with
                          _index_map :=
                            if node._slot_num > 0 then resize node._index_map node._slot_num
                            else node._index_map }
                      let r := index_loop src.slots (dest.slots.take node._slot_num) 0
                        node._index_map
                      let node := { node with _index_map := r.2 }
                      if !r.1.ok then (r.1, node)
                      else
                        let node := { node with _tuple_idx := 0, _is_init := true }
                        let node := { node with _src_single_tuple := state.src_single_tuple }
                        if !node._src_single_tuple then
                          (Status.InternalError "new src single tuple failed.", node)
                        else
                          let node :=
                            { node with _dest_single_tuple := state.dest_single_tuple }
                          if !node._dest_single_tuple then
                            (Status.InternalError "new desc single tuple failed.", node)
                          else (Status.OK, node)

end VSchemaScanNode

/-! ## Properties of the scanners, and sample inputs -/

/-- The block with `nulls` added to the null map and `values` to the nested
column of the column at `pos`. -/
def Block.append_cells (block : Block) (pos : Nat) (nulls : List Nat) (values : List Field) :
    Block :=
  ⟨block.data.modify
    (fun c => { c with column := ⟨c.column.null_map ++ nulls, c.column.nested ++ values⟩ }) pos⟩

/-- The number a `TYPE_BIGINT` column holds after a 64-bit store of `v` was
read back from the slot. -/
def bigint_field (v : Int) : Field := Field.Int (read_signed 64 (to_size_t v))

/-- The value that the block of `_fill_block_impl` for the column position
`pos` takes from a rowset: positions 0 to 10 in the order of the declared
columns, position 11 the newest write timestamp; there is no block for a
position from 12 on. -/
def SchemaRowsetsScanner.block_value (s : SchemaRowsetsScanner) (pos : Nat) (rowset : Rowset) :
    Field :=
  match pos with
  | 0 => bigint_field s.backend_id_
  | 1 => Field.String rowset.rowset_id
  | 2 => bigint_field rowset.tablet_id
  | 3 => bigint_field rowset.num_rows
  | 4 => bigint_field rowset.txn_id
  | 5 => bigint_field rowset.num_segments
  | 6 => bigint_field rowset.start_version
  | 7 => bigint_field rowset.end_version
  | 8 => bigint_field rowset.index_disk_size
  | 9 => bigint_field rowset.data_disk_size
  | 10 => bigint_field rowset.creation_time
  | 11 => bigint_field rowset.newest_write_timestamp
  | _ => Field.Default

/-- The index map of a node fits its two tuple descriptors: with a source
tuple that is not empty, the entry of each destination slot is the first source
slot of the same column name ignoring case, and that slot has the type of the
destination slot. -/
def VSchemaScanNode.index_map_valid (node : VSchemaScanNode) : Prop :=
  ∃ dest src, node._dest_tuple_desc = some dest ∧ node._src_tuple_desc = some src ∧
    (src.slots ≠ [] → ∀ (i : Nat) (d : SlotDescriptor), dest.slots[i]? = some d →
      ∃ (j : Nat) (s : SlotDescriptor), node._index_map[i]? = some j ∧ src.slots[j]? = some s ∧
        iequals d.col_name s.col_name = true ∧
        (∀ (k : Nat) (sk : SlotDescriptor), k < j → src.slots[k]? = some sk → iequals d.col_name sk.col_name = false) ∧
        s.type = d.type)

/-- A rowset whose two write timestamps differ. -/
def sample_rowset : Rowset where
  rowset_id := "020000000000000a"
  tablet_id := 10005
  num_rows := 3
  txn_id := 7
  num_segments := 1
  start_version := 2
  end_version := 2
  index_disk_size := 64
  data_disk_size := 512
  creation_time := 1700000000
  oldest_write_timestamp := 1700000100
  newest_write_timestamp := 1700000200

/-- A rowsets scanner after `init` and `start`, holding the given rowsets. -/
def sample_rowsets_scanner (rowsets : List Rowset) : SchemaRowsetsScanner :=
  { SchemaRowsetsScanner.construct with
    _is_init := true
    backend_id_ := 10001
    rowsets_ := rowsets }

/-- The empty block of the thirteen columns of the rowsets table. -/
def rowsets_block : Block :=
  empty_block (SchemaRowsetsScanner._s_tbls_columns.map (fun c => c.name))

/-- A table status in which every optional field is set but `create_time`. -/
def sample_table_status : TTableStatus where
  name := "t1"
  type := "BASE TABLE"
  comment := ""
  engine := "Doris"
  rows := 10
  avg_row_length := 8
  data_length := 80
  create_time := 0
  update_time := 1700000000
  last_check_time := 1700000000
  collation := "utf-8"
  __isset := ⟨true, true, true, true, false, true, true, true⟩

/-- A tables scanner that has fetched the tables of its first database. -/
def sample_tables_scanner (tables : List TTableStatus) : SchemaTablesScanner :=
  { SchemaScanner.construct SchemaTablesScanner._s_tbls_columns with
    _is_init := true
    _db_index := 1
    _db_result := ⟨["default_cluster:db1"], ["internal"]⟩
    _table_result := ⟨tables⟩ }

/-- The empty block of the twenty-one columns of the tables table. -/
def tables_block : Block :=
  empty_block (SchemaTablesScanner._s_tbls_columns.map (fun c => c.name))

/-- A scanner parameter with nothing set. -/
def sample_param : SchemaScannerParam := ⟨none, none, none, none, none, none, 0, none⟩

/-- A state for `prepare`: every step succeeds; the destination asks for two
columns of the source in another order and another case. -/
def sample_state : RuntimeState where
  scan_node_prepare := Status.OK
  mem_pool := true
  dest_tuple_desc := some ⟨[⟨"tablet_id", PrimitiveType.TYPE_BIGINT, true, true⟩,
    ⟨"rowset_id", PrimitiveType.TYPE_VARCHAR, true, true⟩]⟩
  schema_table := true
  scanner := some (SchemaScanner.construct SchemaRowsetsScanner._s_tbls_columns)
  src_tuple_desc := some ⟨SchemaRowsetsScanner._s_tbls_columns.map
    (fun c => ⟨c.name, c.type, c.is_null, true⟩)⟩
  src_tuple := true
  src_single_tuple := true
  dest_single_tuple := true

/-! ## Lemmas on strings and formats -/

theorem iequal_iff (a b : String) : iequal a b = true ↔ to_lower a = to_lower b := by
  unfold iequal
  constructor
  · intro h
    simp only [Bool.and_eq_true, decide_eq_true_eq] at h
    exact h.2
  · intro h
    have hl : a.data.length = b.data.length := by
      have := congrArg List.length h
      simpa [to_lower] using this
    simp [hl, h]

theorem iequal_false_of_iequal {f a b : String} (h : iequal f a = true)
    (hab : to_lower a ≠ to_lower b) : iequal f b = false := by
  rw [Bool.eq_false_iff]
  intro hb
  rw [iequal_iff] at h hb
  exact hab (h.symm.trans hb)

theorem iequal_false_of_empty {f b : String} (h : empty f = true)
    (hb : to_lower b ≠ []) : iequal f b = false := by
  rw [Bool.eq_false_iff]
  intro h2
  rw [iequal_iff] at h2
  apply hb
  rw [← h2]
  simp only [empty, List.isEmpty_iff] at h
  simp [to_lower, h]

theorem empty_false_of_iequal {f a : String} (h : iequal f a = true)
    (ha : to_lower a ≠ []) : empty f = false := by
  rw [Bool.eq_false_iff]
  intro he
  rw [iequal_false_of_empty he ha] at h
  exact Bool.false_ne_true h

theorem classify_format (f : String) :
    (empty f = true ∧ iequal f "CSV" = false ∧ iequal f "csv_with_names" = false ∧
      iequal f "csv_with_names_and_types" = false ∧ iequal f "JSON" = false ∧
      iequal f "PARQUET" = false ∧ iequal f "ORC" = false) ∨
    (empty f = false ∧ iequal f "CSV" = true ∧ iequal f "csv_with_names" = false ∧
      iequal f "csv_with_names_and_types" = false ∧ iequal f "JSON" = false ∧
      iequal f "PARQUET" = false ∧ iequal f "ORC" = false) ∨
    (empty f = false ∧ iequal f "CSV" = false ∧ iequal f "csv_with_names" = true ∧
      iequal f "csv_with_names_and_types" = false ∧ iequal f "JSON" = false ∧
      iequal f "PARQUET" = false ∧ iequal f "ORC" = false) ∨
    (empty f = false ∧ iequal f "CSV" = false ∧ iequal f "csv_with_names" = false ∧
      iequal f "csv_with_names_and_types" = true ∧ iequal f "JSON" = false ∧
      iequal f "PARQUET" = false ∧ iequal f "ORC" = false) ∨
    (empty f = false ∧ iequal f "CSV" = false ∧ iequal f "csv_with_names" = false ∧
      iequal f "csv_with_names_and_types" = false ∧ iequal f "JSON" = true ∧
      iequal f "PARQUET" = false ∧ iequal f "ORC" = false) ∨
    (empty f = false ∧ iequal f "CSV" = false ∧ iequal f "csv_with_names" = false ∧
      iequal f "csv_with_names_and_types" = false ∧ iequal f "JSON" = false ∧
      iequal f "PARQUET" = true ∧ iequal f "ORC" = false) ∨
    (empty f = false ∧ iequal f "CSV" = false ∧ iequal f "csv_with_names" = false ∧
      iequal f "csv_with_names_and_types" = false ∧ iequal f "JSON" = false ∧
      iequal f "PARQUET" = false ∧ iequal f "ORC" = true) ∨
    (empty f = false ∧ iequal f "CSV" = false ∧ iequal f "csv_with_names" = false ∧
      iequal f "csv_with_names_and_types" = false ∧ iequal f "JSON" = false ∧
      iequal f "PARQUET" = false ∧ iequal f "ORC" = false) := by
  by_cases h0 : empty f = true
  · refine Or.inl ⟨h0, ?_, ?_, ?_, ?_, ?_, ?_⟩ <;> exact iequal_false_of_empty h0 (by decide)
  by_cases h1 : iequal f "CSV" = true
  · refine Or.inr (Or.inl ⟨empty_false_of_iequal h1 (by decide), h1, ?_, ?_, ?_, ?_, ?_⟩) <;>
      exact iequal_false_of_iequal h1 (by decide)
  by_cases h2 : iequal f "csv_with_names" = true
  · refine Or.inr (Or.inr (Or.inl
      ⟨empty_false_of_iequal h2 (by decide), ?_, h2, ?_, ?_, ?_, ?_⟩)) <;>
      exact iequal_false_of_iequal h2 (by decide)
  by_cases h3 : iequal f "csv_with_names_and_types" = true
  · refine Or.inr (Or.inr (Or.inr (Or.inl
      ⟨empty_false_of_iequal h3 (by decide), ?_, ?_, h3, ?_, ?_, ?_⟩))) <;>
      exact iequal_false_of_iequal h3 (by decide)
  by_cases h4 : iequal f "JSON" = true
  · refine Or.inr (Or.inr (Or.inr (Or.inr (Or.inl
      ⟨empty_false_of_iequal h4 (by decide), ?_, ?_, ?_, h4, ?_, ?_⟩)))) <;>
      exact iequal_false_of_iequal h4 (by decide)
  by_cases h5 : iequal f "PARQUET" = true
  · refine Or.inr (Or.inr (Or.inr (Or.inr (Or.inr (Or.inl
      ⟨empty_false_of_iequal h5 (by decide), ?_, ?_, ?_, ?_, h5, ?_⟩))))) <;>
      exact iequal_false_of_iequal h5 (by decide)
  by_cases h6 : iequal f "ORC" = true
  · refine Or.inr (Or.inr (Or.inr (Or.inr (Or.inr (Or.inr (Or.inl
      ⟨empty_false_of_iequal h6 (by decide), ?_, ?_, ?_, ?_, ?_, h6⟩)))))) <;>
      exact iequal_false_of_iequal h6 (by decide)
  simp only [Bool.not_eq_true] at h0 h1 h2 h3 h4 h5 h6
  exact Or.inr (Or.inr (Or.inr (Or.inr (Or.inr (Or.inr (Or.inr ⟨h0, h1, h2, h3, h4, h5, h6⟩))))))

theorem classify_compress (c : String) :
    (empty c = true ∧ iequal c "GZ" = false ∧ iequal c "LZO" = false ∧ iequal c "BZ2" = false ∧
      iequal c "LZ4" = false ∧ iequal c "LZOP" = false ∧ iequal c "DEFLATE" = false) ∨
    (empty c = false ∧ iequal c "GZ" = true ∧ iequal c "LZO" = false ∧ iequal c "BZ2" = false ∧
      iequal c "LZ4" = false ∧ iequal c "LZOP" = false ∧ iequal c "DEFLATE" = false) ∨
    (empty c = false ∧ iequal c "GZ" = false ∧ iequal c "LZO" = true ∧ iequal c "BZ2" = false ∧
      iequal c "LZ4" = false ∧ iequal c "LZOP" = false ∧ iequal c "DEFLATE" = false) ∨
    (empty c = false ∧ iequal c "GZ" = false ∧ iequal c "LZO" = false ∧ iequal c "BZ2" = true ∧
      iequal c "LZ4" = false ∧ iequal c "LZOP" = false ∧ iequal c "DEFLATE" = false) ∨
    (empty c = false ∧ iequal c "GZ" = false ∧ iequal c "LZO" = false ∧ iequal c "BZ2" = false ∧
      iequal c "LZ4" = true ∧ iequal c "LZOP" = false ∧ iequal c "DEFLATE" = false) ∨
    (empty c = false ∧ iequal c "GZ" = false ∧ iequal c "LZO" = false ∧ iequal c "BZ2" = false ∧
      iequal c "LZ4" = false ∧ iequal c "LZOP" = true ∧ iequal c "DEFLATE" = false) ∨
    (empty c = false ∧ iequal c "GZ" = false ∧ iequal c "LZO" = false ∧ iequal c "BZ2" = false ∧
      iequal c "LZ4" = false ∧ iequal c "LZOP" = false ∧ iequal c "DEFLATE" = true) ∨
    (empty c = false ∧ iequal c "GZ" = false ∧ iequal c "LZO" = false ∧ iequal c "BZ2" = false ∧
      iequal c "LZ4" = false ∧ iequal c "LZOP" = false ∧ iequal c "DEFLATE" = false) := by
  by_cases h0 : empty c = true
  · refine Or.inl ⟨h0, ?_, ?_, ?_, ?_, ?_, ?_⟩ <;> exact iequal_false_of_empty h0 (by decide)
  by_cases h1 : iequal c "GZ" = true
  · refine Or.inr (Or.inl ⟨empty_false_of_iequal h1 (by decide), h1, ?_, ?_, ?_, ?_, ?_⟩) <;>
      exact iequal_false_of_iequal h1 (by decide)
  by_cases h2 : iequal c "LZO" = true
  · refine Or.inr (Or.inr (Or.inl
      ⟨empty_false_of_iequal h2 (by decide), ?_, h2, ?_, ?_, ?_, ?_⟩)) <;>
      exact iequal_false_of_iequal h2 (by decide)
  by_cases h3 : iequal c "BZ2" = true
  · refine Or.inr (Or.inr (Or.inr (Or.inl
      ⟨empty_false_of_iequal h3 (by decide), ?_, ?_, h3, ?_, ?_, ?_⟩))) <;>
      exact iequal_false_of_iequal h3 (by decide)
  by_cases h4 : iequal c "LZ4" = true
  · refine Or.inr (Or.inr (Or.inr (Or.inr (Or.inl
      ⟨empty_false_of_iequal h4 (by decide), ?_, ?_, ?_, h4, ?_, ?_⟩)))) <;>
      exact iequal_false_of_iequal h4 (by decide)
  by_cases h5 : iequal c "LZOP" = true
  · refine Or.inr (Or.inr (Or.inr (Or.inr (Or.inr (Or.inl
      ⟨empty_false_of_iequal h5 (by decide), ?_, ?_, ?_, ?_, h5, ?_⟩))))) <;>
      exact iequal_false_of_iequal h5 (by decide)
  by_cases h6 : iequal c "DEFLATE" = true
  · refine Or.inr (Or.inr (Or.inr (Or.inr (Or.inr (Or.inr (Or.inl
      ⟨empty_false_of_iequal h6 (by decide), ?_, ?_, ?_, ?_, ?_, h6⟩)))))) <;>
      exact iequal_false_of_iequal h6 (by decide)
  simp only [Bool.not_eq_true] at h0 h1 h2 h3 h4 h5 h6
  exact Or.inr (Or.inr (Or.inr (Or.inr (Or.inr (Or.inr (Or.inr ⟨h0, h1, h2, h3, h4, h5, h6⟩))))))

theorem iequal_csv : iequal BeConsts.CSV "CSV" = true := by decide
theorem empty_csv : empty BeConsts.CSV = false := by decide
theorem empty_CSV : empty "CSV" = false := by decide
theorem iequal_CSV : iequal "CSV" "CSV" = true := by decide

theorem parsed_format_known_iff (header : String → String) :
    parsed_format header ≠ TFileFormatType.FORMAT_UNKNOWN ↔
      format_accepted (header HTTP_FORMAT_KEY) (header HTTP_COMPRESS_TYPE) := by
  rcases classify_format (header HTTP_FORMAT_KEY) with h | h | h | h | h | h | h | h <;>
  rcases classify_compress (header HTTP_COMPRESS_TYPE) with k | k | k | k | k | k | k | k <;>
  obtain ⟨h0, h1, h2, h3, h4, h5, h6⟩ := h <;>
  obtain ⟨k0, k1, k2, k3, k4, k5, k6⟩ := k <;>
  simp [parsed_format, header_format_str, format_accepted, _parse_format, _parse_format_body,
    BeConsts.CSV_WITH_NAMES, BeConsts.CSV_WITH_NAMES_AND_TYPES, iequal_csv, empty_csv,
    empty_CSV, iequal_CSV, h0, h1, h2, h3, h4, h5, h6, k0, k1, k2, k3, k4, k5, k6]

theorem raw_parse_unknown (f c : String) (h : ¬ format_accepted f c) :
    (_parse_format f c).1 = TFileFormatType.FORMAT_UNKNOWN := by
  revert h
  rcases classify_format f with h | h | h | h | h | h | h | h <;>
  rcases classify_compress c with k | k | k | k | k | k | k | k <;>
  obtain ⟨h0, h1, h2, h3, h4, h5, h6⟩ := h <;>
  obtain ⟨k0, k1, k2, k3, k4, k5, k6⟩ := k <;>
  simp [format_accepted, _parse_format, _parse_format_body, empty_CSV, iequal_CSV,
    h0, h1, h2, h3, h4, h5, h6, k0, k1, k2, k3, k4, k5, k6]

theorem json_compress_not_accepted (f c : String)
    (h : (!empty c && iequal f "JSON") = true) : ¬ format_accepted f c := by
  simp only [Bool.and_eq_true, Bool.not_eq_true'] at h
  obtain ⟨hc, hf⟩ := h
  have e0 := empty_false_of_iequal hf (by decide)
  have e1 : iequal f "CSV" = false := iequal_false_of_iequal hf (by decide)
  have e2 : iequal f "csv_with_names" = false := iequal_false_of_iequal hf (by decide)
  have e3 : iequal f "csv_with_names_and_types" = false := iequal_false_of_iequal hf (by decide)
  have e4 : iequal f "PARQUET" = false := iequal_false_of_iequal hf (by decide)
  have e5 : iequal f "ORC" = false := iequal_false_of_iequal hf (by decide)
  simp [format_accepted, e0, e1, e2, e3, e4, e5, hc]

/-! ## Lemmas on header processing -/

theorem after_parse_format (header : String → String) (ctx : StreamLoadContext) :
    (after_parse header ctx).format = parsed_format header := by
  unfold after_parse; rfl

theorem after_parse_frame (header : String → String) (ctx : StreamLoadContext) :
    (after_parse header ctx).body_sink = ctx.body_sink ∧ (after_parse header ctx).pipe = ctx.pipe ∧
      (after_parse header ctx).use_streaming = ctx.use_streaming ∧
      (after_parse header ctx).need_schema_buffer = ctx.need_schema_buffer := by
  unfold after_parse
  split <;> simp

/-- A request whose format is not accepted is turned down at line 286 or at
line 298, with the context as it was but for the parsed format. -/
theorem on_header_format_rejected (env : Env) (cfg : Config) (header : String → String)
    (ctx : StreamLoadContext)
    (h : ¬ format_accepted (header HTTP_FORMAT_KEY) (header HTTP_COMPRESS_TYPE)) :
    _on_header env cfg header ctx =
        Except.ok (Status.InternalError "compress data of JSON format is not supported.", ctx) ∨
      _on_header env cfg header ctx =
        Except.ok (Status.InternalError
          ("unknown data format, format=" ++ header HTTP_FORMAT_KEY), after_parse header ctx) := by
  unfold _on_header
  by_cases hj : (!empty (header HTTP_COMPRESS_TYPE) && iequal (header HTTP_FORMAT_KEY) "JSON") = true
  · left; simp [hj]
  · right
    have hu : parsed_format header = TFileFormatType.FORMAT_UNKNOWN := by
      by_contra hk
      exact h ((parsed_format_known_iff header).1 hk)
    simp only [hj, after_parse_format, hu]
    simp

/-- A request whose format is accepted reaches the content-length check. -/
theorem on_header_format_passed (env : Env) (cfg : Config) (header : String → String)
    (ctx : StreamLoadContext)
    (h : format_accepted (header HTTP_FORMAT_KEY) (header HTTP_COMPRESS_TYPE)) :
    _on_header env cfg header ctx = _on_header_length env cfg header (after_parse header ctx) := by
  unfold _on_header
  have hj : (!empty (header HTTP_COMPRESS_TYPE) && iequal (header HTTP_FORMAT_KEY) "JSON") = false := by
    rw [Bool.eq_false_iff]
    intro hj
    exact json_compress_not_accepted _ _ hj h
  have hu : parsed_format header ≠ TFileFormatType.FORMAT_UNKNOWN :=
    (parsed_format_known_iff header).2 h
  simp [hj, after_parse_format, hu]

theorem stol_ok_nonempty {s : String} {v : Int} (h : stol s = Except.ok v) : empty s = false := by
  rw [Bool.eq_false_iff]
  intro he
  simp only [empty, List.isEmpty_iff] at he
  simp [stol, strto_int, he, split_sign] at h

theorem check_range_ok {lo hi v w : Int} (h : check_range lo hi v = Except.ok w) :
    w = v ∧ lo ≤ v ∧ v ≤ hi := by
  unfold check_range at h
  split at h
  · cases h
  · injection h with h
    subst h
    omega

theorem strto_int_ok_range {lo hi : Int} {s : String} {v : Int}
    (h : strto_int lo hi s = Except.ok v) : lo ≤ v ∧ v ≤ hi := by
  unfold strto_int at h
  simp only at h
  split at h
  · cases h
  · obtain ⟨h1, h2, h3⟩ := check_range_ok h
    subst h1
    exact ⟨h2, h3⟩

theorem stol_ok_range {s : String} {v : Int} (h : stol s = Except.ok v) :
    -9223372036854775808 ≤ v ∧ v ≤ 9223372036854775807 :=
  strto_int_ok_range h

theorem to_size_t_natCast (L : Nat) (h : (L : Int) ≤ 9223372036854775807) :
    to_size_t (L : Int) = L := by
  unfold to_size_t
  omega

theorem on_header_length_over (env : Env) (cfg : Config) (header : String → String)
    (ctx : StreamLoadContext) (v : Int) (hv : stol (header CONTENT_LENGTH) = Except.ok v)
    (hf : ctx.format = parsed_format header) (ho : size_over cfg header (to_size_t v)) :
    ∃ msg, _on_header_length env cfg header ctx =
      Except.ok (Status.InternalError msg, { ctx with body_bytes := to_size_t v }) := by
  unfold _on_header_length
  simp only [stol_ok_nonempty hv, hv, Bool.not_false, if_true, hf]
  unfold size_over at ho
  by_cases hj : (decide (parsed_format header = TFileFormatType.FORMAT_JSON) &&
      decide (to_size_t v > json_max_body_bytes cfg) && !read_json_by_line header) = true
  · simp only [hj, if_true]
    exact ⟨_, rfl⟩
  · simp only [hj]
    have hc : to_size_t v > csv_max_body_bytes cfg := by
      rcases ho with ⟨h1, h2, h3⟩ | h
      · exfalso; apply hj; simp [h1, h2, h3]
      · exact h
    simp only [hc, if_true]
    exact ⟨_, rfl⟩

theorem on_header_length_under (env : Env) (cfg : Config) (header : String → String)
    (ctx : StreamLoadContext) (v : Int) (hv : stol (header CONTENT_LENGTH) = Except.ok v)
    (hf : ctx.format = parsed_format header) (ho : ¬ size_over cfg header (to_size_t v)) :
    _on_header_length env cfg header ctx =
      _on_header_timeout env header { ctx with body_bytes := to_size_t v } := by
  unfold _on_header_length
  simp only [stol_ok_nonempty hv, hv, Bool.not_false, if_true, hf]
  unfold size_over at ho
  simp only [not_or, not_and] at ho
  obtain ⟨h1, h2⟩ := ho
  have hj : (decide (parsed_format header = TFileFormatType.FORMAT_JSON) &&
      decide (to_size_t v > json_max_body_bytes cfg) && !read_json_by_line header) = false := by
    rw [Bool.eq_false_iff]
    intro hj
    simp only [Bool.and_eq_true, decide_eq_true_eq, Bool.not_eq_true'] at hj
    exact h1 hj.1.1 hj.2 hj.1.2
  simp [hj, h2]

/-- What `_on_header_sink` leaves behind when it reports success. -/
theorem on_header_sink_ok (env : Env) (ctx : StreamLoadContext)
    (h : (_on_header_sink env ctx).1.ok = true) :
    (_on_header_sink env ctx).2.format = ctx.format ∧
    (_on_header_sink env ctx).2.body_bytes = ctx.body_bytes ∧
    (_on_header_sink env ctx).2.use_streaming = _is_format_support_streaming ctx.format ∧
    (_is_format_support_streaming ctx.format = true →
      (_on_header_sink env ctx).2.body_sink = some (new_pipe ctx.body_bytes) ∧
      (_on_header_sink env ctx).2.pipe = true ∧
      (_on_header_sink env ctx).2.need_schema_buffer = true) ∧
    (_is_format_support_streaming ctx.format = false →
      (_on_header_sink env ctx).2.body_sink =
        some (new_file_sink (_on_header_sink env ctx).2.path) ∧
      (_on_header_sink env ctx).2.pipe = ctx.pipe ∧
      (_on_header_sink env ctx).2.need_schema_buffer = false) := by
  revert h
  unfold _on_header_sink _data_saved_path
  cases hs : _is_format_support_streaming ctx.format <;>
  cases ha : env.allocate_dir.1.ok <;>
  cases ho : (env.file_open (env.allocate_dir.2 ++ env.time_suffix)).ok <;>
  cases hm : env.new_load_stream_mgr_put.ok <;>
  simp [hs, ha, ho, hm]

theorem on_header_sink_benign (env : Env) (ctx : StreamLoadContext) (h : sink_steps_ok env) :
    (_on_header_sink env ctx).1 = Status.OK := by
  obtain ⟨h1, h2, h3⟩ := h
  unfold _on_header_sink _data_saved_path
  by_cases hs : _is_format_support_streaming ctx.format = true
  · simp [hs, h1]
  · simp only [Bool.not_eq_true] at hs
    simp [hs, h1, h2, h3]

theorem internal_error_not_ok (msg : String) : ¬ (Status.InternalError msg).ok = true := by
  simp [Status.ok, Status.InternalError]

theorem on_header_timeout_ok (env : Env) (header : String → String) (ctx ctx' : StreamLoadContext)
    (st : Status) (h : _on_header_timeout env header ctx = Except.ok (st, ctx'))
    (hok : st.ok = true) :
    ∃ ctxm, _on_header_sink env ctxm = (st, ctx') ∧ ctxm.format = ctx.format ∧
      ctxm.body_bytes = ctx.body_bytes ∧ ctxm.pipe = ctx.pipe := by
  unfold _on_header_timeout at h
  split at h
  · split at h
    · injection h with h
      injection h with h1 h2
      rw [← h1] at hok
      exact absurd hok (by decide)
    · cases h
    · injection h with h
      exact ⟨_, h, rfl, rfl, rfl⟩
  · injection h with h
    exact ⟨_, h, rfl, rfl, rfl⟩

theorem on_header_timeout_benign (env : Env) (header : String → String) (ctx : StreamLoadContext)
    (ht : empty (header HTTP_TIMEOUT) = true) (hs : sink_steps_ok env) :
    _on_header_timeout env header ctx = Except.ok (Status.OK, (_on_header_sink env ctx).2) := by
  unfold _on_header_timeout
  simp only [ht, Bool.not_true]
  have := on_header_sink_benign env ctx hs
  rw [← this]
  rfl

/-- What a successful `_on_header` went through. -/
theorem on_header_ok_inv (env : Env) (cfg : Config) (header : String → String)
    (ctx ctx' : StreamLoadContext) (st : Status)
    (h : _on_header env cfg header ctx = Except.ok (st, ctx')) (hok : st.ok = true) :
    format_accepted (header HTTP_FORMAT_KEY) (header HTTP_COMPRESS_TYPE) ∧
    ∃ ctxm, _on_header_sink env ctxm = (st, ctx') ∧ ctxm.format = parsed_format header ∧
      ctxm.pipe = ctx.pipe ∧
      ((empty (header CONTENT_LENGTH) = true ∧ ctxm.body_bytes = 0) ∨
        ∃ v, stol (header CONTENT_LENGTH) = Except.ok v ∧ ctxm.body_bytes = to_size_t v ∧
          ¬ size_over cfg header (to_size_t v)) := by
  by_cases hacc : format_accepted (header HTTP_FORMAT_KEY) (header HTTP_COMPRESS_TYPE)
  · refine ⟨hacc, ?_⟩
    rw [on_header_format_passed env cfg header ctx hacc] at h
    have hfmt := after_parse_format header ctx
    have hpipe := (after_parse_frame header ctx).2.1
    by_cases he : empty (header CONTENT_LENGTH) = true
    · unfold _on_header_length at h
      simp only [he, Bool.not_true] at h
      obtain ⟨ctxm, h1, h2, h3, h4⟩ := on_header_timeout_ok env header _ _ _ h hok
      exact ⟨ctxm, h1, h2.trans hfmt, h4.trans hpipe, Or.inl ⟨he, h3⟩⟩
    · cases hv : stol (header CONTENT_LENGTH) with
      | error e =>
        unfold _on_header_length at h
        simp [he, hv] at h
      | ok v =>
        by_cases ho : size_over cfg header (to_size_t v)
        · obtain ⟨msg, hm⟩ := on_header_length_over env cfg header _ v hv hfmt ho
          rw [hm] at h
          injection h with h
          injection h with h1 h2
          rw [← h1] at hok
          exact absurd hok (internal_error_not_ok _)
        · rw [on_header_length_under env cfg header _ v hv hfmt ho] at h
          obtain ⟨ctxm, h1, h2, h3, h4⟩ := on_header_timeout_ok env header _ _ _ h hok
          exact ⟨ctxm, h1, h2.trans hfmt, h4.trans hpipe, Or.inr ⟨v, rfl, h3, ho⟩⟩
  · exfalso
    rcases on_header_format_rejected env cfg header ctx hacc with hr | hr <;>
    · rw [hr] at h
      injection h with h
      injection h with h1 h2
      rw [← h1] at hok
      exact absurd hok (internal_error_not_ok _)

theorem is_format_support_streaming_iff (format : TFileFormatType) :
    _is_format_support_streaming format = true ↔ format ∈ streaming_formats := by
  cases format <;> simp [_is_format_support_streaming, streaming_formats]

theorem parse_format_body_range (f c : String) :
    (_parse_format_body f c).1 = TFileFormatType.FORMAT_UNKNOWN ∨
      (_parse_format_body f c).1 ∈ streaming_formats ∨
      (_parse_format_body f c).1 = TFileFormatType.FORMAT_PARQUET ∨
      (_parse_format_body f c).1 = TFileFormatType.FORMAT_ORC := by
  unfold _parse_format_body
  split_ifs <;> simp [streaming_formats]

theorem parsed_format_range (header : String → String) :
    parsed_format header = TFileFormatType.FORMAT_UNKNOWN ∨
      parsed_format header ∈ streaming_formats ∨
      parsed_format header = TFileFormatType.FORMAT_PARQUET ∨
      parsed_format header = TFileFormatType.FORMAT_ORC := by
  unfold parsed_format _parse_format
  split_ifs <;> exact parse_format_body_range _ _

/-! ## Header claims -/

/-- C8. Sink selection: when `_on_header` succeeds, the context holds the parsed
format, which is a CSV variant, JSON, Parquet or ORC; `use_streaming` is true
exactly for the CSV variants and JSON and false exactly for Parquet and ORC;
the body sink exists, it is a fresh pipe (also stored in `pipe`) iff
`use_streaming` holds and a fresh file sink otherwise. -/
theorem sink_selection (env : Env) (cfg : Config) (header : String → String)
    (ctx ctx' : StreamLoadContext) (st : Status)
    (h : _on_header env cfg header ctx = Except.ok (st, ctx')) (hok : st.ok = true) :
    ctx'.format = parsed_format header ∧
    (ctx'.use_streaming = true ↔ ctx'.format ∈ streaming_formats) ∧
    (ctx'.use_streaming = false ↔
      (ctx'.format = TFileFormatType.FORMAT_PARQUET ∨ ctx'.format = TFileFormatType.FORMAT_ORC)) ∧
    (ctx'.use_streaming = true →
      ctx'.body_sink = some (new_pipe ctx'.body_bytes) ∧ ctx'.pipe = true) ∧
    (ctx'.use_streaming = false → ctx'.body_sink = some (new_file_sink ctx'.path)) ∧
    ∃ sink, ctx'.body_sink = some sink ∧
      (sink.kind = SinkKind.StreamLoadPipe ↔ ctx'.use_streaming = true) ∧
      (sink.kind = SinkKind.MessageBodyFileSink ↔ ctx'.use_streaming = false) := by
  obtain ⟨hacc, ctxm, hs, hf, -, -⟩ := on_header_ok_inv env cfg header ctx ctx' st h hok
  have hst : (_on_header_sink env ctxm).1 = st := by rw [hs]
  have hc : (_on_header_sink env ctxm).2 = ctx' := by rw [hs]
  have hk := on_header_sink_ok env ctxm (by rw [hst]; exact hok)
  rw [hc] at hk
  obtain ⟨k1, k2, k3, k4, k5⟩ := hk
  have hknown : parsed_format header ≠ TFileFormatType.FORMAT_UNKNOWN :=
    (parsed_format_known_iff header).2 hacc
  have hfmt : ctx'.format = parsed_format header := k1.trans hf
  have hiff : ctx'.use_streaming = true ↔ ctx'.format ∈ streaming_formats := by
    rw [k3, ← k1]
    exact is_format_support_streaming_iff _
  refine ⟨hfmt, hiff, ?_, ?_, ?_, ?_⟩
  · constructor
    · intro hfalse
      have hn : ctx'.format ∉ streaming_formats := by
        intro hin
        rw [hiff.2 hin] at hfalse
        exact Bool.noConfusion hfalse
      rcases parsed_format_range header with r | r | r | r
      · exact absurd r hknown
      · exact absurd (hfmt ▸ r) hn
      · exact Or.inl (hfmt.trans r)
      · exact Or.inr (hfmt.trans r)
    · intro hpo
      rw [k3, ← k1]
      rcases hpo with r | r <;> rw [r] <;> rfl
  · intro hs1
    rw [k3] at hs1
    obtain ⟨a, b, -⟩ := k4 hs1
    rw [k2]
    exact ⟨a, b⟩
  · intro hs0
    rw [k3] at hs0
    exact (k5 hs0).1
  · cases hsv : _is_format_support_streaming ctxm.format with
    | true =>
      obtain ⟨a, -, -⟩ := k4 hsv
      refine ⟨_, a, ?_, ?_⟩ <;> simp [k3, hsv, new_pipe]
    | false =>
      obtain ⟨a, -, -⟩ := k5 hsv
      refine ⟨_, a, ?_, ?_⟩ <;> simp [k3, hsv, new_file_sink]

/-- Witness of C8: a JSON request in the sample surroundings is accepted,
streams, and holds a fresh pipe. -/
theorem sink_selection_witness :
    _on_header sample_env (sample_cfg 1048576) (sample_header "json" "" "")
        (fresh_context sample_env) =
      Except.ok (Status.OK,
        on_header_context sample_env (sample_cfg 1048576) (sample_header "json" "" "")
          (fresh_context sample_env)) ∧
    (on_header_context sample_env (sample_cfg 1048576) (sample_header "json" "" "")
        (fresh_context sample_env)).use_streaming = true ∧
    (on_header_context sample_env (sample_cfg 1048576) (sample_header "json" "" "")
        (fresh_context sample_env)).body_sink = some (new_pipe 0) :=
  ⟨by decide, by decide,
    ((sink_selection sample_env (sample_cfg 1048576) (sample_header "json" "" "")
      (fresh_context sample_env)
      (on_header_context sample_env (sample_cfg 1048576) (sample_header "json" "" "")
        (fresh_context sample_env))
      Status.OK (by decide) (by decide)).2.2.2.1 (by decide)).1⟩

/-- C9. Format acceptance: a (format, compression) pair outside the accepted
set is turned down with the JSON-compression error or the unknown-format error
and `_parse_format` gives `FORMAT_UNKNOWN` for it; a pair inside the set gets a
known format and reaches the content-length check, and is accepted when the
remaining steps succeed; `_on_header` never succeeds on a pair outside the
set. -/
theorem format_acceptance (env : Env) (cfg : Config) (header : String → String)
    (ctx : StreamLoadContext) :
    (¬ format_accepted (header HTTP_FORMAT_KEY) (header HTTP_COMPRESS_TYPE) →
      (_on_header env cfg header ctx =
          Except.ok (Status.InternalError "compress data of JSON format is not supported.", ctx) ∨
        _on_header env cfg header ctx =
          Except.ok (Status.InternalError
            ("unknown data format, format=" ++ header HTTP_FORMAT_KEY),
            after_parse header ctx)) ∧
      (_parse_format (header HTTP_FORMAT_KEY) (header HTTP_COMPRESS_TYPE)).1 =
        TFileFormatType.FORMAT_UNKNOWN) ∧
    (format_accepted (header HTTP_FORMAT_KEY) (header HTTP_COMPRESS_TYPE) →
      parsed_format header ≠ TFileFormatType.FORMAT_UNKNOWN ∧
      _on_header env cfg header ctx = _on_header_length env cfg header (after_parse header ctx) ∧
      (empty (header CONTENT_LENGTH) = true → empty (header HTTP_TIMEOUT) = true →
        sink_steps_ok env →
        ∃ ctx', _on_header env cfg header ctx = Except.ok (Status.OK, ctx'))) ∧
    (∀ st ctx', _on_header env cfg header ctx = Except.ok (st, ctx') → st.ok = true →
      format_accepted (header HTTP_FORMAT_KEY) (header HTTP_COMPRESS_TYPE)) := by
  refine ⟨fun h => ⟨on_header_format_rejected env cfg header ctx h, raw_parse_unknown _ _ h⟩,
    fun h => ⟨(parsed_format_known_iff header).2 h, on_header_format_passed env cfg header ctx h,
      ?_⟩, fun st ctx' h hok => (on_header_ok_inv env cfg header ctx ctx' st h hok).1⟩
  intro hc ht hs
  rw [on_header_format_passed env cfg header ctx h]
  unfold _on_header_length
  simp only [hc, Bool.not_true]
  exact ⟨_, on_header_timeout_benign env header _ ht hs⟩

theorem parsed_format_json_iff (header : String → String)
    (hacc : format_accepted (header HTTP_FORMAT_KEY) (header HTTP_COMPRESS_TYPE)) :
    parsed_format header = TFileFormatType.FORMAT_JSON ↔ iequal (header "format") "JSON" = true := by
  show _ ↔ iequal (header HTTP_FORMAT_KEY) "JSON" = true
  revert hacc
  rcases classify_format (header HTTP_FORMAT_KEY) with h | h | h | h | h | h | h | h <;>
  rcases classify_compress (header HTTP_COMPRESS_TYPE) with k | k | k | k | k | k | k | k <;>
  obtain ⟨h0, h1, h2, h3, h4, h5, h6⟩ := h <;>
  obtain ⟨k0, k1, k2, k3, k4, k5, k6⟩ := k <;>
  simp [parsed_format, header_format_str, format_accepted, _parse_format, _parse_format_body,
    BeConsts.CSV_WITH_NAMES, BeConsts.CSV_WITH_NAMES_AND_TYPES, iequal_csv, empty_csv,
    empty_CSV, iequal_CSV, h0, h1, h2, h3, h4, h5, h6, k0, k1, k2, k3, k4, k5, k6]

theorem read_json_by_line_iff (header : String → String) :
    read_json_by_line header = true ↔ iequal (header "read_json_by_line") "true" = true := by
  show (!empty (header "read_json_by_line") && iequal (header "read_json_by_line") "true") = true
    ↔ _
  constructor
  · intro h
    simp only [Bool.and_eq_true] at h
    exact h.2
  · intro h
    simp [h, empty_false_of_iequal h (by decide)]

/-- For a request whose format is accepted, the test of lines 315-327 is the
ceiling of the claim. -/
theorem size_over_iff_declared (cfg : Config) (header : String → String) (n : Nat)
    (hacc : format_accepted (header HTTP_FORMAT_KEY) (header HTTP_COMPRESS_TYPE)) :
    size_over cfg header n ↔ declared_size_over cfg header n := by
  have hb : read_json_by_line header = false ↔ iequal (header "read_json_by_line") "true" = false := by
    rw [← Bool.not_eq_true, ← Bool.not_eq_true, read_json_by_line_iff]
  unfold size_over declared_size_over
  rw [parsed_format_json_iff header hacc, hb]
  rfl

/-- C10, counterexample. A CSV request under the sample configuration (general
ceiling 10240 MB, JSON ceiling 100 MB) whose Content-Length header is `-1`:
the value exceeds neither ceiling, yet `_on_header` turns the request down as
over the general ceiling, since line 313 stores the value in the unsigned
`body_bytes`, where it is `2 ^ 64 - 1`. -/
theorem negative_content_length_is_over_the_ceiling :
    stol (sample_header "csv" "" "-1" CONTENT_LENGTH) = Except.ok (-1) ∧
    ¬ ((-1 : Int) > (sample_cfg 1048576).streaming_load_max_mb * 1024 * 1024) ∧
    ¬ ((-1 : Int) > (sample_cfg 1048576).streaming_load_json_max_mb * 1024 * 1024) ∧
    _on_header sample_env (sample_cfg 1048576) (sample_header "csv" "" "-1")
        (fresh_context sample_env)
      = Except.ok (Status.InternalError
          "body exceed max size: 10737418240, data: 18446744073709551615",
          { after_parse (sample_header "csv" "" "-1") (fresh_context sample_env) with
            body_bytes := 18446744073709551615 }) := by
  refine ⟨by decide, by decide, by decide, ?_⟩
  rw [on_header_format_passed _ _ _ _ (by decide)]
  unfold _on_header_length
  have h1 : stol (sample_header "csv" "" "-1" CONTENT_LENGTH) = Except.ok (-1) := by decide
  have h2 : empty (sample_header "csv" "" "-1" CONTENT_LENGTH) = false := by decide
  simp only [h1, h2, Bool.not_false, if_true]
  have h3 : to_size_t (-1) = 18446744073709551615 := by decide
  have h4 : csv_max_body_bytes (sample_cfg 1048576) = 10737418240 := by decide
  have h5 : json_max_body_bytes (sample_cfg 1048576) = 104857600 := by decide
  have h6 : (after_parse (sample_header "csv" "" "-1") (fresh_context sample_env)).format
      = TFileFormatType.FORMAT_CSV_PLAIN := by decide
  simp only [h3, h4, h5, h6]
  simp
  rfl

/-- C10, amended. Declared-size ceiling: for a request whose Content-Length
header `std::stol` reads as `v`, let `n` be the unsigned 64-bit number line 313
stores (`v` itself when `v` is not negative, `v + 2 ^ 64` when it is).  When
`n` is over the ceiling (the format header names JSON, `read_json_by_line` is
not `true` and `n` exceeds the JSON ceiling, or `n` exceeds the general
ceiling) the request is turned down before any sink exists.  When it is not
and the format is accepted, the request goes on to the timeout header with
`body_bytes = n` and is accepted when the remaining steps succeed; in
particular a JSON request with `read_json_by_line` set to `true` does so
whenever `n` is within the general ceiling, whatever the JSON ceiling.  Every
accepted request has `body_bytes = n` and `n` within the ceiling. -/
theorem declared_size_ceiling (env : Env) (cfg : Config) (header : String → String)
    (ctx : StreamLoadContext) (v : Int)
    (hv : stol (header CONTENT_LENGTH) = Except.ok v) :
    ((0 ≤ v → (to_size_t v : Int) = v) ∧ (v < 0 → (to_size_t v : Int) = v + 2 ^ 64)) ∧
    (declared_size_over cfg header (to_size_t v) →
      ∃ st ctx', _on_header env cfg header ctx = Except.ok (st, ctx') ∧ st.ok = false ∧
        ctx'.body_sink = ctx.body_sink ∧ ctx'.pipe = ctx.pipe) ∧
    (¬ declared_size_over cfg header (to_size_t v) →
      format_accepted (header HTTP_FORMAT_KEY) (header HTTP_COMPRESS_TYPE) →
      _on_header env cfg header ctx =
          _on_header_timeout env header
            { after_parse header ctx with body_bytes := to_size_t v } ∧
        (empty (header HTTP_TIMEOUT) = true → sink_steps_ok env →
          ∃ ctx', _on_header env cfg header ctx = Except.ok (Status.OK, ctx'))) ∧
    (iequal (header "read_json_by_line") "true" = true →
      to_size_t v ≤ to_size_t (cfg.streaming_load_max_mb * 1024 * 1024) →
      format_accepted (header HTTP_FORMAT_KEY) (header HTTP_COMPRESS_TYPE) →
      empty (header HTTP_TIMEOUT) = true → sink_steps_ok env →
      ∃ ctx', _on_header env cfg header ctx = Except.ok (Status.OK, ctx') ∧
        ctx'.body_bytes = to_size_t v) ∧
    (∀ st ctx', _on_header env cfg header ctx = Except.ok (st, ctx') → st.ok = true →
      ctx'.body_bytes = to_size_t v ∧ ¬ declared_size_over cfg header (to_size_t v)) := by
  have hrange := stol_ok_range hv
  have hacc_of_ok : ∀ st ctx', _on_header env cfg header ctx = Except.ok (st, ctx') →
      st.ok = true →
      ctx'.body_bytes = to_size_t v ∧ ¬ declared_size_over cfg header (to_size_t v) := by
    intro st ctx' h hok
    obtain ⟨hacc, ctxm, hs, -, -, hb⟩ := on_header_ok_inv env cfg header ctx ctx' st h hok
    have hst : (_on_header_sink env ctxm).1 = st := by rw [hs]
    have hc : (_on_header_sink env ctxm).2 = ctx' := by rw [hs]
    have hk := (on_header_sink_ok env ctxm (by rw [hst]; exact hok)).2.1
    rw [hc] at hk
    rcases hb with ⟨he, -⟩ | ⟨w, hw, hbb, hno⟩
    · rw [stol_ok_nonempty hv] at he
      exact absurd he (by decide)
    · rw [hv] at hw
      injection hw with hw
      subst hw
      exact ⟨hk.trans hbb, fun hd => hno ((size_over_iff_declared cfg header _ hacc).2 hd)⟩
  have hunder : ¬ declared_size_over cfg header (to_size_t v) →
      format_accepted (header HTTP_FORMAT_KEY) (header HTTP_COMPRESS_TYPE) →
      _on_header env cfg header ctx =
          _on_header_timeout env header
            { after_parse header ctx with body_bytes := to_size_t v } ∧
        (empty (header HTTP_TIMEOUT) = true → sink_steps_ok env →
          ∃ ctx', _on_header env cfg header ctx = Except.ok (Status.OK, ctx')) := by
    intro ho hacc
    have hu := on_header_length_under env cfg header (after_parse header ctx) v hv
      (after_parse_format header ctx)
      (fun hs => ho ((size_over_iff_declared cfg header _ hacc).1 hs))
    rw [on_header_format_passed env cfg header ctx hacc, hu]
    exact ⟨rfl, fun ht hs => ⟨_, on_header_timeout_benign env header _ ht hs⟩⟩
  refine ⟨⟨fun h0 => ?_, fun h0 => ?_⟩, ?_, hunder, ?_, hacc_of_ok⟩
  · unfold to_size_t
    omega
  · unfold to_size_t
    omega
  · intro ho
    by_cases hacc : format_accepted (header HTTP_FORMAT_KEY) (header HTTP_COMPRESS_TYPE)
    · rw [on_header_format_passed env cfg header ctx hacc]
      obtain ⟨msg, hm⟩ := on_header_length_over env cfg header (after_parse header ctx) v hv
        (after_parse_format header ctx) ((size_over_iff_declared cfg header _ hacc).2 ho)
      refine ⟨_, _, hm, ?_, (after_parse_frame header ctx).1, (after_parse_frame header ctx).2.1⟩
      simp [Status.ok, Status.InternalError]
    · rcases on_header_format_rejected env cfg header ctx hacc with hr | hr
      · exact ⟨_, _, hr, by simp [Status.ok, Status.InternalError], rfl, rfl⟩
      · exact ⟨_, _, hr, by simp [Status.ok, Status.InternalError],
          (after_parse_frame header ctx).1, (after_parse_frame header ctx).2.1⟩
  · intro hline hle hacc ht hs
    have hno : ¬ declared_size_over cfg header (to_size_t v) := by
      unfold declared_size_over
      rw [hline]
      intro h
      rcases h with ⟨_, h2, _⟩ | h
      · cases h2
      · omega
    obtain ⟨ctx', hctx⟩ := (hunder hno hacc).2 ht hs
    exact ⟨ctx', hctx, (hacc_of_ok _ _ hctx rfl).1⟩

/-- Witness of C10: under the sample configuration a JSON request that
declares 200000000 bytes, more than the JSON ceiling of 100 MB, is accepted
with `body_bytes = 200000000` when it sets `read_json_by_line` to `true`, and
is turned down when it does not. -/
theorem declared_size_ceiling_witness :
    stol (with_header (sample_header "json" "" "200000000") "read_json_by_line" "true"
      CONTENT_LENGTH) = Except.ok 200000000 ∧
    (∃ ctx', _on_header sample_env (sample_cfg 1048576)
        (with_header (sample_header "json" "" "200000000") "read_json_by_line" "true")
        (fresh_context sample_env) = Except.ok (Status.OK, ctx') ∧
      ctx'.body_bytes = 200000000) ∧
    declared_size_over (sample_cfg 1048576) (sample_header "json" "" "200000000") 200000000 ∧
    (∃ st ctx', _on_header sample_env (sample_cfg 1048576)
        (sample_header "json" "" "200000000") (fresh_context sample_env)
          = Except.ok (st, ctx') ∧ st.ok = false ∧
        ctx'.body_sink = (fresh_context sample_env).body_sink ∧
        ctx'.pipe = (fresh_context sample_env).pipe) :=
  ⟨by decide,
    (declared_size_ceiling sample_env (sample_cfg 1048576)
      (with_header (sample_header "json" "" "200000000") "read_json_by_line" "true")
      (fresh_context sample_env) 200000000 (by decide)).2.2.2.1 (by decide) (by decide)
      (by decide) (by decide) ⟨rfl, rfl, fun _ => rfl⟩,
    by decide,
    (declared_size_ceiling sample_env (sample_cfg 1048576)
      (sample_header "json" "" "200000000") (fresh_context sample_env) 200000000
      (by decide)).2.1 (by decide)⟩

/-- An `_on_header` that turns a request down for its format or its declared
size leaves the sink fields as they were. -/
theorem on_header_rejected_frame (env : Env) (cfg : Config) (header : String → String)
    (ctx : StreamLoadContext)
    (h : ¬ format_accepted (header HTTP_FORMAT_KEY) (header HTTP_COMPRESS_TYPE) ∨
      ∃ v, stol (header CONTENT_LENGTH) = Except.ok v ∧ size_over cfg header (to_size_t v)) :
    ∃ st ctx', _on_header env cfg header ctx = Except.ok (st, ctx') ∧ st.ok = false ∧
      st.code = TStatusCode.INTERNAL_ERROR ∧
      ctx'.body_sink = ctx.body_sink ∧ ctx'.pipe = ctx.pipe ∧
      ctx'.use_streaming = ctx.use_streaming ∧
      ctx'.need_schema_buffer = ctx.need_schema_buffer := by
  obtain ⟨f1, f2, f3, f4⟩ := after_parse_frame header ctx
  by_cases hacc : format_accepted (header HTTP_FORMAT_KEY) (header HTTP_COMPRESS_TYPE)
  · rcases h with h | ⟨v, hv, ho⟩
    · exact absurd hacc h
    · rw [on_header_format_passed env cfg header ctx hacc]
      obtain ⟨msg, hm⟩ := on_header_length_over env cfg header (after_parse header ctx) v hv
        (after_parse_format header ctx) ho
      exact ⟨_, _, hm, by simp [Status.ok, Status.InternalError], rfl, f1, f2, f3, f4⟩
  · rcases on_header_format_rejected env cfg header ctx hacc with hr | hr
    · exact ⟨_, _, hr, by simp [Status.ok, Status.InternalError], rfl, rfl, rfl, rfl, rfl⟩
    · exact ⟨_, _, hr, by simp [Status.ok, Status.InternalError], rfl, f1, f2, f3, f4⟩

/-- C7. Header validation fails fast: when the format is not accepted
(unknown or unsupported format, compressed JSON) or the declared size is over
the ceiling, `_on_header` returns an error with the sink fields untouched, so
`on_header` returns -1 with a context that is failed, has no body sink and no
pipe, has `use_streaming` and `need_schema_buffer` unset, and sends one reply;
body chunks that arrive afterwards are ignored. -/
theorem header_validation_fails_fast (env : Env) (cfg : Config) (req : HttpRequest)
    (h : ¬ format_accepted (req.header HTTP_FORMAT_KEY) (req.header HTTP_COMPRESS_TYPE) ∨
      ∃ v, stol (req.header CONTENT_LENGTH) = Except.ok v ∧
        size_over cfg req.header (to_size_t v)) :
    ∃ st ctx, st.ok = false ∧
      _on_header env cfg req.header (new_context env req.header) = Except.ok (st, ctx) ∧
      ctx.body_sink = none ∧ ctx.pipe = false ∧
      ctx.use_streaming = false ∧ ctx.need_schema_buffer = false ∧
      on_header env cfg req = Except.ok (-1, { req with
        handler_ctx := some { ctx with status := st }
        replies := req.replies ++ [env.to_json { ctx with status := st } ++ "\n"] }) ∧
      ∀ evbuf replies, on_chunk_data env cfg
          (HttpRequest.mk req.header evbuf (some { ctx with status := st }) replies) =
        Except.ok (HttpRequest.mk req.header evbuf (some { ctx with status := st }) replies) := by
  obtain ⟨st, ctx, h1, h2, -, h3, h4, h5, h6⟩ :=
    on_header_rejected_frame env cfg req.header (new_context env req.header) h
  have h3' : ctx.body_sink = none := h3
  refine ⟨st, ctx, h2, h1, h3', h4, h5, h6, ?_, ?_⟩
  · unfold on_header
    simp only [h1, h2, Bool.not_false, if_true, h3']
  · intro evbuf replies
    unfold on_chunk_data
    simp [h2]

/-- Witness of C7: a request in an unknown format ends with `on_header`
returning -1 and no sink. -/
theorem header_validation_fails_fast_witness :
    ¬ format_accepted (sample_header "xml" "" "" HTTP_FORMAT_KEY)
        (sample_header "xml" "" "" HTTP_COMPRESS_TYPE) ∧
    ∃ st ctx, st.ok = false ∧
      _on_header sample_env (sample_cfg 1048576) (sample_header "xml" "" "")
        (new_context sample_env (sample_header "xml" "" "")) = Except.ok (st, ctx) ∧
      ctx.body_sink = none ∧ ctx.pipe = false :=
  ⟨by decide,
    match header_validation_fails_fast sample_env (sample_cfg 1048576)
      (sample_request "xml" "" "") (Or.inl (by decide)) with
    | ⟨st, ctx, h1, h2, h3, h4, _⟩ => ⟨st, ctx, h1, h2, h3, h4⟩⟩

/-! ## Lemmas on the loops of `on_chunk_data` -/

theorem sink_append_ok (env : Env) (ha : appends_ok env) (sink : MessageBodySink)
    (bb : List Byte) :
    (sink_append env sink bb).1.ok = true ∧
      (sink_append env sink bb).2 = { sink with appended := sink.appended ++ [bb] } := by
  unfold sink_append
  simp [ha sink bb]

theorem take_drop_split (buf : List Byte) (off cur n : Nat) (h : cur ≤ n) :
    (buf.drop off).take cur ++ (buf.drop (off + cur)).take (n - cur) =
      (buf.drop off).take n := by
  have hn : n = cur + (n - cur) := by omega
  conv_rhs => rw [hn, List.take_add]
  rw [List.drop_drop]

/-- With every append succeeding, the replay loop runs to the end: it empties
the schema buffer count, adds the count to `receive_bytes`, and appends to the
sink pieces of at most 128 KiB whose concatenation is the buffered bytes from
the read offset on. -/
theorem replay_loop_ok (env : Env) (ha : appends_ok env) :
    ∀ (fuel : Nat) (ctx : StreamLoadContext) (sink : MessageBodySink) (off : Nat),
      ctx.body_sink = some sink → ctx.schema_buffer_size ≤ fuel →
      ∃ pieces : List (List Byte),
        replay_loop env fuel ctx off = Except.ok
          ({ ctx with
              schema_buffer_size := 0
              receive_bytes := ctx.receive_bytes + ctx.schema_buffer_size
              body_sink := some { sink with appended := sink.appended ++ pieces } }, false) ∧
        pieces.flatten = (ctx.schema_buffer.drop off).take ctx.schema_buffer_size ∧
        ∀ p ∈ pieces, p.length ≤ stream_buffer_size := by
  intro fuel
  induction fuel with
  | zero =>
    intro ctx sink off hs hf
    have h0 : ctx.schema_buffer_size = 0 := by omega
    refine ⟨[], ?_, by simp [h0], by simp⟩
    unfold replay_loop
    cases ctx
    simp_all
  | succ fuel ih =>
    intro ctx sink off hs hf
    by_cases h0 : ctx.schema_buffer_size = 0
    · refine ⟨[], ?_, by simp [h0], by simp⟩
      unfold replay_loop
      cases ctx
      simp_all
    · have hpos : ctx.schema_buffer_size > 0 := Nat.pos_of_ne_zero h0
      obtain ⟨hok, hsink⟩ := sink_append_ok env ha sink
        ((ctx.schema_buffer.drop off).take (min ctx.schema_buffer_size stream_buffer_size))
      have hcur : min ctx.schema_buffer_size stream_buffer_size ≤ ctx.schema_buffer_size :=
        Nat.min_le_left _ _
      have hcur1 : 1 ≤ min ctx.schema_buffer_size stream_buffer_size := by
        simp only [stream_buffer_size]; omega
      obtain ⟨pieces, hp1, hp2, hp3⟩ := ih
        { ctx with
          schema_buffer_size :=
            ctx.schema_buffer_size - min ctx.schema_buffer_size stream_buffer_size
          receive_bytes := ctx.receive_bytes + min ctx.schema_buffer_size stream_buffer_size
          body_sink := some { sink with appended := sink.appended ++
            [(ctx.schema_buffer.drop off).take
              (min ctx.schema_buffer_size stream_buffer_size)] } }
        { sink with appended := sink.appended ++
            [(ctx.schema_buffer.drop off).take
              (min ctx.schema_buffer_size stream_buffer_size)] }
        (off + min ctx.schema_buffer_size stream_buffer_size) rfl (by simp only; omega)
      refine ⟨((ctx.schema_buffer.drop off).take
        (min ctx.schema_buffer_size stream_buffer_size)) :: pieces, ?_, ?_, ?_⟩
      · rw [replay_loop]
        simp only [hpos, if_true, hs, hok, hsink, Bool.not_true]
        rw [if_neg (by simp)]
        rw [hp1]
        simp only [List.append_assoc, List.singleton_append]
        congr 3
        omega
      · simp only [List.flatten_cons, hp2]
        exact take_drop_split _ _ _ _ hcur
      · intro p hp
        rcases List.mem_cons.1 hp with h | h
        · rw [h, List.length_take]
          exact le_trans (Nat.min_le_left _ _) (Nat.min_le_right _ _)
        · exact hp3 p h

theorem stream_buffer_size_eq : stream_buffer_size = 131072 := rfl

theorem memcpy_at_end (buf data : List Byte) : memcpy_at buf buf.length data = buf ++ data := by
  unfold memcpy_at
  simp

theorem take_drop_step (l : List Byte) (n n' : Nat) (hn : stream_buffer_size ≤ n)
    (hn' : stream_buffer_size ≤ l.length → n' = n - stream_buffer_size) :
    l.take n = l.take stream_buffer_size ++ (l.drop stream_buffer_size).take n' ∧
      l.drop n = (l.drop stream_buffer_size).drop n' := by
  by_cases hl : stream_buffer_size ≤ l.length
  · have h1 := hn' hl
    have h2 : n = stream_buffer_size + n' := by omega
    rw [h2, List.take_add, List.drop_drop]
    exact ⟨rfl, rfl⟩
  · have hlt : l.length < stream_buffer_size := Nat.lt_of_not_le hl
    have e1 : l.drop stream_buffer_size = [] := List.drop_of_length_le (Nat.le_of_lt hlt)
    have e2 : l.take stream_buffer_size = l := List.take_of_length_le (Nat.le_of_lt hlt)
    have e3 : l.take n = l := List.take_of_length_le (by omega)
    have e4 : l.drop n = [] := List.drop_of_length_le (by omega)
    simp [e1, e2, e3, e4]

/-- With every append succeeding, the schema loop takes the first
`sniff_room` bytes of the input buffer: they are appended to the sink in pieces
and copied to the end of the schema buffer; the rest stays in the input
buffer. -/
theorem sniff_loop_ok (env : Env) (cfg : Config) (ha : appends_ok env) :
    ∀ (fuel : Nat) (ctx : StreamLoadContext) (sink : MessageBodySink) (evbuf : List Byte),
      ctx.body_sink = some sink → ctx.schema_buffer.length = ctx.schema_buffer_size →
      evbuf.length ≤ fuel →
      ∃ pieces : List (List Byte),
        sniff_loop env cfg fuel ctx evbuf = Except.ok
          ⟨{ ctx with
              body_sink := some { sink with appended := sink.appended ++ pieces }
              schema_buffer :=
                ctx.schema_buffer ++ evbuf.take (sniff_room cfg ctx.schema_buffer_size)
              schema_buffer_size := ctx.schema_buffer_size +
                (evbuf.take (sniff_room cfg ctx.schema_buffer_size)).length },
            evbuf.drop (sniff_room cfg ctx.schema_buffer_size), false⟩ ∧
        pieces.flatten = evbuf.take (sniff_room cfg ctx.schema_buffer_size) ∧
        ∀ p ∈ pieces, p ≠ [] ∧ p.length ≤ stream_buffer_size := by
  intro fuel
  induction fuel with
  | zero =>
    intro ctx sink evbuf hs hb hf
    have he : evbuf = [] := List.length_eq_zero.1 (by omega)
    subst he
    refine ⟨[], ?_, by simp, by simp⟩
    unfold sniff_loop
    cases ctx
    simp_all
  | succ fuel ih =>
    intro ctx sink evbuf hs hb hf
    by_cases he : evbuf = []
    · subst he
      refine ⟨[], ?_, by simp, by simp⟩
      unfold sniff_loop
      cases ctx
      simp_all
    · have hlen : evbuf.length > 0 := List.length_pos.2 he
      by_cases hg : ctx.schema_buffer_size + stream_buffer_size > cfg.stream_tvf_buffer_size
      · have hroom : sniff_room cfg ctx.schema_buffer_size = 0 := by
          unfold sniff_room
          rw [stream_buffer_size_eq] at hg ⊢
          omega
        refine ⟨[], ?_, by simp [hroom], by simp⟩
        rw [sniff_loop]
        simp only [hlen, if_true, hg, hroom]
        cases ctx
        simp_all
      · obtain ⟨hok, hsink⟩ := sink_append_ok env ha sink (evbuf.take stream_buffer_size)
        have hbb : (evbuf.take stream_buffer_size).length ≥ 1 := by
          rw [List.length_take, stream_buffer_size_eq]
          omega
        have hmem : memcpy_at ctx.schema_buffer ctx.schema_buffer_size
            (evbuf.take stream_buffer_size) = ctx.schema_buffer ++ evbuf.take stream_buffer_size := by
          rw [← hb]
          exact memcpy_at_end _ _
        obtain ⟨pieces, hp1, hp2, hp3⟩ := ih
          { ctx with
            body_sink := some { sink with
              appended := sink.appended ++ [evbuf.take stream_buffer_size] }
            schema_buffer := ctx.schema_buffer ++ evbuf.take stream_buffer_size
            schema_buffer_size :=
              ctx.schema_buffer_size + (evbuf.take stream_buffer_size).length }
          { sink with appended := sink.appended ++ [evbuf.take stream_buffer_size] }
          (evbuf.drop stream_buffer_size) rfl
          (by simp only [List.length_append, hb])
          (by
            rw [List.length_drop, stream_buffer_size_eq]
            omega)
        have hstep := take_drop_step evbuf (sniff_room cfg ctx.schema_buffer_size)
          (sniff_room cfg
            (ctx.schema_buffer_size + (evbuf.take stream_buffer_size).length))
          (by
            unfold sniff_room
            rw [stream_buffer_size_eq] at hg ⊢
            omega)
          (by
            intro hl
            have : (evbuf.take stream_buffer_size).length = stream_buffer_size := by
              rw [List.length_take]
              exact Nat.min_eq_left hl
            rw [this]
            unfold sniff_room
            rw [stream_buffer_size_eq] at hg ⊢
            omega)
        refine ⟨evbuf.take stream_buffer_size :: pieces, ?_, ?_, ?_⟩
        · rw [sniff_loop]
          simp only [hlen, if_true, hg, if_false, hs, hok, hsink, Bool.not_true, hmem]
          rw [if_neg (by simp)]
          rw [hp1]
          simp only [hstep.1, hstep.2, List.append_assoc, List.singleton_append,
            List.length_append, Nat.add_assoc]
        · rw [List.flatten_cons, hp2, hstep.1]
        · intro p hp
          rcases List.mem_cons.1 hp with h | h
          · rw [h]
            refine ⟨fun h0 => ?_, ?_⟩
            · rw [h0] at hbb
              exact absurd hbb (by decide)
            · rw [List.length_take]
              exact Nat.min_le_left _ _
          · exact hp3 p h

theorem exec_put_sink_irrelevant (env : Env) (ctx : StreamLoadContext)
    (request : TStreamLoadPutRequest) (bs : Option MessageBodySink) (sb : List Byte) (n : Nat) :
    exec_put env { ctx with body_sink := bs, schema_buffer := sb, schema_buffer_size := n }
        request =
      ((exec_put env ctx request).1,
        { (exec_put env ctx request).2 with
          body_sink := bs, schema_buffer := sb, schema_buffer_size := n }) := by
  unfold exec_put
  simp only
  split_ifs <;> rfl

theorem exec_put_frame (env : Env) (ctx : StreamLoadContext) (request : TStreamLoadPutRequest) :
    (exec_put env ctx request).2 =
      { ctx with
        put_requests := (exec_put env ctx request).2.put_requests
        put_result_status := (exec_put env ctx request).2.put_result_status } := by
  unfold exec_put
  simp only
  split_ifs <;> rfl

theorem exec_put_frame_eq (env : Env) (ctx ctx1 : StreamLoadContext)
    (request : TStreamLoadPutRequest) (st : Status) (h : exec_put env ctx request = (st, ctx1)) :
    ctx1 = { ctx with
      put_requests := ctx1.put_requests, put_result_status := ctx1.put_result_status } := by
  have h2 := exec_put_frame env ctx request
  rw [h] at h2
  exact h2

/-- The plan call does not read the sink or the schema buffer: changing them
before the call is the same as changing them after it. -/
theorem process_put_sink_irrelevant (env : Env) (cfg : Config) (header : String → String)
    (ctx ctx1 : StreamLoadContext) (st : Status) (bs : Option MessageBodySink)
    (sb : List Byte) (n : Nat)
    (h : _process_put env cfg header ctx = Except.ok (st, ctx1)) :
    _process_put env cfg header
        { ctx with body_sink := bs, schema_buffer := sb, schema_buffer_size := n } =
      Except.ok (st, { ctx1 with body_sink := bs, schema_buffer := sb, schema_buffer_size := n }) := by
  unfold _process_put at h ⊢
  have hreq : ∀ v, put_request env cfg header
      { ctx with body_sink := bs, schema_buffer := sb, schema_buffer_size := n } v =
      put_request env cfg header ctx v := fun _ => rfl
  split at h
  · rename_i he
    rw [if_pos he]
    split at h
    · injection h with h
      injection h with h1 h2
      rw [← h1, ← h2]
    · cases h
    · injection h with h
      rw [hreq, exec_put_sink_irrelevant, h]
  · rename_i he
    rw [if_neg he]
    injection h with h
    rw [hreq, exec_put_sink_irrelevant, h]

/-- The plan call changes the context in its plan log and plan result only. -/
theorem process_put_frame (env : Env) (cfg : Config) (header : String → String)
    (ctx ctx1 : StreamLoadContext) (st : Status)
    (h : _process_put env cfg header ctx = Except.ok (st, ctx1)) :
    ctx1 = { ctx with
      put_requests := ctx1.put_requests, put_result_status := ctx1.put_result_status } := by
  unfold _process_put at h
  split at h
  · split at h
    · injection h with h
      injection h with h1 h2
      rw [← h2]
    · cases h
    · injection h with h
      exact exec_put_frame_eq env ctx ctx1 _ st h
  · injection h with h
    exact exec_put_frame_eq env ctx ctx1 _ st h

/-- Lines 394-425 with every append succeeding: whatever status the plan call
returns, a new pipe replaces the sink, the buffered bytes are replayed into it,
the promise is set with the plan status and schema buffering ends. -/
theorem restore_pipe_ok (env : Env) (cfg : Config) (header : String → String)
    (ha : appends_ok env) (ctx ctx2 : StreamLoadContext) (sink : MessageBodySink) (st : Status)
    (hs : ctx.body_sink = some sink)
    (hp : _process_put env cfg header ctx = Except.ok (st, ctx2)) :
    ∃ pieces : List (List Byte),
      restore_pipe env cfg header ctx = Except.ok
        { ctx2 with
          status := st
          body_sink := some { restored_pipe ctx.body_bytes with appended := pieces }
          pipe := true
          schema_buffer_size := 0
          receive_bytes := ctx.receive_bytes + ctx.schema_buffer_size
          restore_pipe_promise := ctx.restore_pipe_promise ++ [st]
          need_schema_buffer := false
          need_wait_restore_pipe := false } ∧
      pieces.flatten = ctx.schema_buffer.take ctx.schema_buffer_size ∧
      ∀ p ∈ pieces, p.length ≤ stream_buffer_size := by
  have hfr := process_put_frame env cfg header ctx ctx2 st hp
  have hcall := process_put_sink_irrelevant env cfg header ctx ctx2 st
    (some { sink with finish_calls := sink.finish_calls + 1 })
    ctx.schema_buffer ctx.schema_buffer_size hp
  have e1 : ctx2.body_bytes = ctx.body_bytes := by rw [hfr]
  have e2 : ctx2.receive_bytes = ctx.receive_bytes := by rw [hfr]
  have e3 : ctx2.restore_pipe_promise = ctx.restore_pipe_promise := by rw [hfr]
  have e4 : ctx2.schema_buffer = ctx.schema_buffer := by rw [hfr]
  obtain ⟨pieces, hp1, hp2, hp3⟩ := replay_loop_ok env ha ctx.schema_buffer_size
    { ctx2 with
      schema_buffer := ctx.schema_buffer
      schema_buffer_size := ctx.schema_buffer_size
      status := st
      body_sink := some (restored_pipe ctx2.body_bytes)
      pipe := true }
    (restored_pipe ctx2.body_bytes) 0 rfl (Nat.le_refl _)
  refine ⟨pieces, ?_, by simpa using hp2, hp3⟩
  unfold restore_pipe
  simp only [hs]
  rw [show ({ ctx with body_sink := some { sink with finish_calls := sink.finish_calls + 1 } } :
      StreamLoadContext) = { ctx with
        body_sink := some { sink with finish_calls := sink.finish_calls + 1 }
        schema_buffer := ctx.schema_buffer
        schema_buffer_size := ctx.schema_buffer_size } from rfl]
  rw [hcall]
  simp only
  rw [hp1]
  simp only [e1, e2, e3, e4, restored_pipe, List.nil_append]

/-- A call of `on_chunk_data` in the schema phase, with every append
succeeding, that takes at least one byte: the first `sniff_room` bytes of the
input buffer go through the first pipe and the schema buffer into a new pipe,
`receive_bytes` grows by their number, the plan status becomes the status of
the context, and what is beyond `sniff_room` stays in the input buffer. -/
theorem on_chunk_data_sniff (env : Env) (cfg : Config) (ha : appends_ok env)
    (req : HttpRequest) (ctx ctx2 : StreamLoadContext) (sink : MessageBodySink) (st : Status)
    (hc : req.handler_ctx = some ctx) (hst : ctx.status.ok = true)
    (hn : ctx.need_schema_buffer = true) (hb : ctx.schema_buffer = [])
    (hz : ctx.schema_buffer_size = 0) (hs : ctx.body_sink = some sink)
    (hp : _process_put env cfg req.header ctx = Except.ok (st, ctx2))
    (hne : req.input_buffer.take (sniff_room cfg 0) ≠ []) :
    ∃ pieces : List (List Byte),
      on_chunk_data env cfg req = Except.ok { req with
        handler_ctx := some { ctx2 with
          status := st
          body_sink := some { restored_pipe ctx.body_bytes with appended := pieces }
          pipe := true
          schema_buffer := req.input_buffer.take (sniff_room cfg 0)
          schema_buffer_size := 0
          receive_bytes := ctx.receive_bytes + (req.input_buffer.take (sniff_room cfg 0)).length
          restore_pipe_promise := ctx.restore_pipe_promise ++ [st]
          need_schema_buffer := false
          need_wait_restore_pipe := false }
        input_buffer := req.input_buffer.drop (sniff_room cfg 0) } ∧
      pieces.flatten = req.input_buffer.take (sniff_room cfg 0) ∧
      ∀ p ∈ pieces, p.length ≤ stream_buffer_size := by
  obtain ⟨pieces1, hl1, -, -⟩ := sniff_loop_ok env cfg ha req.input_buffer.length ctx sink
    req.input_buffer hs (by rw [hb, hz]; rfl) (Nat.le_refl _)
  rw [hz, hb] at hl1
  simp only [List.nil_append, Nat.zero_add] at hl1
  have hlen : (req.input_buffer.take (sniff_room cfg 0)).length ≠ 0 := by
    intro h0
    exact hne (List.length_eq_zero.1 h0)
  have hp' := process_put_sink_irrelevant env cfg req.header ctx ctx2 st
    (some { sink with appended := sink.appended ++ pieces1 })
    (req.input_buffer.take (sniff_room cfg 0))
    ((req.input_buffer.take (sniff_room cfg 0)).length) hp
  obtain ⟨pieces, hr1, hr2, hr3⟩ := restore_pipe_ok env cfg req.header ha _ _
    { sink with appended := sink.appended ++ pieces1 } st rfl hp'
  refine ⟨pieces, ?_, by rw [hr2]; exact List.take_length _, hr3⟩
  unfold on_chunk_data
  simp only [hc, hst, hn, Bool.not_true, if_true]
  rw [if_neg (by simp), hl1]
  simp only [hlen, ne_eq, not_false_eq_true, if_true]
  rw [hr1]

/-- A call of `on_chunk_data` in the schema phase that can take no byte (the
input buffer is empty or the test at line 378 fails at once) changes
nothing. -/
theorem on_chunk_data_sniff_idle (env : Env) (cfg : Config) (ha : appends_ok env)
    (req : HttpRequest) (ctx : StreamLoadContext) (sink : MessageBodySink)
    (hc : req.handler_ctx = some ctx) (hst : ctx.status.ok = true)
    (hn : ctx.need_schema_buffer = true) (hb : ctx.schema_buffer = [])
    (hz : ctx.schema_buffer_size = 0) (hs : ctx.body_sink = some sink)
    (hne : req.input_buffer.take (sniff_room cfg 0) = []) :
    on_chunk_data env cfg req = Except.ok req := by
  obtain ⟨pieces1, hl1, hf1, hf2⟩ := sniff_loop_ok env cfg ha req.input_buffer.length ctx sink
    req.input_buffer hs (by rw [hb, hz]; rfl) (Nat.le_refl _)
  rw [hz] at hl1 hf1
  rw [hne] at hf1 hl1
  have hp0 : pieces1 = [] := by
    cases pieces1 with
    | nil => rfl
    | cons p ps =>
      exfalso
      have h1 := (hf2 p (List.mem_cons_self _ _)).1
      rw [List.flatten_cons] at hf1
      exact h1 (List.append_eq_nil.1 hf1).1
  have hdrop : req.input_buffer.drop (sniff_room cfg 0) = req.input_buffer := by
    rcases List.take_eq_nil_iff.1 hne with h | h
    · rw [h]; rfl
    · rw [h]; exact List.drop_nil
  subst hp0
  unfold on_chunk_data
  simp only [hc, hst, hn, Bool.not_true, if_true]
  rw [if_neg (by simp), hl1]
  simp only [List.length_nil, Nat.add_zero, hz, ne_eq, not_true_eq_false, if_false, hdrop]
  cases req
  cases ctx
  cases sink
  simp_all

/-! ## Lemmas on `handle` -/

theorem cancel_if_failed_status (env : Env) (ctx : StreamLoadContext) :
    (cancel_if_failed env ctx).status = ctx.status := by
  unfold cancel_if_failed
  split
  · split <;> rfl
  · rfl

/-- A context with a failed status gets its sink cancelled and one reply; the
status loop is not entered. -/
theorem handle_of_status (env : Env) (cfg : Config) (fuel : Nat) (req : HttpRequest)
    (ctx ctx1 : StreamLoadContext) (st : Status) (hc : req.handler_ctx = some ctx)
    (hok : ctx.status.ok = true)
    (hh : _handle env cfg req.header ctx = Except.ok (st, ctx1)) (hst : st.ok = false) :
    handle env cfg fuel req =
      Except.ok (some (send_reply env req (cancel_if_failed env { ctx1 with status := st }))) := by
  unfold handle
  simp only [hc, hok, if_true, hh]
  rw [if_pos (by rw [cancel_if_failed_status]; simp [hst])]

theorem handle_of_failed (env : Env) (cfg : Config) (fuel : Nat) (req : HttpRequest)
    (ctx : StreamLoadContext) (hc : req.handler_ctx = some ctx) (hok : ctx.status.ok = false) :
    handle env cfg fuel req =
      Except.ok (some (send_reply env req (cancel_if_failed env ctx))) := by
  unfold handle
  simp only [hc, hok, Bool.false_eq_true, if_false]
  rw [if_pos (by rw [cancel_if_failed_status]; simp [hok])]

/-! ## Claims on the end of the request -/

/-- C3, as stated, fails: a request that declares `Content-Length: 0` and then
delivers 5 bytes has `receive_bytes = 5` against a declared length of 0, and
`_handle` reports no mismatch; the request ends with status OK. -/
theorem length_mismatch_undetected_when_zero_declared :
    stol (sample_header "csv" "" "0" CONTENT_LENGTH) = Except.ok 0 ∧
    (sample_received sample_env "csv" "0" [[1, 2, 3, 4, 5]]).body_bytes = 0 ∧
    (sample_received sample_env "csv" "0" [[1, 2, 3, 4, 5]]).receive_bytes = 5 ∧
    (match _handle sample_env (sample_cfg 1048576) (sample_header "csv" "" "0")
        (sample_received sample_env "csv" "0" [[1, 2, 3, 4, 5]]) with
      | Except.ok (st, _) => some st
      | Except.error _ => none) = some Status.OK ∧
    (served_context sample_env (sample_cfg 1048576) 1 (sample_request "csv" "" "0")
        [[1, 2, 3, 4, 5]]).map (fun ctx => ctx.status) = some Status.OK := by
  decide

/-- C3, amended. Whenever the declared length held in `body_bytes` is positive
and `receive_bytes` differs from it, `_handle` returns the length-mismatch
error with the context untouched (no `finish` on the sink, no plan request),
and `handle` ends the request as failed: it cancels the sink, if any, with the
status text, sends one reply and makes no status call. -/
theorem length_mismatch_detection (env : Env) (cfg : Config) (header : String → String)
    (ctx : StreamLoadContext) (hpos : 0 < ctx.body_bytes)
    (hne : ctx.receive_bytes ≠ ctx.body_bytes) :
    _handle env cfg header ctx =
      Except.ok (Status.InternalError "receive body don\x27t equal with body bytes", ctx) ∧
    ∀ (fuel : Nat) (req : HttpRequest), req.header = header → req.handler_ctx = some ctx →
      ctx.status.ok = true →
      handle env cfg fuel req = Except.ok (some (send_reply env req
        (cancel_if_failed env { ctx with
          status := Status.InternalError "receive body don\x27t equal with body bytes" }))) ∧
      (cancel_if_failed env { ctx with
          status := Status.InternalError "receive body don\x27t equal with body bytes" }).status.ok
        = false ∧
      (cancel_if_failed env { ctx with
          status := Status.InternalError "receive body don\x27t equal with body bytes" }).put_requests
        = ctx.put_requests ∧
      (cancel_if_failed env { ctx with
          status := Status.InternalError "receive body don\x27t equal with body bytes" }).body_sink
        = ctx.body_sink.map (fun sink => sink.cancel (env.to_string
            (Status.InternalError "receive body don\x27t equal with body bytes"))) := by
  have h1 : _handle env cfg header ctx =
      Except.ok (Status.InternalError "receive body don\x27t equal with body bytes", ctx) := by
    unfold _handle
    rw [if_pos ⟨hpos, hne⟩]
  refine ⟨h1, ?_⟩
  intro fuel req hh hc hok
  subst hh
  refine ⟨handle_of_status env cfg fuel req ctx ctx _ hc hok h1 rfl, ?_, ?_, ?_⟩
  · rw [cancel_if_failed_status]; rfl
  · unfold cancel_if_failed
    split
    · split <;> rfl
    · rfl
  · unfold cancel_if_failed
    rw [if_pos (by rfl)]
    cases hs : ctx.body_sink <;> simp [hs]

/-- Witness of C3: 100 bytes declared, 80 received. -/
theorem length_mismatch_detection_witness :
    0 < (sample_received sample_env "csv" "100" [List.replicate 80 0]).body_bytes ∧
    (sample_received sample_env "csv" "100" [List.replicate 80 0]).receive_bytes = 80 ∧
    (sample_received sample_env "csv" "100" [List.replicate 80 0]).body_bytes = 100 ∧
    _handle sample_env (sample_cfg 1048576) (sample_header "csv" "" "100")
        (sample_received sample_env "csv" "100" [List.replicate 80 0]) =
      Except.ok (Status.InternalError "receive body don\x27t equal with body bytes",
        sample_received sample_env "csv" "100" [List.replicate 80 0]) :=
  ⟨by decide, by decide, by decide,
    (length_mismatch_detection sample_env (sample_cfg 1048576) (sample_header "csv" "" "100")
      (sample_received sample_env "csv" "100" [List.replicate 80 0])
      (by decide) (by decide)).1⟩

/-- C4, as stated, fails: on the streaming path a completion-wait timeout ends
with `cancel` called on the body sink; the reason is the text of the
`TimedOut` status. -/
theorem completion_timeout_cancels_streaming_sink :
    (served_context timeout_env (sample_cfg 1048576) 1 (sample_request "csv" "" "")
        [List.range 10]).map
      (fun ctx => (ctx.status, ctx.body_sink.map (fun sink => sink.cancel_reasons))) =
      some (Status.TimedOut "stream load timeout", some ["stream load timeout"]) := by
  decide

/-- C4, amended. When the completion signal is not set within the wait,
`_handle` yields `TimedOut` and `handle` reports it in its one reply without a
status call.  On the streaming path `handle` then cancels the body sink with
the text of the status (only `PUBLISH_TIMEOUT` is exempt from the cancel); on
the file-sink path the sink was released before the wait, so nothing is
cancelled. -/
theorem completion_timeout_outcome (env : Env) (cfg : Config) (fuel : Nat) (req : HttpRequest)
    (ctx : StreamLoadContext) (hc : req.handler_ctx = some ctx) (hok : ctx.status.ok = true)
    (hlen : ¬ (ctx.body_bytes > 0 ∧ ctx.receive_bytes ≠ ctx.body_bytes))
    (hfut : env.future = none) :
    (∀ sink, ctx.use_streaming = true → ctx.body_sink = some sink →
      (env.finish sink).ok = true →
      _handle env cfg req.header ctx =
        Except.ok (Status.TimedOut "stream load timeout",
          { ctx with body_sink := some { sink with finish_calls := sink.finish_calls + 1 } }) ∧
      handle env cfg fuel req = Except.ok (some (send_reply env req
        { ctx with
          status := Status.TimedOut "stream load timeout"
          body_sink := some (MessageBodySink.cancel
            { sink with finish_calls := sink.finish_calls + 1 }
            (env.to_string (Status.TimedOut "stream load timeout"))) }))) ∧
    (∀ st ctx1, ctx.use_streaming = false →
      _process_put env cfg req.header { ctx with body_sink := none } = Except.ok (st, ctx1) →
      _handle env cfg req.header ctx =
        Except.ok (Status.TimedOut "stream load timeout", ctx1) ∧
      ctx1.body_sink = none ∧
      handle env cfg fuel req = Except.ok (some (send_reply env req
        { ctx1 with status := Status.TimedOut "stream load timeout" }))) := by
  constructor
  · intro sink hs hb hf
    have h1 : _handle env cfg req.header ctx =
        Except.ok (Status.TimedOut "stream load timeout",
          { ctx with body_sink := some { sink with finish_calls := sink.finish_calls + 1 } }) := by
      unfold _handle
      rw [if_neg hlen]
      simp only [hs, Bool.not_true, Bool.false_eq_true, if_false, hb, hf, hfut]
    refine ⟨h1, ?_⟩
    rw [handle_of_status env cfg fuel req ctx _ _ hc hok h1 rfl]
    rfl
  · intro st ctx1 hs hp
    have hfr := process_put_frame env cfg req.header _ ctx1 st hp
    have hb : ctx1.body_sink = none := by rw [hfr]
    have h1 : _handle env cfg req.header ctx =
        Except.ok (Status.TimedOut "stream load timeout", ctx1) := by
      unfold _handle
      rw [if_neg hlen]
      simp only
      rw [if_pos (by simp [hs]), hp]
      simp only [hfut]
    refine ⟨h1, hb, ?_⟩
    rw [handle_of_status env cfg fuel req ctx _ _ hc hok h1 rfl]
    unfold cancel_if_failed
    simp only [hb]
    split <;> rfl

/-- Witness of C4: a CSV request of ten bytes whose completion signal is never
set. -/
theorem completion_timeout_outcome_witness :
    (sample_received timeout_env "csv" "" [List.range 10]).status.ok = true ∧
    timeout_env.future = none ∧
    _handle timeout_env (sample_cfg 1048576) (sample_header "csv" "" "")
        (sample_received timeout_env "csv" "" [List.range 10]) =
      Except.ok (Status.TimedOut "stream load timeout",
        { sample_received timeout_env "csv" "" [List.range 10] with
          body_sink := some { restored_pipe 0 with appended := [List.range 10], finish_calls := 1 } }) :=
  ⟨by decide, rfl,
    ((completion_timeout_outcome timeout_env (sample_cfg 1048576) 1
      { sample_request "csv" "" "" with
        handler_ctx := some (sample_received timeout_env "csv" "" [List.range 10]) }
      (sample_received timeout_env "csv" "" [List.range 10]) rfl (by decide) (by decide) rfl).1
      { restored_pipe 0 with appended := [List.range 10] } (by decide) (by decide) (by decide)).1⟩

/-- C5 on the failing input: a Parquet request (file sink) whose plan call
fails.  `_process_put` returns the failure, `_handle` drops it, and the request
ends with the timeout of the completion wait instead; the same failure on the
streaming path (CSV) is the terminal status. -/
theorem file_sink_plan_failure_is_dropped :
    (match _process_put plan_failure_env (sample_cfg 1048576) (sample_header "parquet" "" "")
        { sample_received plan_failure_env "parquet" "" [List.range 10] with body_sink := none } with
      | Except.ok (st, _) => some st
      | Except.error _ => none) = some plan_failure ∧
    (served_context plan_failure_env (sample_cfg 1048576) 1 (sample_request "parquet" "" "")
        [List.range 10]).map (fun ctx => (ctx.status, ctx.put_requests.length)) =
      some (Status.TimedOut "stream load timeout", 1) ∧
    (served_context plan_failure_env (sample_cfg 1048576) 1 (sample_request "csv" "" "")
        [List.range 10]).map (fun ctx => ctx.status) = some plan_failure := by
  decide

/-- C6, as stated, fails: after a failed plan call in the sniff phase the
context holds a new pipe that was never cancelled and into which the ten
sniffed bytes were replayed, and the pipe-ready promise has been set. -/
theorem plan_failure_still_swaps_and_replays :
    (received_context plan_failure_env (sample_cfg 1048576) (sample_request "json" "" "")
        [List.range 10]).map
      (fun ctx => (ctx.status, ctx.body_sink, ctx.restore_pipe_promise, ctx.put_requests.length)) =
      some (plan_failure, some { restored_pipe 0 with appended := [List.range 10] },
        [plan_failure], 1) := by
  decide

/-- C6, amended. If the plan call made in the sniff phase fails and the replay
appends succeed, `on_chunk_data` leaves the context failed with the plan
status, but it neither cancels a sink nor stops: it puts a new pipe in place,
replays the sniffed bytes into it, sets the pipe-ready promise with the failed
status and ends schema buffering.  The new pipe is cancelled with the text of
the status later, by `handle`, which then sends the one reply. -/
theorem plan_failure_in_sniff_phase (env : Env) (cfg : Config) (ha : appends_ok env)
    (req : HttpRequest) (ctx ctx2 : StreamLoadContext) (sink : MessageBodySink) (st : Status)
    (hc : req.handler_ctx = some ctx) (hst : ctx.status.ok = true)
    (hn : ctx.need_schema_buffer = true) (hb : ctx.schema_buffer = [])
    (hz : ctx.schema_buffer_size = 0) (hs : ctx.body_sink = some sink)
    (hne : req.input_buffer.take (sniff_room cfg 0) ≠ [])
    (hp : _process_put env cfg req.header ctx = Except.ok (st, ctx2)) (hfail : st.ok = false) :
    ∃ (pieces : List (List Byte)) (ctx' : StreamLoadContext),
      on_chunk_data env cfg req = Except.ok { req with
        handler_ctx := some ctx'
        input_buffer := req.input_buffer.drop (sniff_room cfg 0) } ∧
      ctx'.status = st ∧
      ctx'.body_sink = some { restored_pipe ctx.body_bytes with appended := pieces } ∧
      pieces.flatten = req.input_buffer.take (sniff_room cfg 0) ∧
      ctx'.restore_pipe_promise = ctx.restore_pipe_promise ++ [st] ∧
      ctx'.need_schema_buffer = false ∧
      (st.is TStatusCode.PUBLISH_TIMEOUT = false → ∀ fuel,
        handle env cfg fuel { req with
            handler_ctx := some ctx'
            input_buffer := req.input_buffer.drop (sniff_room cfg 0) } =
          Except.ok (some (send_reply env { req with
              handler_ctx := some ctx'
              input_buffer := req.input_buffer.drop (sniff_room cfg 0) }
            { ctx' with body_sink := some (MessageBodySink.cancel
                { restored_pipe ctx.body_bytes with appended := pieces } (env.to_string st)) }))) := by
  obtain ⟨pieces, h1, h2, -⟩ :=
    on_chunk_data_sniff env cfg ha req ctx ctx2 sink st hc hst hn hb hz hs hp hne
  refine ⟨pieces, _, h1, rfl, rfl, h2, rfl, rfl, ?_⟩
  intro hpt fuel
  rw [handle_of_failed env cfg fuel _ _ rfl hfail]
  unfold cancel_if_failed
  simp only [hfail, hpt, Bool.not_false, Bool.and_self, if_true]

/-- Witness of C6: the first ten bytes of a JSON body and a failing plan
call. -/
theorem plan_failure_in_sniff_phase_witness :
    ∃ (pieces : List (List Byte)) (ctx' : StreamLoadContext),
      on_chunk_data plan_failure_env (sample_cfg 1048576)
          { sample_request "json" "" "" with
            handler_ctx := some (sample_received plan_failure_env "json" "" [])
            input_buffer := List.range 10 } =
        Except.ok { sample_request "json" "" "" with
          handler_ctx := some ctx'
          input_buffer := (List.range 10).drop (sniff_room (sample_cfg 1048576) 0) } ∧
      ctx'.status = plan_failure ∧
      ctx'.body_sink = some { restored_pipe 0 with appended := pieces } ∧
      pieces.flatten = (List.range 10).take (sniff_room (sample_cfg 1048576) 0) :=
  match plan_failure_in_sniff_phase plan_failure_env (sample_cfg 1048576)
      (fun _ _ => rfl)
      { sample_request "json" "" "" with
        handler_ctx := some (sample_received plan_failure_env "json" "" [])
        input_buffer := List.range 10 }
      (sample_received plan_failure_env "json" "" [])
      { sample_received plan_failure_env "json" "" [] with
        put_requests := [put_request plan_failure_env (sample_cfg 1048576)
          (sample_header "json" "" "") (sample_received plan_failure_env "json" "" [])
          2147483648] }
      (new_pipe 0) plan_failure rfl (by decide) (by decide) (by decide) (by decide)
      (by decide) (by decide) (by decide) (by decide) with
  | ⟨pieces, ctx', h1, h2, h3, h4, _⟩ => ⟨pieces, ctx', h1, h2, h3, h4⟩

/-! ## Delivery of a whole payload -/

/-- With every append succeeding, the forwarding loop empties the input buffer
into the sink, in pieces of at most 128 KiB, and counts every byte. -/
theorem forward_loop_ok (env : Env) (ha : appends_ok env) :
    ∀ (fuel : Nat) (ctx : StreamLoadContext) (sink : MessageBodySink) (evbuf : List Byte),
      ctx.body_sink = some sink → evbuf.length ≤ fuel →
      ∃ pieces : List (List Byte),
        forward_loop env fuel ctx evbuf = Except.ok
          ⟨{ ctx with
              body_sink := some { sink with appended := sink.appended ++ pieces }
              receive_bytes := ctx.receive_bytes + evbuf.length }, [], false⟩ ∧
        pieces.flatten = evbuf ∧
        ∀ p ∈ pieces, p ≠ [] ∧ p.length ≤ stream_buffer_size := by
  intro fuel
  induction fuel with
  | zero =>
    intro ctx sink evbuf hs hf
    have he : evbuf = [] := List.length_eq_zero.1 (by omega)
    subst he
    refine ⟨[], ?_, by simp, by simp⟩
    unfold forward_loop
    cases ctx
    simp_all
  | succ fuel ih =>
    intro ctx sink evbuf hs hf
    by_cases he : evbuf = []
    · subst he
      refine ⟨[], ?_, by simp, by simp⟩
      unfold forward_loop
      cases ctx
      simp_all
    · have hlen : evbuf.length > 0 := List.length_pos.2 he
      obtain ⟨hok, hsink⟩ := sink_append_ok env ha sink (evbuf.take stream_buffer_size)
      have hbb : (evbuf.take stream_buffer_size).length ≥ 1 := by
        rw [List.length_take, stream_buffer_size_eq]
        omega
      obtain ⟨pieces, hp1, hp2, hp3⟩ := ih
        { ctx with
          body_sink := some { sink with
            appended := sink.appended ++ [evbuf.take stream_buffer_size] }
          receive_bytes := ctx.receive_bytes + (evbuf.take stream_buffer_size).length }
        { sink with appended := sink.appended ++ [evbuf.take stream_buffer_size] }
        (evbuf.drop stream_buffer_size) rfl
        (by
          rw [List.length_drop, stream_buffer_size_eq]
          omega)
      refine ⟨evbuf.take stream_buffer_size :: pieces, ?_, ?_, ?_⟩
      · rw [forward_loop]
        simp only [hlen, if_true, hs, hok, hsink, Bool.not_true]
        rw [if_neg (by simp)]
        rw [hp1]
        have hsum : (evbuf.take stream_buffer_size).length +
            (evbuf.drop stream_buffer_size).length = evbuf.length := by
          rw [← List.length_append, List.take_append_drop]
        simp only [List.append_assoc, List.singleton_append, Nat.add_assoc, hsum]
      · rw [List.flatten_cons, hp2, List.take_append_drop]
      · intro p hp
        rcases List.mem_cons.1 hp with h | h
        · rw [h]
          refine ⟨fun h0 => ?_, ?_⟩
          · rw [h0] at hbb
            exact absurd hbb (by decide)
          · rw [List.length_take]
            exact Nat.min_le_left _ _
        · exact hp3 p h

/-- A call of `on_chunk_data` after the schema phase, with every append
succeeding, forwards the whole input buffer. -/
theorem on_chunk_data_forward (env : Env) (cfg : Config) (ha : appends_ok env)
    (req : HttpRequest) (ctx : StreamLoadContext) (sink : MessageBodySink)
    (hc : req.handler_ctx = some ctx) (hst : ctx.status.ok = true)
    (hn : ctx.need_schema_buffer = false) (hs : ctx.body_sink = some sink) :
    ∃ pieces : List (List Byte),
      on_chunk_data env cfg req = Except.ok { req with
        handler_ctx := some { ctx with
          body_sink := some { sink with appended := sink.appended ++ pieces }
          receive_bytes := ctx.receive_bytes + req.input_buffer.length }
        input_buffer := [] } ∧
      pieces.flatten = req.input_buffer := by
  obtain ⟨pieces, h1, h2, -⟩ := forward_loop_ok env ha req.input_buffer.length ctx sink
    req.input_buffer hs (Nat.le_refl _)
  refine ⟨pieces, ?_, h2⟩
  unfold on_chunk_data
  simp only [hc]
  rw [if_neg (by simp [hst]), if_neg (by simp [hn]), h1]

/-- After the schema phase, with every append succeeding, the sink receives
every chunk whole and in order, and `receive_bytes` grows by the length of the
chunks. -/
theorem deliver_forward (env : Env) (cfg : Config) (ha : appends_ok env) :
    ∀ (chunks : List (List Byte)) (req : HttpRequest) (ctx : StreamLoadContext)
      (sink : MessageBodySink),
      req.handler_ctx = some ctx → req.input_buffer = [] → ctx.status.ok = true →
      ctx.need_schema_buffer = false → ctx.body_sink = some sink →
      ∃ pieces : List (List Byte),
        deliver env cfg chunks req = Except.ok { req with
          handler_ctx := some { ctx with
            body_sink := some { sink with appended := sink.appended ++ pieces }
            receive_bytes := ctx.receive_bytes + chunks.flatten.length }
          input_buffer := [] } ∧
        pieces.flatten = chunks.flatten := by
  intro chunks
  induction chunks with
  | nil =>
    intro req ctx sink hc hi hst hn hs
    refine ⟨[], ?_, rfl⟩
    unfold deliver
    cases req
    cases ctx
    cases sink
    simp_all
  | cons c rest ih =>
    intro req ctx sink hc hi hst hn hs
    obtain ⟨p1, h1, h2⟩ := on_chunk_data_forward env cfg ha
      { req with input_buffer := req.input_buffer ++ c } ctx sink hc hst hn hs
    obtain ⟨p2, h3, h4⟩ := ih
      { req with
        handler_ctx := some { ctx with
          body_sink := some { sink with appended := sink.appended ++ p1 }
          receive_bytes := ctx.receive_bytes + (req.input_buffer ++ c).length }
        input_buffer := [] }
      { ctx with
        body_sink := some { sink with appended := sink.appended ++ p1 }
        receive_bytes := ctx.receive_bytes + (req.input_buffer ++ c).length }
      { sink with appended := sink.appended ++ p1 } rfl rfl hst hn rfl
    refine ⟨p1 ++ p2, ?_, ?_⟩
    · rw [deliver, h1]
      simp only
      rw [h3]
      simp only [hi, List.nil_append, List.append_assoc, List.flatten_cons,
        List.length_append, Nat.add_assoc]
    · rw [List.flatten_append, h2, h4, hi, List.nil_append, List.flatten_cons]

/-- Sniff-replay transparency where it holds: a streaming context fresh from
header processing, every append and the plan call succeeding, and no chunk
longer than the room of the schema loop.  Then the post-swap pipe receives the
whole payload, in order and once, `receive_bytes` grows by its length, nothing
stays in the input buffer and the promise is set once. -/
theorem deliver_transparent (env : Env) (cfg : Config) (ha : appends_ok env) :
    ∀ (chunks : List (List Byte)) (req : HttpRequest) (ctx ctx2 : StreamLoadContext)
      (sink : MessageBodySink) (st : Status),
      req.handler_ctx = some ctx → req.input_buffer = [] → ctx.status.ok = true →
      ctx.need_schema_buffer = true → ctx.schema_buffer = [] → ctx.schema_buffer_size = 0 →
      ctx.body_sink = some sink →
      _process_put env cfg req.header ctx = Except.ok (st, ctx2) → st.ok = true →
      (∀ c ∈ chunks, c.length ≤ sniff_room cfg 0) → chunks.flatten ≠ [] →
      ∃ (pieces : List (List Byte)) (ctx' : StreamLoadContext),
        deliver env cfg chunks req = Except.ok { req with
          handler_ctx := some ctx', input_buffer := [] } ∧
        ctx'.body_sink = some { restored_pipe ctx.body_bytes with appended := pieces } ∧
        pieces.flatten = chunks.flatten ∧
        ctx'.receive_bytes = ctx.receive_bytes + chunks.flatten.length ∧
        ctx'.status = st ∧ ctx'.need_schema_buffer = false ∧
        ctx'.restore_pipe_promise = ctx.restore_pipe_promise ++ [st] := by
  intro chunks
  induction chunks with
  | nil =>
    intro req ctx ctx2 sink st hc hi hst hn hb hz hs hp hok hfit hne
    exact absurd rfl hne
  | cons c rest ih =>
    intro req ctx ctx2 sink st hc hi hst hn hb hz hs hp hok hfit hne
    by_cases hcn : c = []
    · subst hcn
      have hidle := on_chunk_data_sniff_idle env cfg ha
        { req with input_buffer := req.input_buffer ++ [] } ctx sink hc hst hn hb hz hs
        (by simp [hi])
      have hne' : rest.flatten ≠ [] := by simpa using hne
      obtain ⟨pieces, ctx', h1, h2, h3, h4, h5, h6, h7⟩ := ih
        { req with input_buffer := req.input_buffer ++ [] } ctx ctx2 sink st hc
        (by simp [hi]) hst hn hb hz hs hp hok
        (fun c hcm => hfit c (List.mem_cons_of_mem _ hcm)) hne'
      refine ⟨pieces, ctx', ?_, h2, by simpa using h3, by simpa using h4, h5, h6, h7⟩
      rw [deliver, hidle]
      simp only
      rw [h1]
    · have hlen : c.length ≤ sniff_room cfg 0 := hfit c (List.mem_cons_self _ _)
      have htake : (req.input_buffer ++ c).take (sniff_room cfg 0) = c := by
        rw [hi, List.nil_append]
        exact List.take_of_length_le hlen
      have hdrop : (req.input_buffer ++ c).drop (sniff_room cfg 0) = [] := by
        rw [hi, List.nil_append]
        exact List.drop_of_length_le hlen
      obtain ⟨p1, h1, h2, -⟩ := on_chunk_data_sniff env cfg ha
        { req with input_buffer := req.input_buffer ++ c } ctx ctx2 sink st hc hst hn hb hz hs hp
        (by
          show (req.input_buffer ++ c).take (sniff_room cfg 0) ≠ []
          rw [htake]
          exact hcn)
      simp only [htake, hdrop] at h1 h2
      obtain ⟨p2, h3, h4⟩ := deliver_forward env cfg ha rest
        { req with
          handler_ctx := some { ctx2 with
            status := st
            body_sink := some { restored_pipe ctx.body_bytes with appended := p1 }
            pipe := true
            schema_buffer := c
            schema_buffer_size := 0
            receive_bytes := ctx.receive_bytes + c.length
            restore_pipe_promise := ctx.restore_pipe_promise ++ [st]
            need_schema_buffer := false
            need_wait_restore_pipe := false }
          input_buffer := [] }
        { ctx2 with
          status := st
          body_sink := some { restored_pipe ctx.body_bytes with appended := p1 }
          pipe := true
          schema_buffer := c
          schema_buffer_size := 0
          receive_bytes := ctx.receive_bytes + c.length
          restore_pipe_promise := ctx.restore_pipe_promise ++ [st]
          need_schema_buffer := false
          need_wait_restore_pipe := false }
        { restored_pipe ctx.body_bytes with appended := p1 } rfl rfl hok rfl rfl
      refine ⟨p1 ++ p2, ?_⟩
      apply Exists.intro
      refine ⟨?_, ?_, ?_, ?_, ?_, ?_, ?_⟩
      · rw [deliver, h1]
        simp only
        rw [h3]
      · rfl
      · rw [List.flatten_append, h2, h4, List.flatten_cons]
      · simp only [List.flatten_cons, List.length_append, Nat.add_assoc]
      · rfl
      · rfl
      · rfl


/-! ## Claims on the sniff phase -/

/-- The first non-empty chunk of a JSON body at a sniff ceiling of 1 MiB,
every call succeeding: the first MiB of the chunk is replayed into the
new pipe and counted in `receive_bytes`; what the chunk holds beyond 1 MiB
stays unread in the input buffer. -/
theorem receive_first_chunk (p : List Byte) (hp : p ≠ []) :
    ∃ (pieces : List (List Byte)) (ctx : StreamLoadContext),
      receive sample_env (sample_cfg 1048576) (sample_request "json" "" "") [p] =
        Except.ok { sample_request "json" "" "" with
          handler_ctx := some ctx, input_buffer := p.drop 1048576 } ∧
      ctx.receive_bytes = (p.take 1048576).length ∧
      ctx.body_sink = some { restored_pipe 0 with appended := pieces } ∧
      pieces.flatten = p.take 1048576 ∧
      ctx.status = Status.OK ∧ ctx.restore_pipe_promise = [Status.OK] ∧
      ctx.need_schema_buffer = false := by
  have hroom : sniff_room (sample_cfg 1048576) 0 = 1048576 := by decide
  have hhdr : on_header sample_env (sample_cfg 1048576) (sample_request "json" "" "") =
      Except.ok (0, { sample_request "json" "" "" with
        handler_ctx := some (sample_received sample_env "json" "" []) }) := by
    rfl
  have hne : p.take 1048576 ≠ [] := by
    intro h
    rcases List.take_eq_nil_iff.1 h with h | h
    · exact absurd h (by decide)
    · exact hp h
  obtain ⟨pieces, h1, h2, -⟩ := on_chunk_data_sniff sample_env (sample_cfg 1048576)
    (fun _ _ => rfl)
    { sample_request "json" "" "" with
      handler_ctx := some (sample_received sample_env "json" "" [])
      input_buffer := p }
    (sample_received sample_env "json" "" [])
    { sample_received sample_env "json" "" [] with
      put_requests := [put_request sample_env (sample_cfg 1048576)
        (sample_header "json" "" "") (sample_received sample_env "json" "" []) 2147483648] }
    (new_pipe 0) Status.OK rfl (by decide) (by decide) (by decide) (by decide) (by decide)
    rfl (by rw [hroom]; exact hne)
  simp only [hroom] at h1 h2
  have hrec : receive sample_env (sample_cfg 1048576) (sample_request "json" "" "") [p] =
      on_chunk_data sample_env (sample_cfg 1048576)
        { sample_request "json" "" "" with
          handler_ctx := some (sample_received sample_env "json" "" [])
          input_buffer := p } := by
    unfold receive
    rw [hhdr]
    simp only [if_true, deliver]
    have e : ({ sample_request "json" "" "" with
        handler_ctx := some (sample_received sample_env "json" "" [])
        input_buffer := (sample_request "json" "" "").input_buffer ++ p } : HttpRequest) =
        { sample_request "json" "" "" with
          handler_ctx := some (sample_received sample_env "json" "" [])
          input_buffer := p } := rfl
    rw [e]
    cases on_chunk_data sample_env (sample_cfg 1048576)
        { sample_request "json" "" "" with
          handler_ctx := some (sample_received sample_env "json" "" [])
          input_buffer := p } <;> rfl
  rw [hrec, h1]
  exact ⟨pieces, _, rfl, Nat.zero_add _, rfl, h2, rfl, rfl, rfl⟩

theorem replicate_take_drop :
    (List.replicate 1048577 (0 : Byte)).take 1048576 = List.replicate 1048576 0 ∧
      (List.replicate 1048577 (0 : Byte)).drop 1048576 = [0] := by
  constructor
  · rw [List.take_replicate]
    rfl
  · rw [List.drop_replicate]
    rfl

theorem replicate_ne_nil : List.replicate 1048577 (0 : Byte) ≠ [] := by
  intro h
  have h1 := congrArg List.length h
  rw [List.length_replicate] at h1
  exact absurd h1 (by decide)

/-- C1 on two failing inputs, every append and the plan call succeeding.
First, the sniff ceiling is 8 bytes and a JSON body arrives in chunks of 10, 5
and 20 bytes: every call of `on_chunk_data` stops at the test of line 378
before it reads a byte, so no plan is requested, no pipe swap takes place, the
pipe holds nothing and the 35 bytes stay unread.  Second, the ceiling is
1 MiB and the body is one chunk of 1 MiB + 1 byte: the post-swap pipe
receives the first MiB and the last byte stays unread in the input buffer,
which no later code reads. -/
theorem sniff_replay_leaves_bytes_behind :
    (received_context sample_env (sample_cfg 8) (sample_request "json" "" "")
        [List.range 10, List.range 5, List.range 20]).map
      (fun ctx => (ctx.body_sink, ctx.restore_pipe_promise, ctx.put_requests)) =
      some (some (new_pipe 0), [], []) ∧
    received_unread sample_env (sample_cfg 8) (sample_request "json" "" "")
        [List.range 10, List.range 5, List.range 20] =
      some (List.range 10 ++ List.range 5 ++ List.range 20) ∧
    ∃ (pieces : List (List Byte)) (ctx : StreamLoadContext),
      receive sample_env (sample_cfg 1048576) (sample_request "json" "" "")
          [List.replicate 1048577 0] =
        Except.ok { sample_request "json" "" "" with
          handler_ctx := some ctx, input_buffer := [0] } ∧
      ctx.body_sink = some { restored_pipe 0 with appended := pieces } ∧
      pieces.flatten = List.replicate 1048576 0 ∧
      ctx.restore_pipe_promise = [Status.OK] ∧ ctx.status = Status.OK := by
  refine ⟨by decide, by decide, ?_⟩
  obtain ⟨pieces, ctx, h1, -, h3, h4, h5, h6, -⟩ :=
    receive_first_chunk (List.replicate 1048577 0) replicate_ne_nil
  rw [replicate_take_drop.1] at h4
  rw [replicate_take_drop.2] at h1
  exact ⟨pieces, ctx, h1, h3, h4, h6, h5⟩

/-- C2 on the same two failing inputs.  With a sniff ceiling of 8 bytes the
chunks of 10, 5 and 20 bytes leave `receive_bytes = 0`, also after `handle`,
for a payload of 35 bytes; with a ceiling of 1 MiB one chunk of
1 MiB + 1 byte leaves `receive_bytes = 1048576` for a payload of 1048577
bytes.  (With that ceiling the chunks of 10, 5 and 20 bytes do give 35.) -/
theorem receive_bytes_misses_unread_bytes :
    (received_context sample_env (sample_cfg 8) (sample_request "json" "" "")
        [List.range 10, List.range 5, List.range 20]).map (fun ctx => ctx.receive_bytes) =
      some 0 ∧
    (served_context sample_env (sample_cfg 8) 1 (sample_request "json" "" "")
        [List.range 10, List.range 5, List.range 20]).map
      (fun ctx => (ctx.receive_bytes, ctx.status)) = some (0, Status.OK) ∧
    (∃ ctx : StreamLoadContext,
      receive sample_env (sample_cfg 1048576) (sample_request "json" "" "")
          [List.replicate 1048577 0] =
        Except.ok { sample_request "json" "" "" with
          handler_ctx := some ctx, input_buffer := [0] } ∧
      ctx.receive_bytes = 1048576 ∧
      (List.replicate 1048577 (0 : Byte)).length = 1048577) ∧
    (received_context sample_env (sample_cfg 1048576) (sample_request "json" "" "")
        [List.range 10, List.range 5, List.range 20]).map (fun ctx => ctx.receive_bytes) =
      some 35 := by
  refine ⟨by decide, by decide, ?_, by decide⟩
  obtain ⟨pieces, ctx, h1, h2, -⟩ :=
    receive_first_chunk (List.replicate 1048577 0) replicate_ne_nil
  rw [replicate_take_drop.1, List.length_replicate] at h2
  rw [replicate_take_drop.2] at h1
  exact ⟨ctx, h1, h2, List.length_replicate _ _⟩

/-! ## Claims on the sniff ceiling -/

theorem sniff_room_le (cfg : Config) (n : Nat) :
    sniff_room cfg n ≤ cfg.stream_tvf_buffer_size - n := by
  unfold sniff_room
  exact Nat.mul_div_le _ _

/-- C11, as stated, fails: more bytes than the sniff ceiling arrive before any
plan exists and the status stays OK.  With a ceiling of 8 bytes a chunk of 10
bytes leaves the status OK, requests no plan, and the request still ends with
status OK after `handle`; with a ceiling of 1 MiB a chunk of 1 MiB + 1
byte leaves the status OK, the plan requested and the promise set. -/
theorem sniff_ceiling_overrun_keeps_status_ok :
    (received_context sample_env (sample_cfg 8) (sample_request "json" "" "")
        [List.range 10]).map (fun ctx => (ctx.status, ctx.need_schema_buffer, ctx.put_requests)) =
      some (Status.OK, true, []) ∧
    (served_context sample_env (sample_cfg 8) 1 (sample_request "json" "" "")
        [List.range 10]).map (fun ctx => ctx.status) = some Status.OK ∧
    ∃ ctx : StreamLoadContext,
      (receive sample_env (sample_cfg 1048576) (sample_request "json" "" "")
          [List.replicate 1048577 0]).map (fun req => req.handler_ctx) =
        Except.ok (some ctx) ∧
      ctx.status = Status.OK ∧ ctx.restore_pipe_promise = [Status.OK] := by
  refine ⟨by decide, by decide, ?_⟩
  obtain ⟨pieces, ctx, h1, -, -, -, h5, h6, -⟩ :=
    receive_first_chunk (List.replicate 1048577 0) replicate_ne_nil
  exact ⟨ctx, by rw [h1]; rfl, h5, h6⟩

/-- C11, amended: in the schema phase, with every append succeeding, an input
buffer longer than the sniff ceiling does not fail the request.  The schema
loop stops at the test of line 378 after `sniff_room` bytes, fewer than
arrived and no more than the ceiling.  When it took none, the context is left
as it was, status OK; when it took some, the plan is requested, and the status
of the context is the status of the plan call: OK when the plan call succeeds.
The promise is set with that status and schema buffering ends. -/
theorem sniff_ceiling_outcome (env : Env) (cfg : Config) (ha : appends_ok env)
    (req : HttpRequest) (ctx ctx2 : StreamLoadContext) (sink : MessageBodySink) (st : Status)
    (hc : req.handler_ctx = some ctx) (hst : ctx.status.ok = true)
    (hn : ctx.need_schema_buffer = true) (hb : ctx.schema_buffer = [])
    (hz : ctx.schema_buffer_size = 0) (hs : ctx.body_sink = some sink)
    (hp : _process_put env cfg req.header ctx = Except.ok (st, ctx2))
    (hover : cfg.stream_tvf_buffer_size < req.input_buffer.length) :
    sniff_room cfg 0 ≤ cfg.stream_tvf_buffer_size ∧
    sniff_room cfg 0 < req.input_buffer.length ∧
    ∃ (req1 : HttpRequest) (ctx1 : StreamLoadContext),
      on_chunk_data env cfg req = Except.ok req1 ∧ req1.handler_ctx = some ctx1 ∧
      (sniff_room cfg 0 = 0 → ctx1 = ctx) ∧
      (0 < sniff_room cfg 0 →
        ctx1.status = st ∧
        ctx1.schema_buffer = req.input_buffer.take (sniff_room cfg 0) ∧
        ctx1.put_requests = ctx2.put_requests ∧
        ctx1.restore_pipe_promise = ctx.restore_pipe_promise ++ [st] ∧
        ctx1.need_schema_buffer = false) ∧
      (st.ok = true → ctx1.status.ok = true) := by
  have hle := sniff_room_le cfg 0
  have hle2 : sniff_room cfg 0 ≤ cfg.stream_tvf_buffer_size := by omega
  refine ⟨hle2, by omega, ?_⟩
  by_cases h0 : sniff_room cfg 0 = 0
  · have hne : req.input_buffer.take (sniff_room cfg 0) = [] := by rw [h0]; rfl
    refine ⟨req, ctx, on_chunk_data_sniff_idle env cfg ha req ctx sink hc hst hn hb hz hs hne,
      hc, fun _ => rfl, fun h => absurd h0 (by omega), fun _ => hst⟩
  · have hne : req.input_buffer.take (sniff_room cfg 0) ≠ [] := by
      intro h
      rcases List.take_eq_nil_iff.1 h with h | h
      · exact h0 h
      · rw [h] at hover
        exact absurd hover (by simp)
    obtain ⟨pieces, h1, -, -⟩ :=
      on_chunk_data_sniff env cfg ha req ctx ctx2 sink st hc hst hn hb hz hs hp hne
    exact ⟨_, _, h1, rfl, fun h => absurd h h0, fun _ => ⟨rfl, rfl, rfl, rfl, rfl⟩, fun h => h⟩

theorem sniff_ceiling_outcome_witness :
    sniff_room (sample_cfg 1048576) 0 ≤ 1048576 ∧
    sniff_room (sample_cfg 1048576) 0 < (List.replicate 1048577 (0 : Byte)).length ∧
    ∃ (req1 : HttpRequest) (ctx1 : StreamLoadContext),
      on_chunk_data sample_env (sample_cfg 1048576)
          { sample_request "json" "" "" with
            handler_ctx := some (sample_received sample_env "json" "" [])
            input_buffer := List.replicate 1048577 0 } = Except.ok req1 ∧
      req1.handler_ctx = some ctx1 ∧
      (sniff_room (sample_cfg 1048576) 0 = 0 →
        ctx1 = sample_received sample_env "json" "" []) ∧
      (0 < sniff_room (sample_cfg 1048576) 0 →
        ctx1.status = Status.OK ∧
        ctx1.schema_buffer =
          (List.replicate 1048577 (0 : Byte)).take (sniff_room (sample_cfg 1048576) 0) ∧
        ctx1.put_requests = [put_request sample_env (sample_cfg 1048576)
          (sample_header "json" "" "") (sample_received sample_env "json" "" []) 2147483648] ∧
        ctx1.restore_pipe_promise = [] ++ [Status.OK] ∧
        ctx1.need_schema_buffer = false) ∧
      (Status.OK.ok = true → ctx1.status.ok = true) :=
  sniff_ceiling_outcome sample_env (sample_cfg 1048576) (fun _ _ => rfl)
    { sample_request "json" "" "" with
      handler_ctx := some (sample_received sample_env "json" "" [])
      input_buffer := List.replicate 1048577 0 }
    (sample_received sample_env "json" "" [])
    { sample_received sample_env "json" "" [] with
      put_requests := [put_request sample_env (sample_cfg 1048576)
        (sample_header "json" "" "") (sample_received sample_env "json" "" []) 2147483648] }
    (new_pipe 0) Status.OK rfl (by decide) (by decide) (by decide) (by decide) (by decide)
    rfl (Nat.lt_of_lt_of_eq (by decide) (List.length_replicate 1048577 (0 : Byte)).symm)

/-! ## Lemmas on the loops in any surroundings -/

theorem memcpy_at_length (buf data : List Byte) (offset : Nat) :
    (memcpy_at buf offset data).length ≤ max buf.length (offset + data.length) := by
  unfold memcpy_at
  simp only [List.length_append, List.length_take, List.length_drop]
  omega

theorem sink_append_serial (env : Env) (sink : MessageBodySink) (bb : List Byte) :
    (sink_append env sink bb).2.serial = sink.serial := by
  unfold sink_append
  simp only
  split <;> rfl

/-- The schema loop in any surroundings: it keeps the promise and the flags,
keeps the sink object, keeps `schema_buffer_size` under the ceiling and equal to
the length of the schema buffer, and changes the status only when it returns
on a failed append. -/
theorem sniff_loop_inv (env : Env) (cfg : Config) :
    ∀ (fuel : Nat) (ctx : StreamLoadContext) (evbuf : List Byte) (r : LoopExit),
      sniff_loop env cfg fuel ctx evbuf = Except.ok r →
      (r.ctx.restore_pipe_promise = ctx.restore_pipe_promise ∧
        r.ctx.need_schema_buffer = ctx.need_schema_buffer ∧
        r.ctx.use_streaming = ctx.use_streaming) ∧
      (ctx.schema_buffer_size ≤ cfg.stream_tvf_buffer_size →
        r.ctx.schema_buffer_size ≤ cfg.stream_tvf_buffer_size) ∧
      (ctx.schema_buffer.length = ctx.schema_buffer_size →
        r.ctx.schema_buffer.length = r.ctx.schema_buffer_size) ∧
      (∀ sink, r.ctx.body_sink = some sink →
        ∃ sink0, ctx.body_sink = some sink0 ∧ sink.serial = sink0.serial) ∧
      (r.returned = false → r.ctx.status = ctx.status) ∧
      (r.returned = true → r.ctx.status.ok = false) := by
  intro fuel
  induction fuel with
  | zero =>
    intro ctx evbuf r h
    unfold sniff_loop at h
    injection h with h
    subst h
    exact ⟨⟨rfl, rfl, rfl⟩, id, id, fun sink hs => ⟨sink, hs, rfl⟩, fun _ => rfl,
      fun h => by cases h⟩
  | succ n ih =>
    intro ctx evbuf r h
    unfold sniff_loop at h
    split at h
    · split at h
      · injection h with h
        subst h
        exact ⟨⟨rfl, rfl, rfl⟩, id, id, fun sink hs => ⟨sink, hs, rfl⟩, fun _ => rfl,
          fun h => by cases h⟩
      · rename_i hguard
        split at h
        · cases h
        · rename_i sink0 hs0
          simp only at h
          split at h
          · rename_i hfail
            injection h with h
            subst h
            refine ⟨⟨rfl, rfl, rfl⟩, id, id, ?_, fun h => (by cases h), fun _ => ?_⟩
            · intro sink hs
              simp only [Option.some.injEq] at hs
              exact ⟨sink0, hs0, by rw [← hs, sink_append_serial]⟩
            · simpa using hfail
          · obtain ⟨⟨i1, i2, i3⟩, i4, i5, i6, i7, i8⟩ := ih _ _ r h
            refine ⟨⟨i1, i2, i3⟩, fun hb => i4 ?_, fun hl => i5 ?_, ?_, i7, i8⟩
            · simp only
              have := List.length_take_le stream_buffer_size evbuf
              omega
            · simp only
              rw [← hl, memcpy_at_end, List.length_append]
            · intro sink hs
              obtain ⟨s1, hs1, hs2⟩ := i6 sink hs
              simp only [Option.some.injEq] at hs1
              exact ⟨sink0, hs0, by rw [hs2, ← hs1, sink_append_serial]⟩
    · injection h with h
      subst h
      exact ⟨⟨rfl, rfl, rfl⟩, id, id, fun sink hs => ⟨sink, hs, rfl⟩, fun _ => rfl,
        fun h => by cases h⟩

theorem sink_append_cases (env : Env) (sink : MessageBodySink) (bb : List Byte) :
    ((sink_append env sink bb).1.ok = false ∧ (sink_append env sink bb).2 = sink) ∨
      ((sink_append env sink bb).1.ok = true ∧
        (sink_append env sink bb).2 = { sink with appended := sink.appended ++ [bb] }) := by
  unfold sink_append
  cases h : (env.append sink bb).ok <;> simp [h]

/-- The replay loop in any surroundings: it keeps the promise, the flags and
the schema buffer, keeps the sink object and appends pieces to it; when it
runs to the end the pieces are the buffered bytes and the status is as it was;
when it returns on a failed append the status is that failure and the pieces
are fewer bytes than were buffered. -/
theorem replay_loop_inv (env : Env) :
    ∀ (fuel : Nat) (ctx : StreamLoadContext) (off : Nat) (sink : MessageBodySink)
      (ctx1 : StreamLoadContext) (returned : Bool),
      ctx.body_sink = some sink → ctx.schema_buffer_size ≤ fuel →
      replay_loop env fuel ctx off = Except.ok (ctx1, returned) →
      (ctx1.restore_pipe_promise = ctx.restore_pipe_promise ∧
        ctx1.need_schema_buffer = ctx.need_schema_buffer ∧
        ctx1.use_streaming = ctx.use_streaming ∧
        ctx1.schema_buffer = ctx.schema_buffer) ∧
      ctx1.schema_buffer_size ≤ ctx.schema_buffer_size ∧
      ∃ pieces : List (List Byte),
        ctx1.body_sink = some { sink with appended := sink.appended ++ pieces } ∧
        (returned = false →
          ctx1.schema_buffer_size = 0 ∧ ctx1.status = ctx.status ∧
          pieces.flatten = (ctx.schema_buffer.drop off).take ctx.schema_buffer_size) ∧
        (returned = true →
          ctx1.status.ok = false ∧ pieces.flatten.length < ctx.schema_buffer_size) := by
  intro fuel
  induction fuel with
  | zero =>
    intro ctx off sink ctx1 returned hs hf h
    have h0 : ctx.schema_buffer_size = 0 := by omega
    unfold replay_loop at h
    injection h with h
    injection h with h1 h2
    subst h1 h2
    refine ⟨⟨rfl, rfl, rfl, rfl⟩, Nat.le_refl _, [], ?_, fun _ => ⟨h0, rfl, ?_⟩,
      fun h => (by cases h)⟩
    · rw [hs]; simp
    · rw [h0]; rfl
  | succ n ih =>
    intro ctx off sink ctx1 returned hs hf h
    unfold replay_loop at h
    split at h
    · rename_i hpos
      simp only [hs] at h
      have hcur : min ctx.schema_buffer_size stream_buffer_size ≤ ctx.schema_buffer_size :=
        Nat.min_le_left _ _
      have hcur1 : 1 ≤ min ctx.schema_buffer_size stream_buffer_size := by
        simp only [stream_buffer_size]; omega
      rcases sink_append_cases env sink
        ((ctx.schema_buffer.drop off).take (min ctx.schema_buffer_size stream_buffer_size))
        with ⟨hf1, hf2⟩ | ⟨hf1, hf2⟩
      · rw [if_pos (by simp [hf1])] at h
        injection h with h
        injection h with h1 h2
        subst h1 h2
        refine ⟨⟨rfl, rfl, rfl, rfl⟩, Nat.sub_le _ _, [], ?_, fun h => (by cases h),
          fun _ => ⟨hf1, ?_⟩⟩
        · simp only [hf2, List.append_nil]
        · simpa using hpos
      · rw [if_neg (by simp [hf1])] at h
        obtain ⟨⟨i1, i2, i3, i4⟩, i5, pieces, i6, i7, i8⟩ := ih _ _ _ ctx1 returned rfl
          (by simp only; omega) h
        refine ⟨⟨i1, i2, i3, i4⟩, le_trans i5 (Nat.sub_le _ _),
          ((ctx.schema_buffer.drop off).take (min ctx.schema_buffer_size stream_buffer_size))
            :: pieces, ?_, fun hr => ?_, fun hr => ?_⟩
        · rw [i6, hf2]
          simp
        · obtain ⟨j1, j2, j3⟩ := i7 hr
          refine ⟨j1, j2, ?_⟩
          rw [List.flatten_cons, j3]
          exact take_drop_split _ _ _ _ hcur
        · obtain ⟨j1, j2⟩ := i8 hr
          refine ⟨j1, ?_⟩
          rw [List.flatten_cons, List.length_append, List.length_take]
          simp only at j2
          have := Nat.min_le_left (min ctx.schema_buffer_size stream_buffer_size)
            (ctx.schema_buffer.drop off).length
          omega
    · rename_i hpos
      injection h with h
      injection h with h1 h2
      subst h1 h2
      have h0 : ctx.schema_buffer_size = 0 := by omega
      refine ⟨⟨rfl, rfl, rfl, rfl⟩, Nat.le_refl _, [], ?_, fun _ => ⟨h0, rfl, ?_⟩,
        fun h => (by cases h)⟩
      · rw [hs]; simp
      · rw [h0]; rfl

/-- The forwarding loop in any surroundings: it keeps the promise, the flags,
the schema buffer and its count, and keeps the sink object, appending pieces
to it. -/
theorem forward_loop_inv (env : Env) :
    ∀ (fuel : Nat) (ctx : StreamLoadContext) (evbuf : List Byte) (r : LoopExit),
      forward_loop env fuel ctx evbuf = Except.ok r →
      (r.ctx.restore_pipe_promise = ctx.restore_pipe_promise ∧
        r.ctx.need_schema_buffer = ctx.need_schema_buffer ∧
        r.ctx.use_streaming = ctx.use_streaming ∧
        r.ctx.schema_buffer = ctx.schema_buffer ∧
        r.ctx.schema_buffer_size = ctx.schema_buffer_size) ∧
      (ctx.body_sink = none → r.ctx.body_sink = none) ∧
      ∀ sink, ctx.body_sink = some sink →
        ∃ pieces : List (List Byte),
          r.ctx.body_sink = some { sink with appended := sink.appended ++ pieces } := by
  intro fuel
  induction fuel with
  | zero =>
    intro ctx evbuf r h
    unfold forward_loop at h
    injection h with h
    subst h
    exact ⟨⟨rfl, rfl, rfl, rfl, rfl⟩, id, fun sink hs => ⟨[], by rw [hs]; simp⟩⟩
  | succ n ih =>
    intro ctx evbuf r h
    unfold forward_loop at h
    split at h
    · split at h
      · cases h
      · rename_i sink0 hs0
        simp only at h
        rcases sink_append_cases env sink0 (evbuf.take stream_buffer_size)
          with ⟨hf1, hf2⟩ | ⟨hf1, hf2⟩
        · rw [if_pos (by simp [hf1])] at h
          injection h with h
          subst h
          refine ⟨⟨rfl, rfl, rfl, rfl, rfl⟩, fun hn => ?_, fun sink hs => ⟨[], ?_⟩⟩
          · rw [hn] at hs0; cases hs0
          · rw [hs0] at hs
            injection hs with hs
            subst hs
            simp [hf2]
        · rw [if_neg (by simp [hf1])] at h
          obtain ⟨⟨i1, i2, i3, i4, i5⟩, -, i7⟩ := ih _ _ r h
          refine ⟨⟨i1, i2, i3, i4, i5⟩, fun hn => ?_, fun sink hs => ?_⟩
          · rw [hn] at hs0; cases hs0
          · rw [hs0] at hs
            injection hs with hs
            subst hs
            obtain ⟨pieces, hp⟩ := i7 _ rfl
            refine ⟨evbuf.take stream_buffer_size :: pieces, ?_⟩
            rw [hp, hf2]
            simp
    · injection h with h
      subst h
      exact ⟨⟨rfl, rfl, rfl, rfl, rfl⟩, id, fun sink hs => ⟨[], by rw [hs]; simp⟩⟩

/-- Lines 394-425 in any surroundings, on a context whose schema buffer is
filled up to `schema_buffer_size`: either the replay runs to the end, the
promise gets the status of the context as its value and schema buffering ends
with the buffer replayed in full; or the replay returns on a failed append,
and then the promise is not set, the status is failed and the new pipe holds
less than the schema buffer. -/
theorem restore_pipe_inv (env : Env) (cfg : Config) (header : String → String)
    (ctx ctx1 : StreamLoadContext)
    (hl : ctx.schema_buffer.length = ctx.schema_buffer_size)
    (h : restore_pipe env cfg header ctx = Except.ok ctx1) :
    ctx1.schema_buffer = ctx.schema_buffer ∧
    ctx1.schema_buffer_size ≤ ctx.schema_buffer_size ∧
    ctx1.use_streaming = ctx.use_streaming ∧
    ((ctx1.restore_pipe_promise = ctx.restore_pipe_promise ++ [ctx1.status] ∧
        ctx1.need_schema_buffer = false ∧ fully_replayed ctx1) ∨
      (ctx1.restore_pipe_promise = ctx.restore_pipe_promise ∧
        ctx1.need_schema_buffer = ctx.need_schema_buffer ∧ ctx1.status.ok = false ∧
        ∃ sink, ctx1.body_sink = some sink ∧ sink.serial = 1 ∧
          sink.bytes.length < ctx1.schema_buffer.length)) := by
  unfold restore_pipe at h
  split at h
  · cases h
  · rename_i sink hs
    simp only at h
    split at h
    · cases h
    · rename_i st ctx2 hp
      have hfr := process_put_frame env cfg header _ ctx2 st hp
      have e3 : ctx2.restore_pipe_promise = ctx.restore_pipe_promise := by rw [hfr]
      have e4 : ctx2.schema_buffer = ctx.schema_buffer := by rw [hfr]
      have e5 : ctx2.schema_buffer_size = ctx.schema_buffer_size := by rw [hfr]
      have e6 : ctx2.need_schema_buffer = ctx.need_schema_buffer := by rw [hfr]
      have e7 : ctx2.use_streaming = ctx.use_streaming := by rw [hfr]
      split at h
      · cases h
      · rename_i ctx4 hr
        injection h with h
        subst h
        obtain ⟨⟨i1, i2, i3, i4⟩, i5, pieces, i6, -, i8⟩ := replay_loop_inv env ctx2.schema_buffer_size
          { ctx2 with
            status := st, body_sink := some (restored_pipe ctx2.body_bytes), pipe := true } 0
          (restored_pipe ctx2.body_bytes) ctx4 true rfl (Nat.le_refl _) hr
        obtain ⟨j1, j2⟩ := i8 rfl
        simp only at i1 i2 i3 i4 i5 j2
        refine ⟨i4.trans e4, by omega, i3.trans e7, Or.inr ⟨i1.trans e3, i2.trans e6, j1,
          _, i6, rfl, ?_⟩⟩
        rw [i4, e4, hl]
        simp only [MessageBodySink.bytes, restored_pipe, List.nil_append]
        omega
      · rename_i ctx4 hr
        injection h with h
        subst h
        obtain ⟨⟨i1, i2, i3, i4⟩, i5, pieces, i6, i7, -⟩ := replay_loop_inv env ctx2.schema_buffer_size
          { ctx2 with
            status := st, body_sink := some (restored_pipe ctx2.body_bytes), pipe := true } 0
          (restored_pipe ctx2.body_bytes) ctx4 false rfl (Nat.le_refl _) hr
        obtain ⟨j1, j2, j3⟩ := i7 rfl
        simp only at i1 i2 i3 i4 i5 j2 j3
        refine ⟨i4.trans e4, (by show ctx4.schema_buffer_size ≤ _; omega), i3.trans e7,
          Or.inl ⟨by simp only [i1, e3], rfl, ?_⟩⟩
        unfold fully_replayed
        simp only [i6]
        refine ⟨rfl, j1, ?_⟩
        rw [i4, e4]
        simp only [MessageBodySink.bytes, restored_pipe, List.nil_append, j3, e4, e5,
          List.drop_zero]
        rw [← hl, List.take_length]

theorem fully_replayed_iff (ctx : StreamLoadContext) :
    fully_replayed ctx ↔ ∃ sink, ctx.body_sink = some sink ∧ sink.serial = 1 ∧
      ctx.schema_buffer_size = 0 ∧ ctx.schema_buffer <+: sink.bytes := by
  unfold fully_replayed
  cases h : ctx.body_sink with
  | none => simp
  | some sink => simp

/-- Every call of `on_chunk_data`, in any surroundings, keeps the invariant of
the handler. -/
theorem on_chunk_data_inv (env : Env) (cfg : Config) (req req1 : HttpRequest)
    (ctx : StreamLoadContext) (hc : req.handler_ctx = some ctx) (hi : handler_inv cfg ctx)
    (h : on_chunk_data env cfg req = Except.ok req1) :
    ∃ ctx1, req1.handler_ctx = some ctx1 ∧ handler_inv cfg ctx1 := by
  unfold on_chunk_data at h
  simp only [hc] at h
  split at h
  · injection h with h
    subst h
    exact ⟨ctx, hc, hi⟩
  · rename_i hok
    simp only [Bool.not_eq_true, Bool.not_eq_false'] at hok
    obtain ⟨b1, b2, hph⟩ := hi
    split at h
    · rename_i hn
      rcases hph with ⟨a1, a2, a3, a4⟩ | ⟨-, -, -, hb, -⟩ | ⟨st, -, hcn, -⟩
      · split at h
        · cases h
        · rename_i r ctx1 evbuf1 hsl
          injection h with h
          subst h
          obtain ⟨⟨i1, i2, i3⟩, i4, i5, i6, -, -⟩ := sniff_loop_inv env cfg _ _ _ _ hsl
          simp only at i1 i2 i3 i4 i5 i6
          have k5 := i5 a3
          have k4 := i4 b1
          refine ⟨ctx1, rfl, k4, by omega, Or.inl ⟨i1.trans a1, ?_, k5, ?_⟩⟩
          · intro sink hs
            obtain ⟨s0, hs0, hs1⟩ := i6 sink hs
            rw [hs1]
            exact a2 s0 hs0
          · intro hn1
            rw [i3]
            exact a4 hn
        · rename_i r ctx1 evbuf1 hsl
          obtain ⟨⟨i1, i2, i3⟩, i4, i5, i6, -, -⟩ := sniff_loop_inv env cfg _ _ _ _ hsl
          simp only at i1 i2 i3 i4 i5 i6
          have k5 := i5 a3
          have k4 := i4 b1
          split at h
          · split at h
            · cases h
            · rename_i ctx2 hrp
              injection h with h
              subst h
              obtain ⟨j1, j2, j3, j4⟩ := restore_pipe_inv env cfg req.header ctx1 ctx2 k5 hrp
              refine ⟨ctx2, rfl, by omega, by rw [j1]; omega, ?_⟩
              rcases j4 with ⟨p1, p2, p3⟩ | ⟨p1, p2, p3, p4⟩
              · refine Or.inr (Or.inr ⟨ctx2.status, ?_, p2, ?_, p3⟩)
                · rw [p1, i1, a1]
                  rfl
                · rw [j3, i3]
                  exact a4 hn
              · refine Or.inr (Or.inl ⟨?_, ?_, ?_, p3, p4⟩)
                · rw [p1, i1, a1]
                · rw [p2, i2]
                  exact hn
                · rw [j3, i3]
                  exact a4 hn
          · injection h with h
            subst h
            refine ⟨ctx1, rfl, k4, by omega, Or.inl ⟨i1.trans a1, ?_, k5, ?_⟩⟩
            · intro sink hs
              obtain ⟨s0, hs0, hs1⟩ := i6 sink hs
              rw [hs1]
              exact a2 s0 hs0
            · intro hn1
              rw [i3]
              exact a4 hn
      · rw [hok] at hb
        cases hb
      · rw [hn] at hcn
        cases hcn
    · rename_i hn
      simp only [Bool.not_eq_true] at hn
      split at h
      · cases h
      · rename_i r ctx1 evbuf1 ret hfl
        injection h with h
        subst h
        obtain ⟨⟨i1, i2, i3, i4, i5⟩, i6, i7⟩ := forward_loop_inv env _ _ _ _ hfl
        simp only at i1 i2 i3 i4 i5 i6 i7
        refine ⟨ctx1, rfl, by rw [i5]; exact b1, by rw [i4]; exact b2, ?_⟩
        rcases hph with ⟨a1, a2, a3, a4⟩ | ⟨-, hb, -⟩ | ⟨st, c1, c2, c3, c4⟩
        · refine Or.inl ⟨i1.trans a1, ?_, by rw [i4, i5]; exact a3, ?_⟩
          · intro sink hs
            cases hs0 : ctx.body_sink with
            | none =>
              rw [i6 hs0] at hs
              cases hs
            | some s0 =>
              obtain ⟨pieces, hp⟩ := i7 s0 hs0
              rw [hp] at hs
              injection hs with hs
              rw [← hs]
              exact a2 s0 hs0
          · intro hn1
            rw [i2, hn] at hn1
            cases hn1
        · rw [hn] at hb
          cases hb
        · refine Or.inr (Or.inr ⟨st, i1.trans c1, i2.trans c2, i3.trans c3, ?_⟩)
          obtain ⟨s0, hs0, q1, q2, q3⟩ := (fully_replayed_iff ctx).1 c4
          obtain ⟨pieces, hp⟩ := i7 s0 hs0
          refine (fully_replayed_iff ctx1).2 ⟨_, hp, q1, i5.trans q2, ?_⟩
          rw [i4]
          refine q3.trans ?_
          simp only [MessageBodySink.bytes, List.flatten_append]
          exact List.prefix_append _ _

/-- The function `_handle` in any surroundings keeps the promise, the flags,
the schema buffer and its count; a sink the context holds afterwards is the
object it held before, with the same bytes, and on the streaming path the sink
is kept. -/
theorem handle_body_frame (env : Env) (cfg : Config) (header : String → String)
    (ctx ctx1 : StreamLoadContext) (st : Status)
    (h : _handle env cfg header ctx = Except.ok (st, ctx1)) :
    (ctx1.restore_pipe_promise = ctx.restore_pipe_promise ∧
      ctx1.need_schema_buffer = ctx.need_schema_buffer ∧
      ctx1.use_streaming = ctx.use_streaming ∧
      ctx1.schema_buffer = ctx.schema_buffer ∧
      ctx1.schema_buffer_size = ctx.schema_buffer_size) ∧
    (∀ sink1, ctx1.body_sink = some sink1 →
      ∃ sink, ctx.body_sink = some sink ∧ sink1.serial = sink.serial ∧
        sink1.appended = sink.appended) ∧
    (ctx.use_streaming = true → ∀ sink, ctx.body_sink = some sink →
      ∃ sink1, ctx1.body_sink = some sink1 ∧ sink1.serial = sink.serial ∧
        sink1.appended = sink.appended) := by
  unfold _handle at h
  split at h
  · injection h with h
    injection h with h1 h2
    subst h2
    exact ⟨⟨rfl, rfl, rfl, rfl, rfl⟩, fun s hs => ⟨s, hs, rfl, rfl⟩,
      fun _ s hs => ⟨s, hs, rfl, rfl⟩⟩
  · simp only at h
    split at h
    · rename_i hus
      simp only [Bool.not_eq_true'] at hus
      split at h
      · cases h
      · rename_i st1 ctx2 hp
        have hfr := process_put_frame env cfg header _ ctx2 st1 hp
        have e1 : ctx2.restore_pipe_promise = ctx.restore_pipe_promise := by rw [hfr]
        have e2 : ctx2.need_schema_buffer = ctx.need_schema_buffer := by rw [hfr]
        have e3 : ctx2.use_streaming = ctx.use_streaming := by rw [hfr]
        have e4 : ctx2.schema_buffer = ctx.schema_buffer := by rw [hfr]
        have e5 : ctx2.schema_buffer_size = ctx.schema_buffer_size := by rw [hfr]
        have e6 : ctx2.body_sink = none := by rw [hfr]
        have hc : ctx1 = ctx2 := by
          injection h with h
          revert h
          split
          · intro h; injection h with h1 h2; exact h2.symm
          · split <;> (intro h; injection h with h1 h2; exact h2.symm)
        subst hc
        refine ⟨⟨e1, e2, e3, e4, e5⟩, fun s hs => ?_, fun hu => ?_⟩
        · rw [e6] at hs
          cases hs
        · rw [hus] at hu
          cases hu
    · split at h
      · cases h
      · rename_i sink hs
        have hc : ctx1 = { ctx with
            body_sink := some { sink with finish_calls := sink.finish_calls + 1 } } := by
          revert h
          split
          · intro h; injection h with h; injection h with h1 h2; exact h2.symm
          · intro h
            injection h with h
            revert h
            split
            · intro h; injection h with h1 h2; exact h2.symm
            · split <;> (intro h; injection h with h1 h2; exact h2.symm)
        subst hc
        refine ⟨⟨rfl, rfl, rfl, rfl, rfl⟩, fun s1 hs1 => ?_, fun _ s hs2 => ?_⟩
        · simp only [Option.some.injEq] at hs1
          exact ⟨sink, hs, by rw [← hs1], by rw [← hs1]⟩
        · rw [hs] at hs2
          injection hs2 with hs2
          subst hs2
          exact ⟨_, rfl, rfl, rfl⟩

theorem cancel_if_failed_frame (env : Env) (ctx : StreamLoadContext) :
    ((cancel_if_failed env ctx).restore_pipe_promise = ctx.restore_pipe_promise ∧
      (cancel_if_failed env ctx).need_schema_buffer = ctx.need_schema_buffer ∧
      (cancel_if_failed env ctx).use_streaming = ctx.use_streaming ∧
      (cancel_if_failed env ctx).schema_buffer = ctx.schema_buffer ∧
      (cancel_if_failed env ctx).schema_buffer_size = ctx.schema_buffer_size) ∧
    (∀ sink1, (cancel_if_failed env ctx).body_sink = some sink1 →
      ∃ sink, ctx.body_sink = some sink ∧ sink1.serial = sink.serial ∧
        sink1.appended = sink.appended) ∧
    (∀ sink, ctx.body_sink = some sink →
      ∃ sink1, (cancel_if_failed env ctx).body_sink = some sink1 ∧
        sink1.serial = sink.serial ∧ sink1.appended = sink.appended) := by
  unfold cancel_if_failed
  split
  · split
    · rename_i sink hs
      refine ⟨⟨rfl, rfl, rfl, rfl, rfl⟩, fun s1 hs1 => ?_, fun s hs2 => ?_⟩
      · simp only [Option.some.injEq] at hs1
        exact ⟨sink, hs, by rw [← hs1]; rfl, by rw [← hs1]; rfl⟩
      · rw [hs] at hs2
        injection hs2 with hs2
        subst hs2
        exact ⟨_, rfl, rfl, rfl⟩
    · exact ⟨⟨rfl, rfl, rfl, rfl, rfl⟩, fun s hs => ⟨s, hs, rfl, rfl⟩,
        fun s hs => ⟨s, hs, rfl, rfl⟩⟩
  · exact ⟨⟨rfl, rfl, rfl, rfl, rfl⟩, fun s hs => ⟨s, hs, rfl, rfl⟩,
      fun s hs => ⟨s, hs, rfl, rfl⟩⟩

/-- What `handle` does to the context, in any surroundings: with `c` the
context after lines 157-164 (the entry context when its status is failed, else
the context `_handle` leaves with the status it returns), the final context is
`c` after the cancel step, with the counters of the status answer copied when
the status is OK. -/
theorem handle_shape (env : Env) (cfg : Config) (fuel : Nat) (req req1 : HttpRequest)
    (ctx : StreamLoadContext) (hc : req.handler_ctx = some ctx)
    (h : handle env cfg fuel req = Except.ok (some req1)) :
    ∃ c : StreamLoadContext,
      ((ctx.status.ok = false ∧ c = ctx) ∨
        (ctx.status.ok = true ∧ ∃ st ctx1,
          _handle env cfg req.header ctx = Except.ok (st, ctx1) ∧ c = { ctx1 with status := st })) ∧
      (((cancel_if_failed env c).status.ok = false ∧
          req1 = send_reply env req (cancel_if_failed env c)) ∨
        ((cancel_if_failed env c).status.ok = true ∧ ∃ n result,
          poll_status env fuel 0 = some (n, result) ∧
          req1 = send_reply env req { cancel_if_failed env c with
            txn_id := result.txn_id
            number_total_rows := result.total_rows
            number_loaded_rows := result.loaded_rows
            number_filtered_rows := result.filtered_rows
            number_unselected_rows := result.unselected_rows })) := by
  unfold handle at h
  simp only [hc] at h
  have key : ∀ c : StreamLoadContext,
      (if (!(cancel_if_failed env c).status.ok) = true then
          (Except.ok (some (send_reply env req (cancel_if_failed env c))) :
            Except Abort (Option HttpRequest))
        else
          match poll_status env fuel 0 with
          | none => Except.ok none
          | some (_, result) =>
            Except.ok (some (send_reply env req { cancel_if_failed env c with
              txn_id := result.txn_id
              number_total_rows := result.total_rows
              number_loaded_rows := result.loaded_rows
              number_filtered_rows := result.filtered_rows
              number_unselected_rows := result.unselected_rows }))) = Except.ok (some req1) →
      (((cancel_if_failed env c).status.ok = false ∧
          req1 = send_reply env req (cancel_if_failed env c)) ∨
        ((cancel_if_failed env c).status.ok = true ∧ ∃ n result,
          poll_status env fuel 0 = some (n, result) ∧
          req1 = send_reply env req { cancel_if_failed env c with
            txn_id := result.txn_id
            number_total_rows := result.total_rows
            number_loaded_rows := result.loaded_rows
            number_filtered_rows := result.filtered_rows
            number_unselected_rows := result.unselected_rows })) := by
    intro c hh
    split at hh
    · rename_i hf
      injection hh with hh
      injection hh with hh
      exact Or.inl ⟨by simpa using hf, hh.symm⟩
    · rename_i hf
      split at hh
      · injection hh with hh
        cases hh
      · rename_i n result hps
        injection hh with hh
        injection hh with hh
        exact Or.inr ⟨by simpa using hf, n, result, hps, hh.symm⟩
  cases hok : ctx.status.ok with
  | false =>
    simp only [hok, Bool.false_eq_true, if_false] at h
    exact ⟨ctx, Or.inl ⟨rfl, rfl⟩, key ctx h⟩
  | true =>
    simp only [hok, if_true] at h
    cases hh : _handle env cfg req.header ctx with
    | error e =>
      rw [hh] at h
      cases h
    | ok p =>
      obtain ⟨st, ctx1⟩ := p
      rw [hh] at h
      exact ⟨{ ctx1 with status := st }, Or.inr ⟨rfl, st, ctx1, rfl, rfl⟩, key _ h⟩

/-- What `handle` keeps, in any surroundings: the promise, the flags, the
schema buffer and its count, the sink object and its bytes (the sink itself on
the streaming path), and a failed status. -/
theorem handle_frame (env : Env) (cfg : Config) (fuel : Nat) (req req1 : HttpRequest)
    (ctx : StreamLoadContext) (hc : req.handler_ctx = some ctx)
    (h : handle env cfg fuel req = Except.ok (some req1)) :
    ∃ ctx1, req1.handler_ctx = some ctx1 ∧
      (ctx1.restore_pipe_promise = ctx.restore_pipe_promise ∧
        ctx1.need_schema_buffer = ctx.need_schema_buffer ∧
        ctx1.use_streaming = ctx.use_streaming ∧
        ctx1.schema_buffer = ctx.schema_buffer ∧
        ctx1.schema_buffer_size = ctx.schema_buffer_size) ∧
      (∀ sink1, ctx1.body_sink = some sink1 →
        ∃ sink, ctx.body_sink = some sink ∧ sink1.serial = sink.serial ∧
          sink1.appended = sink.appended) ∧
      (ctx.use_streaming = true → ∀ sink, ctx.body_sink = some sink →
        ∃ sink1, ctx1.body_sink = some sink1 ∧ sink1.serial = sink.serial ∧
          sink1.appended = sink.appended) ∧
      (ctx.status.ok = false → ctx1.status = ctx.status) := by
  obtain ⟨c, hcC, hfin⟩ := handle_shape env cfg fuel req req1 ctx hc h
  have fc : (c.restore_pipe_promise = ctx.restore_pipe_promise ∧
        c.need_schema_buffer = ctx.need_schema_buffer ∧
        c.use_streaming = ctx.use_streaming ∧
        c.schema_buffer = ctx.schema_buffer ∧
        c.schema_buffer_size = ctx.schema_buffer_size) ∧
      (∀ sink1, c.body_sink = some sink1 →
        ∃ sink, ctx.body_sink = some sink ∧ sink1.serial = sink.serial ∧
          sink1.appended = sink.appended) ∧
      (ctx.use_streaming = true → ∀ sink, ctx.body_sink = some sink →
        ∃ sink1, c.body_sink = some sink1 ∧ sink1.serial = sink.serial ∧
          sink1.appended = sink.appended) ∧
      (ctx.status.ok = false → c.status = ctx.status) := by
    rcases hcC with ⟨-, h2⟩ | ⟨h1, st, ctx1, h2, h3⟩
    · subst h2
      exact ⟨⟨rfl, rfl, rfl, rfl, rfl⟩, fun s hs => ⟨s, hs, rfl, rfl⟩,
        fun _ s hs => ⟨s, hs, rfl, rfl⟩, fun _ => rfl⟩
    · subst h3
      obtain ⟨f, g1, g2⟩ := handle_body_frame env cfg req.header ctx ctx1 st h2
      exact ⟨f, g1, g2, fun hf => by rw [h1] at hf; cases hf⟩
  obtain ⟨⟨c1, c2, c3, c4, c5⟩, d1, d2, d3⟩ := fc
  obtain ⟨⟨k1, k2, k3, k4, k5⟩, m1, m2⟩ := cancel_if_failed_frame env c
  have hst := cancel_if_failed_status env c
  have main : ∃ ctx1, req1.handler_ctx = some ctx1 ∧
      (cancel_if_failed env c).restore_pipe_promise = ctx1.restore_pipe_promise ∧
      (cancel_if_failed env c).need_schema_buffer = ctx1.need_schema_buffer ∧
      (cancel_if_failed env c).use_streaming = ctx1.use_streaming ∧
      (cancel_if_failed env c).schema_buffer = ctx1.schema_buffer ∧
      (cancel_if_failed env c).schema_buffer_size = ctx1.schema_buffer_size ∧
      (cancel_if_failed env c).body_sink = ctx1.body_sink ∧
      (cancel_if_failed env c).status = ctx1.status := by
    rcases hfin with ⟨-, hreq⟩ | ⟨-, n, result, -, hreq⟩
    · subst hreq
      exact ⟨_, rfl, rfl, rfl, rfl, rfl, rfl, rfl, rfl⟩
    · subst hreq
      exact ⟨_, rfl, rfl, rfl, rfl, rfl, rfl, rfl, rfl⟩
  obtain ⟨ctx1, e8, e1, e2, e3, e4, e5, e6, e7⟩ := main
  refine ⟨ctx1, e8, ⟨by rw [← e1, k1, c1], by rw [← e2, k2, c2], by rw [← e3, k3, c3],
    by rw [← e4, k4, c4], by rw [← e5, k5, c5]⟩, ?_, ?_, ?_⟩
  · intro s1 hs1
    rw [← e6] at hs1
    obtain ⟨s2, hs2, q1, q2⟩ := m1 s1 hs1
    obtain ⟨s3, hs3, q3, q4⟩ := d1 s2 hs2
    exact ⟨s3, hs3, q1.trans q3, q2.trans q4⟩
  · intro hu s hs
    obtain ⟨s2, hs2, q1, q2⟩ := d2 hu s hs
    obtain ⟨s3, hs3, q3, q4⟩ := m2 s2 hs2
    exact ⟨s3, by rw [← e6]; exact hs3, q3.trans q1, q4.trans q2⟩
  · intro hf
    rw [← e7, hst]
    exact d3 hf

/-- Every call of `handle`, in any surroundings, keeps the invariant of the
handler. -/
theorem handle_inv (env : Env) (cfg : Config) (fuel : Nat) (req req1 : HttpRequest)
    (ctx : StreamLoadContext) (hc : req.handler_ctx = some ctx) (hi : handler_inv cfg ctx)
    (h : handle env cfg fuel req = Except.ok (some req1)) :
    ∃ ctx1, req1.handler_ctx = some ctx1 ∧ handler_inv cfg ctx1 := by
  obtain ⟨ctx1, h1, ⟨f1, f2, f3, f4, f5⟩, g1, g2, g3⟩ :=
    handle_frame env cfg fuel req req1 ctx hc h
  obtain ⟨b1, b2, hph⟩ := hi
  refine ⟨ctx1, h1, by rw [f5]; exact b1, by rw [f4]; exact b2, ?_⟩
  rcases hph with ⟨a1, a2, a3, a4⟩ | ⟨a1, a2, a3, a4, s, hs, a5, a6⟩ | ⟨st, c1, c2, c3, c4⟩
  · refine Or.inl ⟨f1.trans a1, ?_, by rw [f4, f5]; exact a3, ?_⟩
    · intro s1 hs1
      obtain ⟨s, hs, q1, -⟩ := g1 s1 hs1
      rw [q1]
      exact a2 s hs
    · intro hn
      rw [f3]
      exact a4 (by rw [← f2]; exact hn)
  · obtain ⟨s1, hs1, q1, q2⟩ := g2 a3 s hs
    refine Or.inr (Or.inl ⟨f1.trans a1, f2.trans a2, f3.trans a3, ?_, s1, hs1, q1.trans a5, ?_⟩)
    · rw [g3 a4]
      exact a4
    · rw [f4]
      simpa [MessageBodySink.bytes, q2] using a6
  · obtain ⟨s, hs, q1, q2, q3⟩ := (fully_replayed_iff ctx).1 c4
    obtain ⟨s1, hs1, r1, r2⟩ := g2 c3 s hs
    refine Or.inr (Or.inr ⟨st, f1.trans c1, f2.trans c2, f3.trans c3,
      (fully_replayed_iff ctx1).2 ⟨s1, hs1, r1.trans q1, f5.trans q2, ?_⟩⟩)
    rw [f4]
    simpa [MessageBodySink.bytes, r2] using q3

theorem on_header_sink_frame (env : Env) (ctx : StreamLoadContext) :
    (_on_header_sink env ctx).2.restore_pipe_promise = ctx.restore_pipe_promise ∧
    (_on_header_sink env ctx).2.schema_buffer = ctx.schema_buffer ∧
    (_on_header_sink env ctx).2.schema_buffer_size = ctx.schema_buffer_size ∧
    (∀ sink, (_on_header_sink env ctx).2.body_sink = some sink →
      sink.serial = 0 ∨ ctx.body_sink = some sink) ∧
    ((_on_header_sink env ctx).2.need_schema_buffer = true →
      (_on_header_sink env ctx).2.use_streaming = true) := by
  unfold _on_header_sink _data_saved_path
  cases hs : _is_format_support_streaming ctx.format <;>
  cases ha : env.allocate_dir.1.ok <;>
  cases ho : (env.file_open (env.allocate_dir.2 ++ env.time_suffix)).ok <;>
  cases hm : env.new_load_stream_mgr_put.ok <;>
  simp [hs, ha, ho, hm, new_pipe, new_file_sink] <;>
  (intro sink h; exact Or.inr h)

theorem on_header_timeout_frame (env : Env) (header : String → String)
    (ctx ctx1 : StreamLoadContext) (st : Status)
    (h : _on_header_timeout env header ctx = Except.ok (st, ctx1)) (hok : st.ok = true) :
    ctx1.restore_pipe_promise = ctx.restore_pipe_promise ∧
    ctx1.schema_buffer = ctx.schema_buffer ∧
    ctx1.schema_buffer_size = ctx.schema_buffer_size ∧
    (∀ sink, ctx1.body_sink = some sink → sink.serial = 0 ∨ ctx.body_sink = some sink) ∧
    (ctx1.need_schema_buffer = true → ctx1.use_streaming = true) := by
  unfold _on_header_timeout at h
  split at h
  · split at h
    · injection h with h
      injection h with h1 h2
      rw [← h1] at hok
      exact absurd hok (by decide)
    · cases h
    · injection h with h
      have := on_header_sink_frame env { ctx with timeout_second := ‹Int› }
      rw [h] at this
      exact this
  · injection h with h
    have := on_header_sink_frame env ctx
    rw [h] at this
    exact this

/-- What a successful `_on_header` keeps: the promise, the schema buffer and
its count; a sink it leaves is new, or the one of the entry context. -/
theorem on_header_ok_frame (env : Env) (cfg : Config) (header : String → String)
    (ctx ctx1 : StreamLoadContext) (st : Status)
    (h : _on_header env cfg header ctx = Except.ok (st, ctx1)) (hok : st.ok = true) :
    ctx1.restore_pipe_promise = ctx.restore_pipe_promise ∧
    ctx1.schema_buffer = ctx.schema_buffer ∧
    ctx1.schema_buffer_size = ctx.schema_buffer_size ∧
    (∀ sink, ctx1.body_sink = some sink → sink.serial = 0 ∨ ctx.body_sink = some sink) ∧
    (ctx1.need_schema_buffer = true → ctx1.use_streaming = true) := by
  have hap : (after_parse header ctx).restore_pipe_promise = ctx.restore_pipe_promise ∧
      (after_parse header ctx).schema_buffer = ctx.schema_buffer ∧
      (after_parse header ctx).schema_buffer_size = ctx.schema_buffer_size ∧
      (after_parse header ctx).body_sink = ctx.body_sink := by
    unfold after_parse
    split <;> simp
  obtain ⟨p1, p2, p3, p4⟩ := hap
  unfold _on_header at h
  split at h
  · injection h with h
    injection h with h1 h2
    rw [← h1] at hok
    exact absurd hok (internal_error_not_ok _)
  · simp only at h
    split at h
    · injection h with h
      injection h with h1 h2
      rw [← h1] at hok
      exact absurd hok (internal_error_not_ok _)
    · unfold _on_header_length at h
      simp only at h
      split at h
      · split at h
        · cases h
        · split at h
          · injection h with h
            injection h with h1 h2
            rw [← h1] at hok
            exact absurd hok (internal_error_not_ok _)
          · split at h
            · injection h with h
              injection h with h1 h2
              rw [← h1] at hok
              exact absurd hok (internal_error_not_ok _)
            · obtain ⟨q1, q2, q3, q4, q5⟩ := on_header_timeout_frame env header _ ctx1 st h hok
              exact ⟨q1.trans p1, q2.trans p2, q3.trans p3,
                fun s hs => (q4 s hs).imp id (fun hh => p4.symm.trans hh), q5⟩
      · obtain ⟨q1, q2, q3, q4, q5⟩ := on_header_timeout_frame env header _ ctx1 st h hok
        exact ⟨q1.trans p1, q2.trans p2, q3.trans p3,
          fun s hs => (q4 s hs).imp id (fun hh => p4.symm.trans hh), q5⟩

/-- The context `on_header` hands back when it returns 0 has the invariant of
the handler. -/
theorem on_header_inv (env : Env) (cfg : Config) (req0 req : HttpRequest)
    (h : on_header env cfg req0 = Except.ok (0, req)) :
    ∃ ctx, req.handler_ctx = some ctx ∧ handler_inv cfg ctx := by
  unfold on_header at h
  split at h
  · cases h
  · rename_i st ctx2 hh
    split at h
    · injection h with h
      injection h with h1 h2
      cases h1
    · rename_i hok
      simp only [Bool.not_eq_true, Bool.not_eq_false'] at hok
      injection h with h
      injection h with h1 h2
      subst h2
      obtain ⟨q1, q2, q3, q4, q5⟩ := on_header_ok_frame env cfg req0.header _ ctx2 st hh hok
      have e1 : ctx2.restore_pipe_promise = [] := q1
      have e2 : ctx2.schema_buffer = [] := q2
      have e3 : ctx2.schema_buffer_size = 0 := q3
      refine ⟨ctx2, rfl, by rw [e3]; exact Nat.zero_le _, by rw [e2]; exact Nat.zero_le _,
        Or.inl ⟨e1, ?_, by rw [e2, e3]; rfl, q5⟩⟩
      intro s hs
      rcases q4 s hs with hq | hq
      · exact hq
      · cases hq

/-- Every request the handler can hold has a context, and the context has the
invariant of the handler. -/
theorem reachable_inv (cfg : Config) (req : HttpRequest) (h : Reachable cfg req) :
    ∃ ctx, req.handler_ctx = some ctx ∧ handler_inv cfg ctx := by
  induction h with
  | start env req0 req h => exact on_header_inv env cfg req0 req h
  | chunk env req req1 data _ h ih =>
    obtain ⟨ctx, hc, hi⟩ := ih
    exact on_chunk_data_inv env cfg { req with input_buffer := req.input_buffer ++ data } req1
      ctx hc hi h
  | finish env fuel req req1 _ h ih =>
    obtain ⟨ctx, hc, hi⟩ := ih
    exact handle_inv env cfg fuel req req1 ctx hc hi h

/-! ## Claims on the invariants of a request -/

/-- One pass of the schema loop that reaches the copy of line 391: the input
buffer is not empty, the test of line 378 lets the loop go on and the append
succeeds.  The pass copies at most 128 KiB to the offset
`schema_buffer_size`, and the copy ends at or below the ceiling. -/
theorem sniff_loop_step (env : Env) (cfg : Config) (fuel : Nat) (ctx : StreamLoadContext)
    (evbuf : List Byte) (sink : MessageBodySink) (he : 0 < evbuf.length)
    (hg : ¬ ctx.schema_buffer_size + stream_buffer_size > cfg.stream_tvf_buffer_size)
    (hs : ctx.body_sink = some sink)
    (ha : (sink_append env sink (evbuf.take stream_buffer_size)).1.ok = true) :
    sniff_loop env cfg (fuel + 1) ctx evbuf =
      sniff_loop env cfg fuel
        { ctx with
          body_sink := some (sink_append env sink (evbuf.take stream_buffer_size)).2
          schema_buffer :=
            memcpy_at ctx.schema_buffer ctx.schema_buffer_size (evbuf.take stream_buffer_size)
          schema_buffer_size :=
            ctx.schema_buffer_size + (evbuf.take stream_buffer_size).length }
        (evbuf.drop stream_buffer_size) ∧
    (evbuf.take stream_buffer_size).length ≤ 128 * 1024 ∧
    ctx.schema_buffer_size + (evbuf.take stream_buffer_size).length ≤
      cfg.stream_tvf_buffer_size := by
  have hlen : (evbuf.take stream_buffer_size).length ≤ stream_buffer_size :=
    List.length_take_le _ _
  refine ⟨?_, hlen, by omega⟩
  rw [sniff_loop]
  simp only [gt_iff_lt, he, if_true, hs]
  rw [if_neg hg, if_neg (by simp [ha])]

/-- The schema loop stops, without a copy, when the test of line 378 fails. -/
theorem sniff_loop_stop (env : Env) (cfg : Config) (fuel : Nat) (ctx : StreamLoadContext)
    (evbuf : List Byte)
    (hg : ctx.schema_buffer_size + stream_buffer_size > cfg.stream_tvf_buffer_size) :
    sniff_loop env cfg fuel ctx evbuf = Except.ok ⟨ctx, evbuf, false⟩ := by
  cases fuel with
  | zero => rfl
  | succ n =>
    rw [sniff_loop]
    by_cases he : evbuf.length > 0
    · rw [if_pos he, if_pos hg]
    · rw [if_neg he]

/-- C12. Sniff buffer bound: in every state the handler can reach, through
`on_header` and any sequence of `on_chunk_data` and `handle` calls in any
surroundings, `schema_buffer_size` is at most `config::stream_tvf_buffer_size`
and the schema buffer has been written only below that offset.  Each pass of
the schema loop that copies does so only when `schema_buffer_size` + 128 KiB
is within the ceiling, copies at most 128 KiB at the offset
`schema_buffer_size`, and so ends at or below the ceiling; when the test
fails the loop stops without a copy. -/
theorem sniff_buffer_bound (cfg : Config) (req : HttpRequest) (h : Reachable cfg req) :
    (∃ ctx, req.handler_ctx = some ctx ∧
      ctx.schema_buffer_size ≤ cfg.stream_tvf_buffer_size ∧
      ctx.schema_buffer.length ≤ cfg.stream_tvf_buffer_size) ∧
    (∀ (env : Env) (fuel : Nat) (ctx : StreamLoadContext) (evbuf : List Byte)
        (sink : MessageBodySink),
      0 < evbuf.length →
      ¬ ctx.schema_buffer_size + stream_buffer_size > cfg.stream_tvf_buffer_size →
      ctx.body_sink = some sink →
      (sink_append env sink (evbuf.take stream_buffer_size)).1.ok = true →
      sniff_loop env cfg (fuel + 1) ctx evbuf =
        sniff_loop env cfg fuel
          { ctx with
            body_sink := some (sink_append env sink (evbuf.take stream_buffer_size)).2
            schema_buffer :=
              memcpy_at ctx.schema_buffer ctx.schema_buffer_size (evbuf.take stream_buffer_size)
            schema_buffer_size :=
              ctx.schema_buffer_size + (evbuf.take stream_buffer_size).length }
          (evbuf.drop stream_buffer_size) ∧
      (evbuf.take stream_buffer_size).length ≤ 128 * 1024 ∧
      ctx.schema_buffer_size + (evbuf.take stream_buffer_size).length ≤
        cfg.stream_tvf_buffer_size) ∧
    (∀ (env : Env) (fuel : Nat) (ctx : StreamLoadContext) (evbuf : List Byte),
      ctx.schema_buffer_size + stream_buffer_size > cfg.stream_tvf_buffer_size →
      sniff_loop env cfg fuel ctx evbuf = Except.ok ⟨ctx, evbuf, false⟩) := by
  obtain ⟨ctx, hc, b1, b2, -⟩ := reachable_inv cfg req h
  exact ⟨⟨ctx, hc, b1, b2⟩,
    fun env fuel ctx evbuf sink he hg hs ha => sniff_loop_step env cfg fuel ctx evbuf sink he hg hs ha,
    fun env fuel ctx evbuf hg => sniff_loop_stop env cfg fuel ctx evbuf hg⟩

theorem sniff_buffer_bound_witness :
    ∃ ctx, some (sample_received sample_env "json" "" [List.range 10]) = some ctx ∧
      ctx.schema_buffer_size ≤ 1048576 ∧ ctx.schema_buffer.length ≤ 1048576 :=
  (sniff_buffer_bound (sample_cfg 1048576)
    { sample_request "json" "" "" with
      handler_ctx := some (sample_received sample_env "json" "" [List.range 10]) }
    (Reachable.chunk sample_env
      { sample_request "json" "" "" with
        handler_ctx := some (sample_received sample_env "json" "" []) }
      _ (List.range 10)
      (Reachable.start sample_env (sample_request "json" "" "") _ rfl) rfl)).1

/-- A call of `on_chunk_data` or `handle` that starts with a failed status
leaves the status as it is: `on_chunk_data` returns at once and `handle` skips
`_handle`. -/
theorem failed_status_is_kept (env : Env) (cfg : Config) (fuel : Nat) (req : HttpRequest)
    (ctx : StreamLoadContext) (hc : req.handler_ctx = some ctx) (hf : ctx.status.ok = false) :
    on_chunk_data env cfg req = Except.ok req ∧
    ∃ ctx1, handle env cfg fuel req = Except.ok (some (send_reply env req ctx1)) ∧
      ctx1.status = ctx.status := by
  refine ⟨?_, cancel_if_failed env ctx, handle_of_failed env cfg fuel req ctx hc hf,
    cancel_if_failed_status env ctx⟩
  unfold on_chunk_data
  simp only [hc]
  rw [if_pos (by simp [hf])]

/-- C13 on a failing input: a JSON body of ten bytes, the plan call failing
and the append on the pipe that replaces the first sink failing too.  The plan
call returns the plan failure, which line 397 stores in the context (it is the
status of the context when the replay append succeeds); the replay loop then
stores the append failure over it at line 418 and returns before the promise
is set, and that append failure is the status the request ends with. -/
theorem plan_failure_overwritten_by_replay_failure :
    (_process_put replay_failure_env (sample_cfg 1048576) (sample_header "json" "" "")
        (sample_received replay_failure_env "json" "" [])).map (fun r => r.1) =
      Except.ok plan_failure ∧
    (received_context plan_failure_env (sample_cfg 1048576) (sample_request "json" "" "")
        [List.range 10]).map (fun ctx => ctx.status) = some plan_failure ∧
    (received_context replay_failure_env (sample_cfg 1048576) (sample_request "json" "" "")
        [List.range 10]).map
      (fun ctx => (ctx.status, ctx.put_requests.length, ctx.restore_pipe_promise,
        ctx.need_schema_buffer)) = some (replay_failure, 1, [], true) ∧
    (served_context replay_failure_env (sample_cfg 1048576) 1 (sample_request "json" "" "")
        [List.range 10]).map (fun ctx => ctx.status) = some replay_failure ∧
    plan_failure ≠ replay_failure := by
  refine ⟨by decide, by decide, by decide, by decide, by decide⟩

/-! ## Claims on the reply and the final status -/

/-- C14. Exactly one response: a call of `handle` on a request with a load
context that returns has added exactly one reply to the replies of the request,
and the body of that reply is the JSON text of the final context followed by
one newline, on the failure path (final status not OK) and on the success
path alike.  A call that starts with a failed status always returns, with that
status. -/
theorem handle_sends_exactly_one_reply (env : Env) (cfg : Config) (fuel : Nat)
    (req : HttpRequest) (ctx : StreamLoadContext) (hc : req.handler_ctx = some ctx) :
    (∀ req1, handle env cfg fuel req = Except.ok (some req1) →
      ∃ ctx1, req1.handler_ctx = some ctx1 ∧
        req1.replies = req.replies ++ [env.to_json ctx1 ++ "\n"]) ∧
    (ctx.status.ok = false →
      ∃ req1 ctx1, handle env cfg fuel req = Except.ok (some req1) ∧
        req1.handler_ctx = some ctx1 ∧ ctx1.status = ctx.status ∧
        req1.replies = req.replies ++ [env.to_json ctx1 ++ "\n"]) := by
  constructor
  · intro req1 h
    obtain ⟨c, -, hfin⟩ := handle_shape env cfg fuel req req1 ctx hc h
    rcases hfin with ⟨-, hreq⟩ | ⟨-, n, result, -, hreq⟩
    · subst hreq
      exact ⟨_, rfl, rfl⟩
    · subst hreq
      exact ⟨_, rfl, rfl⟩
  · intro hf
    exact ⟨_, _, handle_of_failed env cfg fuel req ctx hc hf, rfl,
      cancel_if_failed_status env ctx, rfl⟩

theorem handle_sends_exactly_one_reply_witness :
    ∃ req1 ctx1,
      handle plan_failure_env (sample_cfg 1048576) 1
          { sample_request "json" "" "" with
            handler_ctx := some (sample_received plan_failure_env "json" "" [List.range 10]) } =
        Except.ok (some req1) ∧
      req1.handler_ctx = some ctx1 ∧ ctx1.status = plan_failure ∧
      req1.replies = [] ++ [plan_failure_env.to_json ctx1 ++ "\n"] :=
  (handle_sends_exactly_one_reply plan_failure_env (sample_cfg 1048576) 1
    { sample_request "json" "" "" with
      handler_ctx := some (sample_received plan_failure_env "json" "" [List.range 10]) }
    (sample_received plan_failure_env "json" "" [List.range 10]) rfl).2 (by decide)

/-- The status loop: when the answers before the `n`-th are not definitive and
the `n`-th is, the loop, started at call `k ≤ n` with enough fuel, stops after
call `n` with the answer of that call. -/
theorem poll_status_first_ok (env : Env) (n : Nat)
    (hfirst : ∀ j, j < n → (env.streamLoadWithLoadStatus j).status.ok = false)
    (hn : (env.streamLoadWithLoadStatus n).status.ok = true) :
    ∀ (fuel k : Nat), k ≤ n → n < k + fuel →
      poll_status env fuel k = some (n + 1, env.streamLoadWithLoadStatus n) := by
  intro fuel
  induction fuel with
  | zero =>
    intro k hk hf
    omega
  | succ m ih =>
    intro k hk hf
    unfold poll_status
    by_cases hkn : k = n
    · subst hkn
      simp only [hn, if_true]
    · have hlt : k < n := by omega
      simp only [hfirst k hlt, Bool.false_eq_true, if_false]
      exact ih (k + 1) (by omega) (by omega)

/-- C15. Final status poll: when `handle` reaches the status loop (the entry
status is OK and `_handle` returns OK) and the first definitive answer is the
one to call number `n` (the `n + 1`-th call), the loop makes exactly `n + 1`
calls and `handle` returns, with the transaction id and the four row counters
of that answer copied onto the context and nothing of the earlier answers. -/
theorem final_status_poll (env : Env) (cfg : Config) (fuel n : Nat) (req : HttpRequest)
    (ctx ctx1 : StreamLoadContext) (st : Status) (hc : req.handler_ctx = some ctx)
    (hok : ctx.status.ok = true)
    (hh : _handle env cfg req.header ctx = Except.ok (st, ctx1)) (hst : st.ok = true)
    (hfirst : ∀ j, j < n → (env.streamLoadWithLoadStatus j).status.ok = false)
    (hn : (env.streamLoadWithLoadStatus n).status.ok = true) (hfuel : n < fuel) :
    poll_status env fuel 0 = some (n + 1, env.streamLoadWithLoadStatus n) ∧
    handle env cfg fuel req = Except.ok (some (send_reply env req
      { ctx1 with
        status := st
        txn_id := (env.streamLoadWithLoadStatus n).txn_id
        number_total_rows := (env.streamLoadWithLoadStatus n).total_rows
        number_loaded_rows := (env.streamLoadWithLoadStatus n).loaded_rows
        number_filtered_rows := (env.streamLoadWithLoadStatus n).filtered_rows
        number_unselected_rows := (env.streamLoadWithLoadStatus n).unselected_rows })) := by
  have hp := poll_status_first_ok env n hfirst hn fuel 0 (Nat.zero_le _) (by omega)
  refine ⟨hp, ?_⟩
  have hcf : cancel_if_failed env { ctx1 with status := st } = { ctx1 with status := st } := by
    unfold cancel_if_failed
    rw [if_neg (by simp [hst])]
  unfold handle
  simp only [hc, hok, if_true, hh]
  rw [hcf, if_neg (by simp [hst]), hp]

theorem final_status_poll_witness :
    poll_status polling_env 5 0 = some (2 + 1, polling_env.streamLoadWithLoadStatus 2) ∧
    handle polling_env (sample_cfg 1048576) 5
        { sample_request "csv" "" "" with
          handler_ctx := some (sample_received polling_env "csv" "" [List.range 10]) } =
      Except.ok (some (send_reply polling_env
        { sample_request "csv" "" "" with
          handler_ctx := some (sample_received polling_env "csv" "" [List.range 10]) }
        { sample_received polling_env "csv" "" [List.range 10] with
          body_sink := some { restored_pipe 0 with
            appended := [List.range 10], finish_calls := 1 }
          status := Status.OK
          txn_id := (polling_env.streamLoadWithLoadStatus 2).txn_id
          number_total_rows := (polling_env.streamLoadWithLoadStatus 2).total_rows
          number_loaded_rows := (polling_env.streamLoadWithLoadStatus 2).loaded_rows
          number_filtered_rows := (polling_env.streamLoadWithLoadStatus 2).filtered_rows
          number_unselected_rows := (polling_env.streamLoadWithLoadStatus 2).unselected_rows })) :=
  final_status_poll polling_env (sample_cfg 1048576) 5 2
    { sample_request "csv" "" "" with
      handler_ctx := some (sample_received polling_env "csv" "" [List.range 10]) }
    (sample_received polling_env "csv" "" [List.range 10])
    { sample_received polling_env "csv" "" [List.range 10] with
      body_sink := some { restored_pipe 0 with appended := [List.range 10], finish_calls := 1 } }
    Status.OK rfl (by decide) (by decide) rfl
    (fun j hj => by
      have h2 : j = 0 ∨ j = 1 := by omega
      rcases h2 with h2 | h2 <;> subst h2 <;> decide)
    (by decide) (by decide)

/-! ## Claims on the schema phase of CSV and on the promise -/

/-- C16, as stated, fails: a CSV request gets the streaming sink, but header
processing puts its context into schema-buffering mode, and the first call of
`on_chunk_data` does not forward the bytes directly: it copies them into the
schema buffer, requests the plan, puts a new pipe in place of the first and
replays the buffer into it. -/
theorem csv_request_enters_sniff_phase :
    parsed_format (sample_header "csv" "" "") = TFileFormatType.FORMAT_CSV_PLAIN ∧
    (received_context sample_env (sample_cfg 1048576) (sample_request "csv" "" "") []).map
        (fun ctx => (ctx.use_streaming, ctx.need_schema_buffer, ctx.body_sink)) =
      some (true, true, some (new_pipe 0)) ∧
    (received_context sample_env (sample_cfg 1048576) (sample_request "csv" "" "")
        [List.range 10]).map
        (fun ctx => (ctx.schema_buffer, ctx.put_requests.length, ctx.restore_pipe_promise,
          ctx.body_sink)) =
      some (List.range 10, 1, [Status.OK],
        some { restored_pipe 0 with appended := [List.range 10] }) := by
  refine ⟨by decide, by decide, by decide⟩

/-- C16, amended: for a request whose format is CSV (plain or with one of
the six compressions), successful header processing selects the streaming sink (a pipe, also set as `ctx->pipe`) and, as
for every streaming format, puts the context into schema-buffering mode.  The
first call of `on_chunk_data` that finds bytes therefore goes through the
schema phase: with every append succeeding and the plan call returning, the
bytes it takes are copied into the schema buffer, the plan is requested, and
the bytes reach the sink through the replay into a new pipe; schema buffering
ends with that call. -/
theorem csv_selects_streaming_sink_and_sniffs (env : Env) (cfg : Config)
    (header : String → String) (ctx ctx1 : StreamLoadContext) (st : Status)
    (h : _on_header env cfg header ctx = Except.ok (st, ctx1)) (hok : st.ok = true)
    (hf : parsed_format header ∈ [TFileFormatType.FORMAT_CSV_PLAIN,
      TFileFormatType.FORMAT_CSV_GZ, TFileFormatType.FORMAT_CSV_LZO,
      TFileFormatType.FORMAT_CSV_BZ2, TFileFormatType.FORMAT_CSV_LZ4FRAME,
      TFileFormatType.FORMAT_CSV_LZOP, TFileFormatType.FORMAT_CSV_DEFLATE]) :
    (ctx1.format = parsed_format header ∧ ctx1.use_streaming = true ∧
      ctx1.body_sink = some (new_pipe ctx1.body_bytes) ∧ ctx1.pipe = true ∧
      ctx1.need_schema_buffer = true) ∧
    ∀ (req : HttpRequest) (ctx2 : StreamLoadContext) (st2 : Status),
      appends_ok env → req.handler_ctx = some ctx1 → ctx1.status.ok = true →
      ctx1.schema_buffer = [] → ctx1.schema_buffer_size = 0 →
      _process_put env cfg req.header ctx1 = Except.ok (st2, ctx2) →
      req.input_buffer.take (sniff_room cfg 0) ≠ [] →
      ∃ (req1 : HttpRequest) (ctx3 : StreamLoadContext) (pieces : List (List Byte)),
        on_chunk_data env cfg req = Except.ok req1 ∧ req1.handler_ctx = some ctx3 ∧
        ctx3.schema_buffer = req.input_buffer.take (sniff_room cfg 0) ∧
        ctx3.put_requests = ctx2.put_requests ∧
        ctx3.body_sink = some { restored_pipe ctx1.body_bytes with appended := pieces } ∧
        pieces.flatten = req.input_buffer.take (sniff_room cfg 0) ∧
        ctx3.restore_pipe_promise = ctx1.restore_pipe_promise ++ [st2] ∧
        ctx3.need_schema_buffer = false := by
  obtain ⟨-, ctxm, hm, hfm, -, -⟩ := on_header_ok_inv env cfg header ctx ctx1 st h hok
  have hsk := on_header_sink_ok env ctxm (by rw [hm]; exact hok)
  rw [hm] at hsk
  obtain ⟨s1, s2, s3, s4, -⟩ := hsk
  simp only at s1 s2 s3 s4
  have hstr : _is_format_support_streaming ctxm.format = true := by
    rw [hfm]
    simp only [List.mem_cons, List.mem_singleton, List.not_mem_nil, or_false] at hf
    rcases hf with hf | hf | hf | hf | hf | hf | hf <;> rw [hf] <;> rfl
  obtain ⟨t1, t2, t3⟩ := s4 hstr
  have hsink : ctx1.body_sink = some (new_pipe ctx1.body_bytes) := by rw [t1, s2]
  refine ⟨⟨by rw [s1, hfm], by rw [s3, hstr], hsink, t2, t3⟩, ?_⟩
  intro req ctx2 st2 ha hc hst hb hz hp hne
  obtain ⟨pieces, h1, h2, -⟩ := on_chunk_data_sniff env cfg ha req ctx1 ctx2
    (new_pipe ctx1.body_bytes) st2 hc hst t3 hb hz hsink hp hne
  exact ⟨_, _, pieces, h1, rfl, rfl, rfl, rfl, h2, rfl, rfl⟩

theorem csv_selects_streaming_sink_and_sniffs_witness :
    (sample_received sample_env "csv" "" []).format = TFileFormatType.FORMAT_CSV_PLAIN ∧
    (sample_received sample_env "csv" "" []).use_streaming = true ∧
    (sample_received sample_env "csv" "" []).body_sink =
      some (new_pipe (sample_received sample_env "csv" "" []).body_bytes) ∧
    (sample_received sample_env "csv" "" []).pipe = true ∧
    (sample_received sample_env "csv" "" []).need_schema_buffer = true :=
  (csv_selects_streaming_sink_and_sniffs sample_env (sample_cfg 1048576)
    (sample_header "csv" "" "") (new_context sample_env (sample_header "csv" "" ""))
    (sample_received sample_env "csv" "" []) Status.OK rfl (by decide) (by decide)).1

/-- C17. The pipe-ready signal is single-assignment: in every state the
handler can reach, through `on_header` and any sequence of `on_chunk_data` and
`handle` calls in any surroundings, `restore_pipe_promise` has been set at most
once, and it has been set exactly when the schema buffer has been replayed in
full into the pipe that replaced the first sink.  In such a state
`need_schema_buffer` is false, and a further call of `on_chunk_data` (status
OK, appends succeeding) forwards the whole input buffer to that pipe. -/
theorem pipe_ready_signal_single_assignment (cfg : Config) (req : HttpRequest)
    (h : Reachable cfg req) :
    ∃ ctx, req.handler_ctx = some ctx ∧
      ctx.restore_pipe_promise.length ≤ 1 ∧
      (ctx.restore_pipe_promise ≠ [] ↔ fully_replayed ctx) ∧
      (fully_replayed ctx →
        ctx.need_schema_buffer = false ∧
        ∀ env : Env, appends_ok env → ctx.status.ok = true →
          ∃ (sink : MessageBodySink) (pieces : List (List Byte)),
            ctx.body_sink = some sink ∧
            on_chunk_data env cfg req = Except.ok { req with
              handler_ctx := some { ctx with
                body_sink := some { sink with appended := sink.appended ++ pieces }
                receive_bytes := ctx.receive_bytes + req.input_buffer.length }
              input_buffer := [] } ∧
            pieces.flatten = req.input_buffer) := by
  obtain ⟨ctx, hc, -, -, hph⟩ := reachable_inv cfg req h
  refine ⟨ctx, hc, ?_⟩
  rcases hph with ⟨a1, a2, -, -⟩ | ⟨a1, -, -, -, s, hs, -, a6⟩ | ⟨st, c1, c2, -, c4⟩
  · have hnot : ¬ fully_replayed ctx := by
      intro hfr
      obtain ⟨s, hs, q1, -, -⟩ := (fully_replayed_iff ctx).1 hfr
      rw [a2 s hs] at q1
      cases q1
    refine ⟨by rw [a1]; exact Nat.zero_le _, ⟨fun hne => absurd a1 hne, fun hfr => absurd hfr hnot⟩,
      fun hfr => absurd hfr hnot⟩
  · have hnot : ¬ fully_replayed ctx := by
      intro hfr
      obtain ⟨s1, hs1, -, -, q3⟩ := (fully_replayed_iff ctx).1 hfr
      rw [hs] at hs1
      injection hs1 with hs1
      subst hs1
      have := q3.length_le
      omega
    refine ⟨by rw [a1]; exact Nat.zero_le _, ⟨fun hne => absurd a1 hne, fun hfr => absurd hfr hnot⟩,
      fun hfr => absurd hfr hnot⟩
  · refine ⟨by rw [c1]; exact Nat.le_refl _, ⟨fun _ => c4, fun _ => by rw [c1]; simp⟩,
      fun _ => ⟨c2, fun env ha hst => ?_⟩⟩
    obtain ⟨s, hs, -, -, -⟩ := (fully_replayed_iff ctx).1 c4
    obtain ⟨pieces, h1, h2⟩ := on_chunk_data_forward env cfg ha req ctx s hc hst c2 hs
    exact ⟨s, pieces, hs, h1, h2⟩

theorem pipe_ready_signal_single_assignment_witness :
    (∃ ctx, some (sample_received sample_env "json" "" [List.range 10]) = some ctx ∧
      ctx.restore_pipe_promise.length ≤ 1 ∧
      (ctx.restore_pipe_promise ≠ [] ↔ fully_replayed ctx)) ∧
    (sample_received sample_env "json" "" [List.range 10]).restore_pipe_promise = [Status.OK] ∧
    fully_replayed (sample_received sample_env "json" "" [List.range 10]) :=
  match pipe_ready_signal_single_assignment (sample_cfg 1048576)
    { sample_request "json" "" "" with
      handler_ctx := some (sample_received sample_env "json" "" [List.range 10]) }
    (Reachable.chunk sample_env
      { sample_request "json" "" "" with
        handler_ctx := some (sample_received sample_env "json" "" []) }
      _ (List.range 10)
      (Reachable.start sample_env (sample_request "json" "" "") _ rfl) rfl) with
  | ⟨ctx, h1, h2, h3, _⟩ => ⟨⟨ctx, h1, h2, h3⟩, by decide, by decide⟩

/-! ## Claims on numeric headers, cancellation and the plan request -/

/-- Up to the timeout header, a request with an accepted format and a length
that is absent or within the ceiling: `_on_header` is at line 333 with the
sink fields untouched. -/
theorem on_header_reaches_timeout (env : Env) (cfg : Config) (header : String → String)
    (ctx : StreamLoadContext)
    (hacc : format_accepted (header HTTP_FORMAT_KEY) (header HTTP_COMPRESS_TYPE))
    (hlen : empty (header CONTENT_LENGTH) = true ∨
      ∃ v, stol (header CONTENT_LENGTH) = Except.ok v ∧ ¬ size_over cfg header (to_size_t v)) :
    ∃ ctxm, _on_header env cfg header ctx = _on_header_timeout env header ctxm ∧
      ctxm.body_sink = ctx.body_sink ∧ ctxm.pipe = ctx.pipe ∧
      ctxm.timeout_second = ctx.timeout_second := by
  have hts : (after_parse header ctx).timeout_second = ctx.timeout_second := by
    unfold after_parse
    split <;> rfl
  obtain ⟨f1, f2, -, -⟩ := after_parse_frame header ctx
  rw [on_header_format_passed env cfg header ctx hacc]
  rcases hlen with he | ⟨v, hv, ho⟩
  · refine ⟨{ after_parse header ctx with body_bytes := 0 }, ?_, f1, f2, hts⟩
    unfold _on_header_length
    simp only [he, Bool.not_true]
    rfl
  · exact ⟨_, on_header_length_under env cfg header _ v hv (after_parse_format header ctx) ho,
      f1, f2, hts⟩

/-- C18, as stated, fails.  A content length of `abc` makes `std::stol`
throw out of `on_header`: no status is set and no reply is sent.  A memory
limit of `abc` passes header processing, which creates the pipe; the error
status appears at the plan call inside the first `on_chunk_data`, which then
creates a second pipe.  A timeout of `12abc` is accepted as 12. -/
theorem malformed_numeric_headers_are_not_all_rejected :
    (on_header sample_env (sample_cfg 1048576) (sample_request "csv" "" "abc")).map
        (fun r => r.1) = Except.error Abort.invalid_argument ∧
    (received_context sample_env (sample_cfg 1048576)
        { sample_request "csv" "" "" with
          header := with_header (sample_header "csv" "" "") HTTP_EXEC_MEM_LIMIT "abc" } []).map
        (fun ctx => (ctx.status, ctx.body_sink, ctx.pipe)) =
      some (Status.OK, some (new_pipe 0), true) ∧
    (received_context sample_env (sample_cfg 1048576)
        { sample_request "csv" "" "" with
          header := with_header (sample_header "csv" "" "") HTTP_EXEC_MEM_LIMIT "abc" }
        [List.range 10]).map (fun ctx => (ctx.status, ctx.body_sink, ctx.put_requests)) =
      some (Status.InvalidArgument "Invalid mem limit format",
        some { restored_pipe 0 with appended := [List.range 10] }, []) ∧
    (received_context sample_env (sample_cfg 1048576)
        { sample_request "csv" "" "" with
          header := with_header (sample_header "csv" "" "") HTTP_TIMEOUT "12abc" } []).map
        (fun ctx => (ctx.status, ctx.timeout_second, ctx.body_sink)) =
      some (Status.OK, 12, some (new_pipe 0)) := by
  refine ⟨by decide, by decide, by decide, by decide⟩

/-- C18, amended: for a request that passes the format and length checks, a
timeout header that is not empty and in which `std::stoi` finds no number ends
header processing with the status `InvalidArgument("Invalid timeout format")`:
`on_header` returns -1 and replies once, and the context has no sink and no
pipe.  A memory-limit header that is not empty and in which `std::stoll` finds
no number makes every `_process_put` return
`InvalidArgument("Invalid mem limit format")` without a plan call; on the
streaming path the first `on_chunk_data` that takes bytes (appends
succeeding) stores that status in the context, the first pipe existing
already and a second one being put in its place. -/
theorem malformed_timeout_and_mem_limit (env : Env) (cfg : Config) (req : HttpRequest)
    (hacc : format_accepted (req.header HTTP_FORMAT_KEY) (req.header HTTP_COMPRESS_TYPE))
    (hlen : empty (req.header CONTENT_LENGTH) = true ∨
      ∃ v, stol (req.header CONTENT_LENGTH) = Except.ok v ∧
        ¬ size_over cfg req.header (to_size_t v)) :
    (empty (req.header HTTP_TIMEOUT) = false →
      stoi (req.header HTTP_TIMEOUT) = Except.error Abort.invalid_argument →
      ∃ ctx1, on_header env cfg req = Except.ok (-1, { req with
          handler_ctx := some ctx1
          replies := req.replies ++ [env.to_json ctx1 ++ "\n"] }) ∧
        ctx1.status = Status.InvalidArgument "Invalid timeout format" ∧
        ctx1.body_sink = none ∧ ctx1.pipe = false) ∧
    (empty (req.header HTTP_EXEC_MEM_LIMIT) = false →
      stoll (req.header HTTP_EXEC_MEM_LIMIT) = Except.error Abort.invalid_argument →
      (∀ ctx, _process_put env cfg req.header ctx =
        Except.ok (Status.InvalidArgument "Invalid mem limit format", ctx)) ∧
      ∀ (ctx : StreamLoadContext) (sink : MessageBodySink),
        appends_ok env → req.handler_ctx = some ctx → ctx.status.ok = true →
        ctx.need_schema_buffer = true → ctx.schema_buffer = [] → ctx.schema_buffer_size = 0 →
        ctx.body_sink = some sink → req.input_buffer.take (sniff_room cfg 0) ≠ [] →
        ∃ (req1 : HttpRequest) (ctx1 : StreamLoadContext) (pieces : List (List Byte)),
          on_chunk_data env cfg req = Except.ok req1 ∧ req1.handler_ctx = some ctx1 ∧
          ctx1.status = Status.InvalidArgument "Invalid mem limit format" ∧
          ctx1.put_requests = ctx.put_requests ∧
          ctx1.body_sink = some { restored_pipe ctx.body_bytes with appended := pieces }) := by
  constructor
  · intro ht hv
    obtain ⟨ctxm, h1, h2, h3, -⟩ :=
      on_header_reaches_timeout env cfg req.header (new_context env req.header) hacc hlen
    have h4 : _on_header env cfg req.header (new_context env req.header) =
        Except.ok (Status.InvalidArgument "Invalid timeout format", ctxm) := by
      rw [h1]
      unfold _on_header_timeout
      simp only [ht, Bool.not_false, if_true, hv]
    have h2' : ctxm.body_sink = none := h2
    have h3' : ctxm.pipe = false := h3
    refine ⟨{ ctxm with status := Status.InvalidArgument "Invalid timeout format" }, ?_, rfl,
      h2', h3'⟩
    unfold on_header
    simp only [h4, h2']
    rfl
  · intro hm hv
    have hp : ∀ ctx, _process_put env cfg req.header ctx =
        Except.ok (Status.InvalidArgument "Invalid mem limit format", ctx) := by
      intro ctx
      unfold _process_put
      simp only [hm, Bool.not_false, if_true, hv]
    refine ⟨hp, ?_⟩
    intro ctx sink ha hc hst hn hb hz hs hne
    obtain ⟨pieces, h1, -, -⟩ := on_chunk_data_sniff env cfg ha req ctx ctx sink _ hc hst hn hb hz
      hs (hp ctx) hne
    exact ⟨_, _, pieces, h1, rfl, rfl, rfl, rfl⟩

theorem malformed_timeout_and_mem_limit_witness :
    (∃ ctx1, on_header sample_env (sample_cfg 1048576)
          { sample_request "csv" "" "" with
            header := with_header (with_header (sample_header "csv" "" "") HTTP_TIMEOUT "abc")
              HTTP_EXEC_MEM_LIMIT "g1" } =
        Except.ok (-1, { sample_request "csv" "" "" with
          header := with_header (with_header (sample_header "csv" "" "") HTTP_TIMEOUT "abc")
            HTTP_EXEC_MEM_LIMIT "g1"
          handler_ctx := some ctx1
          replies := [] ++ [sample_env.to_json ctx1 ++ "\n"] }) ∧
      ctx1.status = Status.InvalidArgument "Invalid timeout format" ∧
      ctx1.body_sink = none ∧ ctx1.pipe = false) ∧
    ∀ ctx, _process_put sample_env (sample_cfg 1048576)
        (with_header (with_header (sample_header "csv" "" "") HTTP_TIMEOUT "abc")
          HTTP_EXEC_MEM_LIMIT "g1") ctx =
      Except.ok (Status.InvalidArgument "Invalid mem limit format", ctx) :=
  ⟨(malformed_timeout_and_mem_limit sample_env (sample_cfg 1048576)
      { sample_request "csv" "" "" with
        header := with_header (with_header (sample_header "csv" "" "") HTTP_TIMEOUT "abc")
          HTTP_EXEC_MEM_LIMIT "g1" }
      (by decide) (Or.inl (by decide))).1 (by decide) (by decide),
    ((malformed_timeout_and_mem_limit sample_env (sample_cfg 1048576)
      { sample_request "csv" "" "" with
        header := with_header (with_header (sample_header "csv" "" "") HTTP_TIMEOUT "abc")
          HTTP_EXEC_MEM_LIMIT "g1" }
      (by decide) (Or.inl (by decide))).2 (by decide) (by decide)).1⟩

/-- The guard of line 167 on a sample: the completion future of a CSV request
delivers a publish timeout; `handle` ends with that status, the context still
holds its sink, and `handle` does not cancel it. -/
theorem publish_timeout_does_not_cancel_the_sink :
    (served_context publish_timeout_env (sample_cfg 1048576) 1 (sample_request "csv" "" "")
        [List.range 10]).map
        (fun ctx => (ctx.status, ctx.body_sink.map (fun sink => sink.cancel_reasons))) =
      some (⟨TStatusCode.PUBLISH_TIMEOUT, "publish timeout"⟩, some []) := by
  decide

/-- C19. Failure cancels the open sink.  Let `c` be the context after lines
157-164 of `handle` (the entry context when its status is failed, else the
context `_handle` leaves, with the status it returns).  When `handle` returns,
the final status is the status of `c`.  If it is a failure, whatever its
cause, other than the publish timeout that line 167 exempts, and `c` holds a
sink, the final context holds that sink with one more cancel, the text of the
status as reason, and the reply is the JSON text of the context after the
cancel.  If the status is OK (or a publish timeout), or `c` holds no sink,
`handle` leaves the sink field as it is: it calls no cancel. -/
theorem failure_cancels_open_sink (env : Env) (cfg : Config) (fuel : Nat)
    (req req1 : HttpRequest) (ctx : StreamLoadContext) (hc : req.handler_ctx = some ctx)
    (h : handle env cfg fuel req = Except.ok (some req1)) :
    ∃ c ctx1 : StreamLoadContext,
      ((ctx.status.ok = false ∧ c = ctx) ∨
        (ctx.status.ok = true ∧ ∃ st ctx2,
          _handle env cfg req.header ctx = Except.ok (st, ctx2) ∧
          c = { ctx2 with status := st })) ∧
      req1.handler_ctx = some ctx1 ∧ ctx1.status = c.status ∧
      req1.replies = req.replies ++ [env.to_json ctx1 ++ "\n"] ∧
      (ctx1.status.ok = false → ctx1.status.is TStatusCode.PUBLISH_TIMEOUT = false →
        ∀ sink, c.body_sink = some sink →
          ctx1.body_sink = some (sink.cancel (env.to_string ctx1.status))) ∧
      (ctx1.status.ok = true ∨ ctx1.status.is TStatusCode.PUBLISH_TIMEOUT = true ∨
          c.body_sink = none →
        ctx1.body_sink = c.body_sink) := by
  obtain ⟨c, hcC, hfin⟩ := handle_shape env cfg fuel req req1 ctx hc h
  have hst := cancel_if_failed_status env c
  have hcan : (c.status.ok = false → c.status.is TStatusCode.PUBLISH_TIMEOUT = false →
        ∀ sink, c.body_sink = some sink →
          (cancel_if_failed env c).body_sink = some (sink.cancel (env.to_string c.status))) ∧
      (c.status.ok = true ∨ c.status.is TStatusCode.PUBLISH_TIMEOUT = true ∨
          c.body_sink = none →
        (cancel_if_failed env c).body_sink = c.body_sink) := by
    constructor
    · intro h1 h2 sink hs
      unfold cancel_if_failed
      simp [h1, h2, hs]
    · intro h1
      unfold cancel_if_failed
      rcases h1 with h1 | h1 | h1
      · simp [h1]
      · simp [h1]
      · split
        · simp [h1]
        · rfl
  obtain ⟨k1, k2⟩ := hcan
  rcases hfin with ⟨-, hreq⟩ | ⟨-, n, result, -, hreq⟩
  · subst hreq
    refine ⟨c, _, hcC, rfl, hst, rfl, ?_, ?_⟩
    · intro h1 h2 sink hs
      rw [hst] at h1 h2 ⊢
      exact k1 h1 h2 sink hs
    · intro h1
      rw [hst] at h1
      exact k2 h1
  · subst hreq
    refine ⟨c, _, hcC, rfl, hst, rfl, ?_, ?_⟩
    · intro h1 h2 sink hs
      have h1' : c.status.ok = false := by rw [← hst]; exact h1
      have h2' : c.status.is TStatusCode.PUBLISH_TIMEOUT = false := by rw [← hst]; exact h2
      have := k1 h1' h2' sink hs
      rw [← hst] at this
      exact this
    · intro h1
      have h1' : c.status.ok = true ∨ c.status.is TStatusCode.PUBLISH_TIMEOUT = true ∨
          c.body_sink = none := by
        rw [← hst]
        exact h1
      exact k2 h1'

theorem failure_cancels_open_sink_witness :
    ∃ ctx1 : StreamLoadContext,
      (send_reply plan_failure_env
        { sample_request "json" "" "" with
          handler_ctx := some (sample_received plan_failure_env "json" "" [List.range 10]) }
        (cancel_if_failed plan_failure_env
          (sample_received plan_failure_env "json" "" [List.range 10]))).handler_ctx =
        some ctx1 ∧
      ctx1.status = plan_failure ∧
      ctx1.body_sink = some ((({ restored_pipe 0 with appended := [List.range 10] } :
        MessageBodySink)).cancel "plan failed") :=
  match failure_cancels_open_sink plan_failure_env (sample_cfg 1048576) 1
    { sample_request "json" "" "" with
      handler_ctx := some (sample_received plan_failure_env "json" "" [List.range 10]) }
    _ (sample_received plan_failure_env "json" "" [List.range 10]) rfl
    (handle_of_failed plan_failure_env (sample_cfg 1048576) 1 _ _ rfl (by decide)) with
  | ⟨_, ctx1, _, h2, _, _, _, _⟩ => ⟨ctx1, h2, by
      injection h2 with h2
      subst h2
      decide, by
      injection h2 with h2
      subst h2
      decide⟩

theorem on_header_sink_timeout (env : Env) (ctx : StreamLoadContext) :
    (_on_header_sink env ctx).2.timeout_second = ctx.timeout_second := by
  unfold _on_header_sink _data_saved_path
  cases hs : _is_format_support_streaming ctx.format <;>
  cases ha : env.allocate_dir.1.ok <;>
  cases ho : (env.file_open (env.allocate_dir.2 ++ env.time_suffix)).ok <;>
  cases hm : env.new_load_stream_mgr_put.ok <;>
  simp [hs, ha, ho, hm]

/-- Lines 333-339: after a successful `_on_header`, `timeout_second` is the
number read from the timeout header when there is one, and is untouched when
there is none. -/
theorem on_header_ok_timeout (env : Env) (cfg : Config) (header : String → String)
    (ctx ctx1 : StreamLoadContext) (st : Status)
    (h : _on_header env cfg header ctx = Except.ok (st, ctx1)) (hok : st.ok = true) :
    (empty (header HTTP_TIMEOUT) = true ∧ ctx1.timeout_second = ctx.timeout_second) ∨
      (empty (header HTTP_TIMEOUT) = false ∧
        ∃ v, stoi (header HTTP_TIMEOUT) = Except.ok v ∧ ctx1.timeout_second = v) := by
  obtain ⟨hacc, ctxm, -, -, -, hlen⟩ := on_header_ok_inv env cfg header ctx ctx1 st h hok
  have hlen' : empty (header CONTENT_LENGTH) = true ∨
      ∃ v, stol (header CONTENT_LENGTH) = Except.ok v ∧
        ¬ size_over cfg header (to_size_t v) := by
    rcases hlen with ⟨h1, -⟩ | ⟨v, h1, -, h3⟩
    · exact Or.inl h1
    · exact Or.inr ⟨v, h1, h3⟩
  obtain ⟨ctxt, h1, -, -, h4⟩ := on_header_reaches_timeout env cfg header ctx hacc hlen'
  rw [h1] at h
  unfold _on_header_timeout at h
  split at h
  · rename_i hne
    simp only [Bool.not_eq_true'] at hne
    split at h
    · injection h with h
      injection h with h1 h2
      rw [← h1] at hok
      exact absurd hok (by decide)
    · cases h
    · rename_i v hv
      injection h with h
      have := on_header_sink_timeout env { ctxt with timeout_second := v }
      rw [h] at this
      exact Or.inr ⟨hne, v, hv, this⟩
  · rename_i hne
    simp only [Bool.not_eq_true', Bool.not_eq_false] at hne
    injection h with h
    have := on_header_sink_timeout env ctxt
    rw [h] at this
    exact Or.inl ⟨hne, this.trans h4⟩

/-- C20, as stated, fails: a request gives the timeout override `-1`; the
context holds `-1`, which is also the value of a context without override, and
the plan request carries the configured default of 600 seconds, not the
override.  (An override of 30 is carried as 30.) -/
theorem timeout_override_of_minus_one_is_dropped :
    stoi (with_header (sample_header "csv" "" "") HTTP_TIMEOUT "-1" HTTP_TIMEOUT) =
      Except.ok (-1) ∧
    (received_context sample_env (sample_cfg 1048576)
        { sample_request "csv" "" "" with
          header := with_header (sample_header "csv" "" "") HTTP_TIMEOUT "-1" }
        [List.range 10]).map
        (fun ctx => (ctx.timeout_second, ctx.put_requests.map (fun r => r.timeout))) =
      some (-1, [600]) ∧
    (received_context sample_env (sample_cfg 1048576)
        { sample_request "csv" "" "" with
          header := with_header (sample_header "csv" "" "") HTTP_TIMEOUT "30" }
        [List.range 10]).map
        (fun ctx => (ctx.timeout_second, ctx.put_requests.map (fun r => r.timeout))) =
      some (30, [30]) := by
  refine ⟨by decide, by decide, by decide⟩

/-- C20, amended: when the memory-limit header is empty or holds a number,
`_process_put` builds one request and sends it.  The request carries the load
id and the label of the context; its file type is the streaming one exactly
when the context uses streaming, and otherwise it is a local file with the
saved path and a file size equal to the declared `body_bytes`; its timeout is
`timeout_second` of the context unless that is `-1`, and the configured
default when it is `-1`; its memory limit is the number in the header when the
header is not empty and the configured default when it is.  After a
successful `_on_header`, `timeout_second` is the number in the timeout header
when that header is not empty, and the value the context had before (`-1`
in a new context) when it is: an override of `-1` is taken for none. -/
theorem plan_request_contents (env : Env) (cfg : Config) (header : String → String)
    (ctx : StreamLoadContext)
    (hm : empty (header HTTP_EXEC_MEM_LIMIT) = true ∨
      ∃ v, stoll (header HTTP_EXEC_MEM_LIMIT) = Except.ok v) :
    (∃ request : TStreamLoadPutRequest,
      _process_put env cfg header ctx = Except.ok (exec_put env ctx request) ∧
      (exec_put env ctx request).2.put_requests = ctx.put_requests ++ [request] ∧
      request.loadId = ctx.id ∧ request.label = ctx.label ∧
      request.fileType_is_stream = ctx.use_streaming ∧
      (ctx.use_streaming = true → request.path = none ∧ request.file_size = none) ∧
      (ctx.use_streaming = false →
        request.path = some ctx.path ∧ request.file_size = some ctx.body_bytes) ∧
      (ctx.timeout_second ≠ -1 → request.timeout = ctx.timeout_second) ∧
      (ctx.timeout_second = -1 → request.timeout = cfg.stream_load_exec_timeout_second) ∧
      (empty (header HTTP_EXEC_MEM_LIMIT) = true →
        request.execMemLimit = cfg.stream_load_exec_mem_limit) ∧
      (∀ v, empty (header HTTP_EXEC_MEM_LIMIT) = false →
        stoll (header HTTP_EXEC_MEM_LIMIT) = Except.ok v → request.execMemLimit = v)) ∧
    ∀ (ctx0 : StreamLoadContext) (st0 : Status),
      _on_header env cfg header ctx0 = Except.ok (st0, ctx) → st0.ok = true →
      (empty (header HTTP_TIMEOUT) = true ∧ ctx.timeout_second = ctx0.timeout_second) ∨
        (empty (header HTTP_TIMEOUT) = false ∧
          ∃ v, stoi (header HTTP_TIMEOUT) = Except.ok v ∧ ctx.timeout_second = v) := by
  refine ⟨?_, fun ctx0 st0 h hok => on_header_ok_timeout env cfg header ctx0 ctx st0 h hok⟩
  have hlog : ∀ request, (exec_put env ctx request).2.put_requests =
      ctx.put_requests ++ [request] := by
    intro request
    unfold exec_put
    simp only
    split_ifs <;> rfl
  have hfields : ∀ lim, (put_request env cfg header ctx lim).loadId = ctx.id ∧
      (put_request env cfg header ctx lim).label = ctx.label ∧
      (put_request env cfg header ctx lim).fileType_is_stream = ctx.use_streaming ∧
      (ctx.use_streaming = true → (put_request env cfg header ctx lim).path = none ∧
        (put_request env cfg header ctx lim).file_size = none) ∧
      (ctx.use_streaming = false →
        (put_request env cfg header ctx lim).path = some ctx.path ∧
        (put_request env cfg header ctx lim).file_size = some ctx.body_bytes) ∧
      (ctx.timeout_second ≠ -1 →
        (put_request env cfg header ctx lim).timeout = ctx.timeout_second) ∧
      (ctx.timeout_second = -1 →
        (put_request env cfg header ctx lim).timeout = cfg.stream_load_exec_timeout_second) := by
    intro lim
    refine ⟨rfl, rfl, rfl, fun h => ?_, fun h => ?_, fun h => ?_, fun h => ?_⟩
    · simp [put_request, h]
    · simp [put_request, h]
    · simp [put_request, h]
    · simp [put_request, h]
  by_cases he : empty (header HTTP_EXEC_MEM_LIMIT) = true
  · obtain ⟨f1, f2, f3, f4, f5, f6, f7⟩ := hfields cfg.stream_load_exec_mem_limit
    refine ⟨put_request env cfg header ctx cfg.stream_load_exec_mem_limit, ?_, hlog _,
      f1, f2, f3, f4, f5, f6, f7, fun _ => rfl, fun v hne _ => ?_⟩
    · unfold _process_put
      simp only [he, Bool.not_true]
      rfl
    · rw [he] at hne
      cases hne
  · rcases hm with hm | ⟨v, hv⟩
    · exact absurd hm he
    · obtain ⟨f1, f2, f3, f4, f5, f6, f7⟩ := hfields v
      refine ⟨put_request env cfg header ctx v, ?_, hlog _,
        f1, f2, f3, f4, f5, f6, f7, fun h => absurd h he, fun v1 _ hv1 => ?_⟩
      · unfold _process_put
        simp only [he, hv]
        simp
      · rw [hv] at hv1
        injection hv1

theorem plan_request_contents_witness :
    ∃ request : TStreamLoadPutRequest,
      _process_put sample_env (sample_cfg 1048576)
          (with_header (sample_header "csv" "" "") HTTP_EXEC_MEM_LIMIT "1073741824")
          { sample_received sample_env "csv" "" [] with timeout_second := 30 } =
        Except.ok (exec_put sample_env
          { sample_received sample_env "csv" "" [] with timeout_second := 30 } request) ∧
      request.loadId = 1 ∧ request.fileType_is_stream = true ∧ request.path = none ∧
      request.timeout = 30 ∧ request.execMemLimit = 1073741824 :=
  match plan_request_contents sample_env (sample_cfg 1048576)
    (with_header (sample_header "csv" "" "") HTTP_EXEC_MEM_LIMIT "1073741824")
    { sample_received sample_env "csv" "" [] with timeout_second := 30 }
    (Or.inr ⟨1073741824, by decide⟩) with
  | ⟨⟨request, h1, _, h3, _, h5, h6, _, h8, _, _, h11⟩, _⟩ =>
    ⟨request, h1, h3, h5, (h6 rfl).1, h8 (by decide), h11 1073741824 (by decide) (by decide)⟩

/-! ## Claims on the replay loop and on `_parse_format` -/

/-- The replay loop after `fuel` passes, every append succeeding: it has
replayed `min schema_buffer_size (fuel * 128 KiB)` bytes, in
`min fuel (ceil (schema_buffer_size / 128 KiB))` pieces of at most
128 KiB, taken from the schema buffer in order from the read offset on. -/
theorem replay_loop_passes (env : Env) (ha : appends_ok env) :
    ∀ (fuel : Nat) (ctx : StreamLoadContext) (sink : MessageBodySink) (off : Nat),
      ctx.body_sink = some sink →
      ∃ pieces : List (List Byte),
        replay_loop env fuel ctx off = Except.ok
          ({ ctx with
              schema_buffer_size :=
                ctx.schema_buffer_size - min ctx.schema_buffer_size (fuel * 131072)
              receive_bytes :=
                ctx.receive_bytes + min ctx.schema_buffer_size (fuel * 131072)
              body_sink := some { sink with appended := sink.appended ++ pieces } }, false) ∧
        pieces.flatten =
          (ctx.schema_buffer.drop off).take (min ctx.schema_buffer_size (fuel * 131072)) ∧
        pieces.length = min fuel ((ctx.schema_buffer_size + 131071) / 131072) ∧
        ∀ p ∈ pieces, p.length ≤ 131072 := by
  intro fuel
  induction fuel with
  | zero =>
    intro ctx sink off hs
    refine ⟨[], ?_, by simp, by simp, by simp⟩
    unfold replay_loop
    cases ctx
    simp_all
  | succ fuel ih =>
    intro ctx sink off hs
    by_cases h0 : ctx.schema_buffer_size = 0
    · refine ⟨[], ?_, by simp [h0], by simp [h0], by simp⟩
      unfold replay_loop
      cases ctx
      simp_all
    · have hpos : ctx.schema_buffer_size > 0 := Nat.pos_of_ne_zero h0
      obtain ⟨hok, hsink⟩ := sink_append_ok env ha sink
        ((ctx.schema_buffer.drop off).take (min ctx.schema_buffer_size stream_buffer_size))
      have hsz : stream_buffer_size = 131072 := rfl
      obtain ⟨pieces, hp1, hp2, hp3, hp4⟩ := ih
        { ctx with
          schema_buffer_size :=
            ctx.schema_buffer_size - min ctx.schema_buffer_size stream_buffer_size
          receive_bytes := ctx.receive_bytes + min ctx.schema_buffer_size stream_buffer_size
          body_sink := some { sink with appended := sink.appended ++
            [(ctx.schema_buffer.drop off).take
              (min ctx.schema_buffer_size stream_buffer_size)] } }
        { sink with appended := sink.appended ++
            [(ctx.schema_buffer.drop off).take
              (min ctx.schema_buffer_size stream_buffer_size)] }
        (off + min ctx.schema_buffer_size stream_buffer_size) rfl
      simp only at hp1 hp2 hp3
      refine ⟨((ctx.schema_buffer.drop off).take
        (min ctx.schema_buffer_size stream_buffer_size)) :: pieces, ?_, ?_, ?_, ?_⟩
      · rw [replay_loop]
        simp only [hpos, if_true, hs, hok, hsink, Bool.not_true]
        rw [if_neg (by simp)]
        rw [hp1]
        simp only [List.append_assoc, List.singleton_append]
        congr 3
        · rw [hsz]; omega
        · rw [hsz]; omega
      · simp only [List.flatten_cons, hp2]
        have key := take_drop_split ctx.schema_buffer off
          (min ctx.schema_buffer_size stream_buffer_size)
          (min ctx.schema_buffer_size ((fuel + 1) * 131072)) (by rw [hsz]; omega)
        rw [← key]
        congr 2
        rw [hsz]; omega
      · simp only [List.length_cons, hp3]
        rw [hsz]; omega
      · intro p hp
        rcases List.mem_cons.1 hp with h | h
        · rw [h, List.length_take]
          exact le_trans (Nat.min_le_left _ _) (Nat.min_le_right _ _)
        · exact hp4 p h

/-- One more pass than needed changes nothing: when `fuel` passes of 128 KiB
cover `schema_buffer_size`, the replay loop gives the same with `fuel + 1`. -/
theorem replay_loop_fuel_succ (env : Env) :
    ∀ (fuel : Nat) (ctx : StreamLoadContext) (off : Nat),
      ctx.schema_buffer_size ≤ fuel * 131072 →
      replay_loop env (fuel + 1) ctx off = replay_loop env fuel ctx off := by
  intro fuel
  induction fuel with
  | zero =>
    intro ctx off h
    have h0 : ¬ ctx.schema_buffer_size > 0 := by omega
    unfold replay_loop
    rw [if_neg h0]
  | succ n ih =>
    intro ctx off h
    rw [replay_loop]
    conv_rhs => rw [replay_loop]
    by_cases hpos : ctx.schema_buffer_size > 0
    · rw [if_pos hpos, if_pos hpos]
      simp only
      cases hs : ctx.body_sink with
      | none => rfl
      | some sink =>
        simp only
        split
        · rfl
        · apply ih
          simp only [stream_buffer_size]
          omega
    · rw [if_neg hpos, if_neg hpos]

theorem replay_loop_fuel_le (env : Env) (ctx : StreamLoadContext) (off fuel0 fuel : Nat)
    (h0 : ctx.schema_buffer_size ≤ fuel0 * 131072) (hf : fuel0 ≤ fuel) :
    replay_loop env fuel ctx off = replay_loop env fuel0 ctx off := by
  induction fuel, hf using Nat.le_induction with
  | base => rfl
  | succ n hn ih =>
    rw [replay_loop_fuel_succ env n ctx off
      (le_trans h0 (Nat.mul_le_mul_right _ hn)), ih]

/-- C23. Replay loop: on a schema buffer that holds K > 0 bytes, every append
succeeding, the replay loop ends after exactly ceil (K / 131072) passes (after
fewer passes bytes are left to replay, and further fuel changes nothing); it
has appended that many pieces of at most 131072 bytes each, whose
concatenation is the K buffered bytes in their order; `receive_bytes` has
grown by K and `schema_buffer_size` is 0. -/
theorem replay_loop_iterations (env : Env) (ha : appends_ok env) (ctx : StreamLoadContext)
    (sink : MessageBodySink) (K : Nat) (hs : ctx.body_sink = some sink)
    (hK : ctx.schema_buffer_size = K) (hbuf : ctx.schema_buffer.length = K) (hpos : 0 < K) :
    ∃ pieces : List (List Byte),
      replay_loop env ((K + 131071) / 131072) ctx 0 = Except.ok
        ({ ctx with
            schema_buffer_size := 0
            receive_bytes := ctx.receive_bytes + K
            body_sink := some { sink with appended := sink.appended ++ pieces } }, false) ∧
      pieces.length = (K + 131071) / 131072 ∧ 0 < pieces.length ∧
      pieces.flatten = ctx.schema_buffer ∧
      (∀ p ∈ pieces, p.length ≤ 131072) ∧
      (∀ fuel, fuel < (K + 131071) / 131072 →
        ∃ ctx1, replay_loop env fuel ctx 0 = Except.ok (ctx1, false) ∧
          0 < ctx1.schema_buffer_size) ∧
      (∀ fuel, (K + 131071) / 131072 ≤ fuel →
        replay_loop env fuel ctx 0 = replay_loop env ((K + 131071) / 131072) ctx 0) := by
  obtain ⟨pieces, h1, h2, h3, h4⟩ :=
    replay_loop_passes env ha ((K + 131071) / 131072) ctx sink 0 hs
  have hmin : min ctx.schema_buffer_size ((K + 131071) / 131072 * 131072) = K := by
    rw [hK]; omega
  rw [hmin] at h1 h2
  have hfull : replay_loop env ((K + 131071) / 131072) ctx 0 = Except.ok
      ({ ctx with
          schema_buffer_size := 0
          receive_bytes := ctx.receive_bytes + K
          body_sink := some { sink with appended := sink.appended ++ pieces } }, false) := by
    rw [h1, hK, Nat.sub_self]
  have hlen : pieces.length = (K + 131071) / 131072 := by
    rw [h3, hK]
    exact Nat.min_self _
  refine ⟨pieces, hfull, hlen, by omega, ?_, h4, ?_, ?_⟩
  · rw [h2, List.drop_zero, ← hbuf, List.take_length]
  · intro fuel hf
    obtain ⟨ps, g1, -, -, -⟩ := replay_loop_passes env ha fuel ctx sink 0 hs
    refine ⟨_, g1, ?_⟩
    simp only
    rw [hK]
    omega
  · intro fuel hf
    exact replay_loop_fuel_le env ctx 0 _ fuel (by rw [hK]; omega) hf

theorem replay_loop_iterations_witness :
    ∃ pieces : List (List Byte),
      replay_loop sample_env 1
          { fresh_context sample_env with
            schema_buffer := List.range 10, schema_buffer_size := 10
            body_sink := some (restored_pipe 0) } 0 =
        Except.ok
          ({ fresh_context sample_env with
              schema_buffer := List.range 10, schema_buffer_size := 0
              receive_bytes := 0 + 10
              body_sink := some { restored_pipe 0 with appended := [] ++ pieces } }, false) ∧
      pieces.length = 1 ∧ pieces.flatten = List.range 10 :=
  match replay_loop_iterations sample_env (fun _ _ => rfl)
    { fresh_context sample_env with
      schema_buffer := List.range 10, schema_buffer_size := 10
      body_sink := some (restored_pipe 0) }
    (restored_pipe 0) 10 rfl rfl rfl (by decide) with
  | ⟨pieces, h1, h2, _, h4, _⟩ => ⟨pieces, h1, h2, h4⟩

theorem to_lower_length (s : String) : (to_lower s).length = s.data.length := by
  unfold to_lower
  exact List.length_map _ _

theorem iequal_of_to_lower (a b x : String) (h : to_lower a = to_lower b) :
    iequal a x = iequal b x := by
  have hl : a.data.length = b.data.length := by
    rw [← to_lower_length a, ← to_lower_length b, h]
  unfold iequal
  rw [hl, h]

theorem empty_of_to_lower (a b : String) (h : to_lower a = to_lower b) : empty a = empty b := by
  have hl : a.data.length = b.data.length := by
    rw [← to_lower_length a, ← to_lower_length b, h]
  unfold empty
  cases ha : a.data with
  | nil =>
    rw [ha] at hl
    have hb : b.data = [] := List.length_eq_zero.1 hl.symm
    rw [hb]
  | cons x xs =>
    rw [ha] at hl
    cases hb : b.data with
    | nil => rw [hb] at hl; cases hl
    | cons y ys => rfl

/-- C24. `_parse_format` takes an empty format name for CSV and ignores letter
case: `_parse_format "" c` is `_parse_format "CSV" c`; when `f2` and `c2`
differ from `f` and `c` in letter case only, `_parse_format f2 c2` is
`_parse_format f c`; the compress type is PLAIN when the format name is
neither empty nor CSV, and for an empty or CSV name it is GZ, LZO, BZ2,
LZ4FRAME, LZO, DEFLATE for the compression names GZ, LZO, BZ2, LZ4, LZOP,
DEFLATE and PLAIN for every other name. -/
theorem parse_format_empty_and_case (f c f2 c2 : String)
    (hf : to_lower f2 = to_lower f) (hc : to_lower c2 = to_lower c) :
    _parse_format "" c = _parse_format "CSV" c ∧
    _parse_format f2 c2 = _parse_format f c ∧
    (¬ (empty f = true ∨ iequal f "CSV" = true) →
      (_parse_format f c).2 = TFileCompressType.PLAIN) ∧
    (empty f = true ∨ iequal f "CSV" = true →
      (_parse_format f c).2 =
        if iequal c "GZ" then TFileCompressType.GZ
        else if iequal c "LZO" then TFileCompressType.LZO
        else if iequal c "BZ2" then TFileCompressType.BZ2
        else if iequal c "LZ4" then TFileCompressType.LZ4FRAME
        else if iequal c "LZOP" then TFileCompressType.LZO
        else if iequal c "DEFLATE" then TFileCompressType.DEFLATE
        else TFileCompressType.PLAIN) := by
  refine ⟨rfl, ?_, ?_, ?_⟩
  · unfold _parse_format _parse_format_body
    simp only [empty_of_to_lower f2 f hf, empty_of_to_lower c2 c hc,
      iequal_of_to_lower f2 f _ hf, iequal_of_to_lower c2 c _ hc]
  · intro h
    simp only [not_or, Bool.not_eq_true] at h
    unfold _parse_format _parse_format_body
    simp only [h.1, h.2, Bool.false_eq_true, if_false]
    split
    · split <;> rfl
    · split
      · rfl
      · split <;> rfl
  · intro h
    have hbody : (_parse_format f c).2 = (_parse_format_body "CSV" c).2 := by
      unfold _parse_format
      rcases h with h | h
      · rw [if_pos h]
      · by_cases he : empty f = true
        · rw [if_pos he]
        · rw [if_neg he]
          unfold _parse_format_body
          rw [if_pos h, if_pos (by decide : iequal "CSV" "CSV" = true)]
    rw [hbody]
    unfold _parse_format_body
    rw [if_pos (by decide : iequal "CSV" "CSV" = true)]
    rcases classify_compress c with
      ⟨h0, h1, h2, h3, h4, h5, h6⟩ | ⟨h0, h1, h2, h3, h4, h5, h6⟩ |
      ⟨h0, h1, h2, h3, h4, h5, h6⟩ | ⟨h0, h1, h2, h3, h4, h5, h6⟩ |
      ⟨h0, h1, h2, h3, h4, h5, h6⟩ | ⟨h0, h1, h2, h3, h4, h5, h6⟩ |
      ⟨h0, h1, h2, h3, h4, h5, h6⟩ | ⟨h0, h1, h2, h3, h4, h5, h6⟩ <;>
    simp [h0, h1, h2, h3, h4, h5, h6]

theorem parse_format_empty_and_case_witness :
    _parse_format "" "lzop" = _parse_format "CSV" "lzop" ∧
    _parse_format "cSv" "LzOp" = _parse_format "CSV" "lzop" ∧
    _parse_format "CSV" "lzop" =
      (TFileFormatType.FORMAT_CSV_LZOP, TFileCompressType.LZO) :=
  ⟨(parse_format_empty_and_case "CSV" "lzop" "cSv" "LzOp" (by decide) (by decide)).1,
    (parse_format_empty_and_case "CSV" "lzop" "cSv" "LzOp" (by decide) (by decide)).2.1,
    by decide⟩

/-! ## Claims on the bounded pipe -/

theorem BoundedPipe.step_capacity (p : BoundedPipe) (op : PipeOp) :
    (p.step op).capacity = p.capacity := by
  cases op with
  | append chunk =>
    simp only [BoundedPipe.step]
    unfold BoundedPipe.append
    split
    · rfl
    · split
      · rfl
      · split <;> rfl
  | read max_bytes =>
    simp only [BoundedPipe.step]
    unfold BoundedPipe.read
    split
    · rfl
    · split
      · split <;> rfl
      · split <;> rfl
  | finish => simp only [BoundedPipe.step, BoundedPipe.finish]
  | cancel reason =>
    simp only [BoundedPipe.step]
    unfold BoundedPipe.cancel
    split <;> rfl

/-- One call keeps the buffered bytes within the capacity. -/
theorem BoundedPipe.step_buffered (p : BoundedPipe) (op : PipeOp)
    (h : p.buffered ≤ p.capacity) : (p.step op).buffered ≤ p.capacity := by
  cases op with
  | append chunk =>
    simp only [BoundedPipe.step]
    unfold BoundedPipe.append
    split
    · exact h
    · split
      · exact h
      · split
        · exact h
        · rename_i hfit
          simp only [BoundedPipe.buffered, List.map_append, List.sum_append, List.map_cons,
            List.map_nil, List.sum_cons, List.sum_nil, Nat.add_zero]
          simp only [BoundedPipe.buffered] at hfit
          omega
  | read max_bytes =>
    simp only [BoundedPipe.step]
    unfold BoundedPipe.read
    split
    · exact h
    · split
      · split <;> exact h
      · rename_i c rest hq
        simp only [BoundedPipe.buffered, hq, List.map_cons, List.sum_cons] at h
        split
        · simp only [BoundedPipe.buffered]
          omega
        · simp only [BoundedPipe.buffered, List.map_cons, List.sum_cons, List.length_drop]
          omega
  | finish => simpa only [BoundedPipe.step, BoundedPipe.finish, BoundedPipe.buffered] using h
  | cancel reason =>
    simp only [BoundedPipe.step]
    unfold BoundedPipe.cancel
    split <;> exact h

theorem BoundedPipe.run_buffered (ops : List PipeOp) :
    ∀ p : BoundedPipe, p.buffered ≤ p.capacity →
      (p.run ops).buffered ≤ p.capacity ∧ (p.run ops).capacity = p.capacity := by
  induction ops with
  | nil => intro p h; exact ⟨h, rfl⟩
  | cons op rest ih =>
    intro p h
    have h1 := BoundedPipe.step_buffered p op h
    have h2 := BoundedPipe.step_capacity p op
    obtain ⟨i1, i2⟩ := ih (p.step op) (by rw [h2]; exact h1)
    exact ⟨by rw [← h2]; exact i1, i2.trans h2⟩

/-- C21. Capacity invariant of the bounded pipe: after every sequence of
calls (appends, reads, also `finish` and `cancel`) on a pipe created with
capacity `C`, the sum of the unconsumed buffered bytes is at most `C`. -/
theorem pipe_capacity_invariant (C total_length : Nat) (ops : List PipeOp) :
    ((BoundedPipe.create C total_length).run ops).buffered ≤ C :=
  (BoundedPipe.run_buffered ops (BoundedPipe.create C total_length) (Nat.zero_le _)).1

/-- After `cancel`, no call on the pipe blocks: every append and every read
gives `Cancelled` with the reason of the first cancel, whatever calls took
effect in between. -/
theorem BoundedPipe.cancelled_outcome (p : BoundedPipe) (reason : String) (ops : List PipeOp) :
    ∃ r, ((p.cancel reason).run ops).cancelled = some r ∧
      (p.cancelled = none → r = reason) ∧
      ∀ (chunk : List Byte) (max_bytes : Nat),
        ((p.cancel reason).run ops).outcome (PipeOp.append chunk) = PipeOutcome.cancelled r ∧
        ((p.cancel reason).run ops).outcome (PipeOp.read max_bytes) = PipeOutcome.cancelled r := by
  have hstep : ∀ (q : BoundedPipe) (r : String) (op : PipeOp), q.cancelled = some r →
      (q.step op).cancelled = some r := by
    intro q r op hq
    cases op with
    | append chunk => simp [BoundedPipe.step, BoundedPipe.append, hq]
    | read max_bytes => simp [BoundedPipe.step, BoundedPipe.read, hq]
    | finish => simpa [BoundedPipe.step, BoundedPipe.finish] using hq
    | cancel r2 => simp [BoundedPipe.step, BoundedPipe.cancel, hq]
  have hrun : ∀ (ops : List PipeOp) (q : BoundedPipe) (r : String), q.cancelled = some r →
      (q.run ops).cancelled = some r := by
    intro ops
    induction ops with
    | nil => intro q r hq; exact hq
    | cons op rest ih => intro q r hq; exact ih (q.step op) r (hstep q r op hq)
  have hc : ∃ r, (p.cancel reason).cancelled = some r ∧ (p.cancelled = none → r = reason) := by
    unfold BoundedPipe.cancel
    cases hp : p.cancelled with
    | none => exact ⟨reason, rfl, fun _ => rfl⟩
    | some r0 => exact ⟨r0, hp, fun h => by cases h⟩
  obtain ⟨r, h1, h2⟩ := hc
  have h3 := hrun ops _ r h1
  refine ⟨r, h3, h2, fun chunk max_bytes => ⟨?_, ?_⟩⟩
  · simp [BoundedPipe.outcome, BoundedPipe.append, h3]
  · simp [BoundedPipe.outcome, BoundedPipe.read, h3]

/-! ## Claims on the schema scanners -/

theorem convert_datetimev2 (senv : ScanEnv) (v : Nat) :
    convert_slot senv PrimitiveType.TYPE_DATETIMEV2 (SlotData.number v)
      = Converted.value (Field.Int ((v % 2 ^ 32 : Nat) : Int)) := by
  simp only [convert_slot, as_number, read_unsigned]
  have h : v % 2 ^ 64 % 2 ^ 32 = v % 2 ^ 32 :=
    Nat.mod_mod_of_dvd v (Nat.pow_dvd_pow 2 (by decide : 32 ≤ 64))
  rw [h]

/-- C25. For a `TYPE_DATETIMEV2` slot holding the value `v`, both
`fill_dest_column` and `write_slot_to_vectorized_column` append `v % 2 ^ 32` to
the `UInt64` column, the value going through `uint32_t num`: a source value of
`2 ^ 32` or more is not appended unchanged. -/
theorem datetimev2_slot_is_cut_to_32_bits (senv : ScanEnv) (name : String)
    (column : ColumnNullable) (v : Nat) (hv : 2 ^ 32 ≤ v) :
    fill_dest_column senv ⟨[⟨column, name⟩]⟩ (some (SlotData.number v))
        ⟨name, PrimitiveType.TYPE_DATETIMEV2, 8, true⟩
      = some (Status.OK, ⟨[⟨⟨column.null_map ++ [0],
          column.nested ++ [Field.Int ((v % 2 ^ 32 : Nat) : Int)]⟩, name⟩]⟩) ∧
    write_slot_to_vectorized_column senv (SlotData.number v)
        ⟨name, PrimitiveType.TYPE_DATETIMEV2, true, true⟩ column
      = some (Status.OK, ⟨column.null_map ++ [0],
          column.nested ++ [Field.Int ((v % 2 ^ 32 : Nat) : Int)]⟩) ∧
    Field.Int ((v % 2 ^ 32 : Nat) : Int) ≠ Field.Int (v : Int) := by
  refine ⟨?_, ?_, ?_⟩
  · simp [fill_dest_column, Block.has, Block.position_of, Block.column_at, Block.set_column,
      fill_cell, convert_datetimev2, List.findIdx_cons, List.modify]
  · simp [write_slot_to_vectorized_column, convert_datetimev2]
  · intro h
    injection h with h
    have h2 : v % 2 ^ 32 = v := by exact_mod_cast h
    have h3 : v % 2 ^ 32 < 2 ^ 32 := Nat.mod_lt _ (by decide)
    omega

theorem datetimev2_slot_is_cut_to_32_bits_witness :
    (2 : Nat) ^ 32 ≤ 4294967296 ∧
    fill_dest_column sample_scan_env ⟨[⟨⟨[], []⟩, "T"⟩]⟩ (some (SlotData.number 4294967296))
        ⟨"T", PrimitiveType.TYPE_DATETIMEV2, 8, true⟩
      = some (Status.OK, ⟨[⟨⟨[0], [Field.Int 0]⟩, "T"⟩]⟩) :=
  ⟨by decide, (datetimev2_slot_is_cut_to_32_bits sample_scan_env "T" ⟨[], []⟩ 4294967296
    (by decide)).1⟩

/-! ## Claims on the rowsets scanner -/

theorem Block.column_at_set_column (block : Block) (pos : Nat) (col : ColumnNullable) (q : Nat) :
    (block.set_column pos col).column_at q
      = if pos = q then (block.column_at q).map (fun _ => col) else block.column_at q := by
  simp only [Block.column_at, Block.set_column, List.getElem?_modify]
  cases block.data[q]? with
  | none => simp
  | some a =>
    by_cases h : pos = q
    · simp [h]
    · simp [h]

theorem Block.length_set_column (block : Block) (pos : Nat) (col : ColumnNullable) :
    (block.set_column pos col).data.length = block.data.length := by
  simp [Block.set_column, List.length_modify]

theorem Block.column_at_of_lt (block : Block) (pos : Nat) (h : pos < block.data.length) :
    ∃ c, block.column_at pos = some c := by
  simp [Block.column_at, List.getElem?_eq_getElem h]

theorem fill_cells_values {α : Type} (senv : ScanEnv) (cd : ColumnDesc) (g : α → SlotData)
    (v : α → Field) (h : ∀ a, convert_slot senv cd.type (g a) = Converted.value (v a)) :
    ∀ (xs : List α) (c : ColumnNullable),
      fill_cells senv cd (xs.map (fun a => some (g a))) c
        = some (Status.OK, ⟨c.null_map ++ List.replicate xs.length 0, c.nested ++ xs.map v⟩) := by
  intro xs
  induction xs with
  | nil => intro c; simp [fill_cells]
  | cons a rest ih =>
    intro c
    simp only [List.map_cons, fill_cells, fill_cell, h a]
    have hok : Status.OK.ok = true := rfl
    simp only [hok, if_true]
    rw [ih]
    simp [List.replicate_succ]

theorem fill_range_values {α : Type} (senv : ScanEnv) (cols : List ColumnDesc) (block : Block)
    (pos : Nat) (cd : ColumnDesc) (c : ColumnNullable) (hcd : cols[pos]? = some cd)
    (hc : block.column_at pos = some c) (g : α → SlotData) (v : α → Field)
    (h : ∀ a, convert_slot senv cd.type (g a) = Converted.value (v a)) (xs : List α) :
    fill_dest_column_for_range senv cols block pos (xs.map (fun a => some (g a)))
      = some (Status.OK, block.set_column pos
          ⟨c.null_map ++ List.replicate xs.length 0, c.nested ++ xs.map v⟩) := by
  simp only [fill_dest_column_for_range, hcd, hc, fill_cells_values senv cd g v h xs c]

/-- A run of calls of `fill_dest_column_for_range` whose data all convert adds,
call by call, the values of the window to the column of its position. -/
theorem fill_ranges_values {α : Type} (senv : ScanEnv) (cols : List ColumnDesc)
    (window : List α) :
    ∀ (items : List (Nat × (α → SlotData) × (α → Field))) (block : Block),
      (∀ it ∈ items, it.1 < block.data.length ∧ ∃ cd, cols[it.1]? = some cd ∧
        ∀ a, convert_slot senv cd.type (it.2.1 a) = Converted.value (it.2.2 a)) →
      ∃ b, fill_ranges senv cols block
          (items.map (fun it => (it.1, window.map (fun a => some (it.2.1 a))))) = some b ∧
        b.data.length = block.data.length ∧
        ∀ pos, b.column_at pos = (block.column_at pos).map (fun c =>
          items.foldl (fun c it =>
            if it.1 = pos then
              (⟨c.null_map ++ List.replicate window.length 0, c.nested ++ window.map it.2.2⟩ :
                ColumnNullable)
            else c) c) := by
  intro items
  induction items with
  | nil =>
    intro block _
    refine ⟨block, rfl, rfl, fun pos => ?_⟩
    cases block.column_at pos <;> rfl
  | cons it rest ih =>
    intro block hall
    obtain ⟨hlt, cd, hcd, hconv⟩ := hall it (List.mem_cons_self _ _)
    obtain ⟨c0, hc0⟩ := Block.column_at_of_lt block it.1 hlt
    have hstep := fill_range_values senv cols block it.1 cd c0 hcd hc0 it.2.1 it.2.2 hconv window
    obtain ⟨b, hb1, hb2, hb3⟩ := ih (block.set_column it.1
        ⟨c0.null_map ++ List.replicate window.length 0, c0.nested ++ window.map it.2.2⟩)
      (fun it2 h2 => by
        rw [Block.length_set_column]
        exact hall it2 (List.mem_cons_of_mem _ h2))
    refine ⟨b, ?_, ?_, fun pos => ?_⟩
    · simp only [List.map_cons, fill_ranges, hstep]
      exact hb1
    · rw [hb2, Block.length_set_column]
    · rw [hb3 pos, Block.column_at_set_column]
      by_cases hp : it.1 = pos
      · rw [if_pos hp]
        subst hp
        simp [hc0]
      · rw [if_neg hp]
        cases block.column_at pos with
        | none => rfl
        | some c => simp [hp]

/-- The twelve blocks of `_fill_block_impl`: the position, the datum taken
from a rowset and the value it converts to. -/
theorem fill_block_impl_spec (senv : ScanEnv) (s : SchemaRowsetsScanner) (block : Block)
    (hcols : s._columns = SchemaRowsetsScanner._s_tbls_columns)
    (hn : s.rowsets_.length < 2 ^ 31) (hidx : s._rowsets_idx ≤ s.rowsets_.length)
    (hb : 12 ≤ block.data.length) :
    ∃ b1, s._fill_block_impl senv block
        = some (Status.OK,
            { s with _rowsets_idx :=
                s._rowsets_idx + min 1000 (s.rowsets_.length - s._rowsets_idx) }, b1) ∧
      b1.data.length = block.data.length ∧
      (∀ pos, 12 ≤ pos → b1.column_at pos = block.column_at pos) ∧
      ∀ pos, pos < 12 → ∃ c, block.column_at pos = some c ∧
        b1.column_at pos = some
          ⟨c.null_map ++ List.replicate (min 1000 (s.rowsets_.length - s._rowsets_idx)) 0,
            c.nested ++ ((s.rowsets_.drop s._rowsets_idx).take
              (min 1000 (s.rowsets_.length - s._rowsets_idx))).map (s.block_value pos)⟩ := by
  have h31 : (2 : Nat) ^ 31 = 2147483648 := by norm_num
  have h64 : (2 : Nat) ^ 64 = 18446744073709551616 := by norm_num
  rw [h31] at hn
  have hm : min 1000 ((s.rowsets_.length + 2 ^ 64 - s._rowsets_idx % 2 ^ 64) % 2 ^ 64)
      = min 1000 (s.rowsets_.length - s._rowsets_idx) := by
    rw [h64]
    omega
  have hwlen : ((s.rowsets_.drop s._rowsets_idx).take
      (min 1000 (s.rowsets_.length - s._rowsets_idx))).length
      = min 1000 (s.rowsets_.length - s._rowsets_idx) := by
    rw [List.length_take, List.length_drop]
    omega
  have hrep : List.replicate (min 1000 (s.rowsets_.length - s._rowsets_idx))
      (some (store64 s.backend_id_))
      = ((s.rowsets_.drop s._rowsets_idx).take
          (min 1000 (s.rowsets_.length - s._rowsets_idx))).map
        (fun _ => some (store64 s.backend_id_)) := by
    rw [List.map_const', hwlen]
  obtain ⟨b, hb1, hb2, hb3⟩ := fill_ranges_values senv SchemaRowsetsScanner._s_tbls_columns
    ((s.rowsets_.drop s._rowsets_idx).take (min 1000 (s.rowsets_.length - s._rowsets_idx)))
    [(0, (fun _ => store64 s.backend_id_), s.block_value 0),
     (1, (fun rowset => SlotData.string rowset.rowset_id), s.block_value 1),
     (2, (fun rowset => store64 rowset.tablet_id), s.block_value 2),
     (3, (fun rowset => store64 rowset.num_rows), s.block_value 3),
     (4, (fun rowset => store64 rowset.txn_id), s.block_value 4),
     (5, (fun rowset => store64 rowset.num_segments), s.block_value 5),
     (6, (fun rowset => store64 rowset.start_version), s.block_value 6),
     (7, (fun rowset => store64 rowset.end_version), s.block_value 7),
     (8, (fun rowset => store64 rowset.index_disk_size), s.block_value 8),
     (9, (fun rowset => store64 rowset.data_disk_size), s.block_value 9),
     (10, (fun rowset => store64 rowset.creation_time), s.block_value 10),
     (11, (fun rowset => store64 rowset.newest_write_timestamp), s.block_value 11)]
    block (by
      intro it hit
      simp only [List.mem_cons, List.mem_singleton, List.not_mem_nil, or_false] at hit
      rcases hit with h | h | h | h | h | h | h | h | h | h | h | h <;> subst h <;>
        exact ⟨by simp only []; omega, _, rfl, fun _ => rfl⟩)
  refine ⟨b, ?_, hb2, fun pos hpos => ?_, fun pos hpos => ?_⟩
  · unfold SchemaRowsetsScanner._fill_block_impl
    simp only [hm, hcols]
    rw [if_pos ⟨by omega, by omega⟩, hrep]
    simp only [List.map_cons, List.map_nil, SchemaRowsetsScanner.range_datas] at hb1
    simp only [SchemaRowsetsScanner.range_datas]
    rw [hb1]
  · rw [hb3 pos]
    cases block.column_at pos with
    | none => rfl
    | some c =>
      simp only [Option.map_some', List.foldl_cons, List.foldl_nil]
      simp [show (0 : Nat) ≠ pos by omega, show (1 : Nat) ≠ pos by omega,
        show (2 : Nat) ≠ pos by omega, show (3 : Nat) ≠ pos by omega,
        show (4 : Nat) ≠ pos by omega, show (5 : Nat) ≠ pos by omega,
        show (6 : Nat) ≠ pos by omega, show (7 : Nat) ≠ pos by omega,
        show (8 : Nat) ≠ pos by omega, show (9 : Nat) ≠ pos by omega,
        show (10 : Nat) ≠ pos by omega, show (11 : Nat) ≠ pos by omega]
  · obtain ⟨c, hc⟩ := Block.column_at_of_lt block pos (by omega)
    refine ⟨c, hc, ?_⟩
    rw [hb3 pos, hc, hwlen]
    interval_cases pos <;> simp

/-- One call of `get_next_block` on an initialised scanner whose cursor is
within the list. -/
theorem get_next_block_spec (senv : ScanEnv) (s : SchemaRowsetsScanner) (block : Block)
    (e : Bool) (hinit : s._is_init = true)
    (hcols : s._columns = SchemaRowsetsScanner._s_tbls_columns)
    (hn : s.rowsets_.length < 2 ^ 31) (hidx : s._rowsets_idx ≤ s.rowsets_.length)
    (hb : 12 ≤ block.data.length) :
    ∃ b1, s.get_next_block senv (some block) (some e)
        = some (Status.OK,
            { s with _rowsets_idx :=
                s._rowsets_idx + min 1000 (s.rowsets_.length - s._rowsets_idx) },
            some b1, some (decide (s.rowsets_.length ≤ s._rowsets_idx))) ∧
      b1.data.length = block.data.length ∧
      (s.rowsets_.length ≤ s._rowsets_idx → b1 = block) ∧
      (∀ pos, 12 ≤ pos → b1.column_at pos = block.column_at pos) ∧
      ∀ pos, pos < 12 → ∃ c, block.column_at pos = some c ∧
        b1.column_at pos = some
          ⟨c.null_map ++ List.replicate (min 1000 (s.rowsets_.length - s._rowsets_idx)) 0,
            c.nested ++ ((s.rowsets_.drop s._rowsets_idx).take
              (min 1000 (s.rowsets_.length - s._rowsets_idx))).map (s.block_value pos)⟩ := by
  by_cases heos : s.rowsets_.length ≤ s._rowsets_idx
  · have hm : min 1000 (s.rowsets_.length - s._rowsets_idx) = 0 := by omega
    refine ⟨block, ?_, rfl, fun _ => rfl, fun _ _ => rfl, fun pos hpos => ?_⟩
    · rw [hm]
      simp only [SchemaRowsetsScanner.get_next_block, hinit, decide_eq_true heos]
      have hge : s._rowsets_idx ≥ s.rowsets_.length := heos
      simp [hge]
    · obtain ⟨c, hc⟩ := Block.column_at_of_lt block pos (by omega)
      refine ⟨c, hc, ?_⟩
      rw [hc, hm]
      simp
  · obtain ⟨b1, h1, h2, h3, h4⟩ := fill_block_impl_spec senv s block hcols hn hidx hb
    refine ⟨b1, ?_, h2, fun h => absurd h heos, h3, h4⟩
    have hge : ¬ s._rowsets_idx ≥ s.rowsets_.length := heos
    simp only [SchemaRowsetsScanner.get_next_block, hinit, h1, decide_eq_false heos]
    simp [hge]

theorem block_value_cursor (s : SchemaRowsetsScanner) (idx : Nat) (pos : Nat) :
    ({ s with _rowsets_idx := idx } : SchemaRowsetsScanner).block_value pos = s.block_value pos := by
  funext rowset
  unfold SchemaRowsetsScanner.block_value
  split <;> rfl

/-- Repeated calls of `get_next_block`, each on the block the call before
left. -/
theorem calls_spec (senv : ScanEnv) :
    ∀ (count : Nat) (s : SchemaRowsetsScanner) (block : Block), s._is_init = true →
      s._columns = SchemaRowsetsScanner._s_tbls_columns → s.rowsets_.length < 2 ^ 31 →
      s._rowsets_idx ≤ s.rowsets_.length → 12 ≤ block.data.length →
      ∃ b2 log, s.calls senv count block
          = some ({ s with _rowsets_idx := min s.rowsets_.length (s._rowsets_idx + 1000 * count) },
              b2, log) ∧
        log.length = count ∧
        (∀ k, k < count →
          log[k]? = some (Status.OK, decide (s.rowsets_.length ≤ s._rowsets_idx + 1000 * k))) ∧
        b2.data.length = block.data.length ∧
        ∀ pos, pos < 12 → ∃ c, block.column_at pos = some c ∧
          b2.column_at pos = some
            ⟨c.null_map ++ List.replicate
                (min s.rowsets_.length (s._rowsets_idx + 1000 * count) - s._rowsets_idx) 0,
              c.nested ++ ((s.rowsets_.drop s._rowsets_idx).take
                (min s.rowsets_.length (s._rowsets_idx + 1000 * count) - s._rowsets_idx)).map
                (s.block_value pos)⟩ := by
  intro count
  induction count with
  | zero =>
    intro s block _ _ _ hidx hb
    refine ⟨block, [], ?_, rfl, fun k hk => absurd hk (Nat.not_lt_zero k), rfl, fun pos hpos => ?_⟩
    · have : min s.rowsets_.length (s._rowsets_idx + 1000 * 0) = s._rowsets_idx := by omega
      rw [this]
      rfl
    · obtain ⟨c, hc⟩ := Block.column_at_of_lt block pos (by omega)
      refine ⟨c, hc, ?_⟩
      have : min s.rowsets_.length (s._rowsets_idx + 1000 * 0) - s._rowsets_idx = 0 := by omega
      rw [hc, this]
      simp
  | succ count ih =>
    intro s block hinit hcols hn hidx hb
    obtain ⟨b1, g1, g2, _, _, g5⟩ := get_next_block_spec senv s block false hinit hcols hn hidx hb
    obtain ⟨b2, log, f1, f2, f3, f4, f5⟩ := ih
      { s with _rowsets_idx := s._rowsets_idx + min 1000 (s.rowsets_.length - s._rowsets_idx) }
      b1 hinit hcols hn (by
        show s._rowsets_idx + min 1000 (s.rowsets_.length - s._rowsets_idx) ≤ s.rowsets_.length
        omega) (by rw [g2]; exact hb)
    simp only [] at f1 f3 f5
    have hcur : min s.rowsets_.length
        (s._rowsets_idx + min 1000 (s.rowsets_.length - s._rowsets_idx) + 1000 * count)
        = min s.rowsets_.length (s._rowsets_idx + 1000 * (count + 1)) := by omega
    refine ⟨b2, (Status.OK, decide (s.rowsets_.length ≤ s._rowsets_idx)) :: log, ?_, by simp [f2], fun k hk => ?_, by rw [f4, g2], fun pos hpos => ?_⟩
    · simp only [SchemaRowsetsScanner.calls, g1, f1, hcur]
    · cases k with
      | zero => simp
      | succ k =>
        rw [List.getElem?_cons_succ, f3 k (by omega)]
        congr 2
        apply decide_eq_decide.mpr
        constructor <;> intro h <;> omega
    · obtain ⟨c, hc, hc1⟩ := g5 pos hpos
      obtain ⟨c1, hc2, hc3⟩ := f5 pos hpos
      rw [hc1] at hc2
      cases hc2
      refine ⟨c, hc, ?_⟩
      rw [hc3, block_value_cursor, hcur]
      have hlen : min 1000 (s.rowsets_.length - s._rowsets_idx)
          + (min s.rowsets_.length (s._rowsets_idx + 1000 * (count + 1))
            - (s._rowsets_idx + min 1000 (s.rowsets_.length - s._rowsets_idx)))
          = min s.rowsets_.length (s._rowsets_idx + 1000 * (count + 1)) - s._rowsets_idx := by
        omega
      rw [← hlen, List.replicate_add, List.take_add, List.map_append, List.drop_drop,
        List.append_assoc, List.append_assoc]
      exact congrArg some (congrArg (ColumnNullable.mk _) (congrArg (fun f => c.nested ++ (_ ++
        List.map f _)) (block_value_cursor s _ pos)))

/-- C26. Rowset scanner batching.  On an initialised rowsets scanner with `n`
collected rowsets (fewer than `2 ^ 31`) and the cursor at most `n`, a call of
`get_next_block` returns OK, reports `eos = true` exactly when the cursor has
reached `n` and then leaves the block and the cursor alone, and else adds to
each of the twelve column positions that `_fill_block_impl` fills the values
of the next `min 1000 (n - cursor)` rowsets in list order and moves the cursor
past them, never beyond `n`.  Hence after `count` calls the cursor is
`min n (cursor + 1000 * count)`, the columns have received every rowset up to
there exactly once and in list order, and the `k`-th call reported `eos = true`
exactly when `n ≤ cursor + 1000 * k`. -/
theorem rowset_scanner_batching (senv : ScanEnv) (s : SchemaRowsetsScanner) (block : Block)
    (e : Bool) (count : Nat) (hinit : s._is_init = true)
    (hcols : s._columns = SchemaRowsetsScanner._s_tbls_columns)
    (hn : s.rowsets_.length < 2 ^ 31) (hidx : s._rowsets_idx ≤ s.rowsets_.length)
    (hb : 12 ≤ block.data.length) :
    (∃ b1, s.get_next_block senv (some block) (some e)
        = some (Status.OK,
            { s with _rowsets_idx :=
                s._rowsets_idx + min 1000 (s.rowsets_.length - s._rowsets_idx) },
            some b1, some (decide (s.rowsets_.length ≤ s._rowsets_idx))) ∧
      b1.data.length = block.data.length ∧
      (s.rowsets_.length ≤ s._rowsets_idx → b1 = block) ∧
      (∀ pos, 12 ≤ pos → b1.column_at pos = block.column_at pos) ∧
      ∀ pos, pos < 12 → ∃ c, block.column_at pos = some c ∧
        b1.column_at pos = some
          ⟨c.null_map ++ List.replicate (min 1000 (s.rowsets_.length - s._rowsets_idx)) 0,
            c.nested ++ ((s.rowsets_.drop s._rowsets_idx).take
              (min 1000 (s.rowsets_.length - s._rowsets_idx))).map (s.block_value pos)⟩) ∧
    (min 1000 (s.rowsets_.length - s._rowsets_idx) ≤ 1000 ∧
      s._rowsets_idx + min 1000 (s.rowsets_.length - s._rowsets_idx) ≤ s.rowsets_.length ∧
      (s.rowsets_.length ≤ s._rowsets_idx ↔
        min 1000 (s.rowsets_.length - s._rowsets_idx) = 0)) ∧
    (∃ b2 log, s.calls senv count block
        = some ({ s with _rowsets_idx := min s.rowsets_.length (s._rowsets_idx + 1000 * count) },
            b2, log) ∧
      log.length = count ∧
      (∀ k, k < count →
        log[k]? = some (Status.OK, decide (s.rowsets_.length ≤ s._rowsets_idx + 1000 * k))) ∧
      b2.data.length = block.data.length ∧
      ∀ pos, pos < 12 → ∃ c, block.column_at pos = some c ∧
        b2.column_at pos = some
          ⟨c.null_map ++ List.replicate
              (min s.rowsets_.length (s._rowsets_idx + 1000 * count) - s._rowsets_idx) 0,
            c.nested ++ ((s.rowsets_.drop s._rowsets_idx).take
              (min s.rowsets_.length (s._rowsets_idx + 1000 * count) - s._rowsets_idx)).map
              (s.block_value pos)⟩) :=
  ⟨get_next_block_spec senv s block e hinit hcols hn hidx hb,
    ⟨by omega, by omega, by omega⟩,
    calls_spec senv count s block hinit hcols hn hidx hb⟩

theorem rowset_scanner_batching_witness :
    (sample_rowsets_scanner [sample_rowset])._is_init = true ∧
    (sample_rowsets_scanner [sample_rowset])._columns = SchemaRowsetsScanner._s_tbls_columns ∧
    (sample_rowsets_scanner [sample_rowset]).rowsets_.length < 2 ^ 31 ∧
    (sample_rowsets_scanner [sample_rowset])._rowsets_idx
      ≤ (sample_rowsets_scanner [sample_rowset]).rowsets_.length ∧
    12 ≤ rowsets_block.data.length ∧
    ∃ b2 log, (sample_rowsets_scanner [sample_rowset]).calls sample_scan_env 2 rowsets_block
        = some ({ sample_rowsets_scanner [sample_rowset] with _rowsets_idx := 1 }, b2, log) ∧
      log = [(Status.OK, false), (Status.OK, true)] ∧
      b2.column_at 1 = some ⟨[0], [Field.String "020000000000000a"]⟩ :=
  ⟨rfl, rfl, by decide, by decide, by decide, by
    obtain ⟨b2, log, h1, h2, h3, _, h5⟩ :=
      (rowset_scanner_batching sample_scan_env (sample_rowsets_scanner [sample_rowset])
        rowsets_block false 2 rfl rfl (by decide) (by decide) (by decide)).2.2
    refine ⟨b2, log, h1, ?_, ?_⟩
    · have e0 := h3 0 (by decide)
      have e1 := h3 1 (by decide)
      match log, h2, e0, e1 with
      | [a, b], _, e0, e1 =>
        simp only [List.getElem?_cons_zero, List.getElem?_cons_succ, Option.some.injEq] at e0 e1
        rw [e0, e1]
        decide
    · obtain ⟨c, hc, hc2⟩ := h5 1 (by decide)
      have hc0 : rowsets_block.column_at 1 = some ⟨[], []⟩ := by decide
      rw [hc0] at hc
      cases hc
      rw [hc2]
      decide⟩

/-- C27. For a rowset whose oldest write timestamp is 1700000100 and whose
newest is 1700000200, the row path stores the oldest into slot 11 and the
newest into slot 12, while the block path adds the newest to the column at
position 11 (`OLDEST_WRITE_TIMESTAMP`) and nothing to the column at position 12
(`NEWEST_WRITE_TIMESTAMP`): the two paths do not agree on these columns. -/
theorem block_path_misplaces_write_timestamps :
    (∃ s1 tuple,
      (sample_rowsets_scanner [sample_rowset]).fill_one_row (List.replicate 13 (SlotData.number 0))
        = some (Status.OK, s1, tuple) ∧
      tuple[11]? = some (store64 1700000100) ∧ tuple[12]? = some (store64 1700000200)) ∧
    (∃ s1 block,
      (sample_rowsets_scanner [sample_rowset]).get_next_block sample_scan_env
          (some rowsets_block) (some false)
        = some (Status.OK, s1, some block, some false) ∧
      block.column_at 10 = some ⟨[0], [Field.Int 1700000000]⟩ ∧
      block.column_at 11 = some ⟨[0], [Field.Int 1700000200]⟩ ∧
      block.column_at 12 = some ⟨[], []⟩) := by
  refine ⟨⟨_, _, rfl, rfl, rfl⟩, ⟨_, _, rfl, ?_, ?_, ?_⟩⟩
  · decide
  · decide
  · decide

/-! ## Claims on the tables scanner -/

/-- C28. For a list of one table status whose `create_time` is not set,
`fill_block_imp` adds one value to the columns `TABLE_CATALOG`,
`AUTO_INCREMENT` and `UPDATE_TIME` but none to the column `CREATE_TIME`: the
loop for the creation time makes no call of `fill_dest_column` for such a
table, so the columns of the block have different lengths afterwards. -/
theorem unset_create_time_leaves_column_short :
    ∃ block,
      SchemaTablesScanner.fill_block_imp sample_scan_env
          (sample_tables_scanner [sample_table_status]) tables_block
        = some (Status.OK, block) ∧
      block.column_at 0 = some ⟨[0], [Field.String "internal"]⟩ ∧
      block.column_at 13 = some ⟨[1], [Field.Default]⟩ ∧
      block.column_at 14 = some ⟨[], []⟩ ∧
      block.column_at 15 = some ⟨[0], [Field.Int 1700000000]⟩ := by
  refine ⟨_, rfl, ?_, ?_, ?_, ?_⟩
  · decide
  · decide
  · decide
  · decide

/-! ## Claims on the column mapping of the scan node -/

/-- The inner loop of `prepare`: where it stops there is the first source slot
of the name, if it stops before the end. -/
theorem first_match_spec (src : List SlotDescriptor) (name : String)
    (h : src.findIdx (fun s => iequals name s.col_name) < src.length) :
    ∃ s, src[src.findIdx (fun s => iequals name s.col_name)]? = some s ∧
      iequals name s.col_name = true ∧
      ∀ (k : Nat) (sk : SlotDescriptor),
        k < src.findIdx (fun s => iequals name s.col_name) → src[k]? = some sk →
        iequals name sk.col_name = false := by
  refine ⟨src[src.findIdx (fun s => iequals name s.col_name)], ?_, ?_, ?_⟩
  · exact List.getElem?_eq_getElem h
  · exact @List.findIdx_getElem _ (fun s : SlotDescriptor => iequals name s.col_name) src h
  · intro k sk hk hsk
    obtain ⟨hk2, e⟩ := List.getElem?_eq_some.mp hsk
    have := List.not_of_lt_findIdx hk
    rw [← e]
    exact this

/-- The first source slot of a name is unique. -/
theorem first_match_unique (src : List SlotDescriptor) (name : String) (j : Nat)
    (s : SlotDescriptor) (h1 : src[j]? = some s) (h2 : iequals name s.col_name = true)
    (h3 : ∀ (k : Nat) (sk : SlotDescriptor), k < j → src[k]? = some sk →
      iequals name sk.col_name = false) :
    src.findIdx (fun s => iequals name s.col_name) = j := by
  obtain ⟨hj, e⟩ := List.getElem?_eq_some.mp h1
  have hlt : src.findIdx (fun s => iequals name s.col_name) < src.length :=
    List.findIdx_lt_length_of_exists ⟨s, by rw [← e]; exact List.getElem_mem _, h2⟩
  obtain ⟨s2, g1, g2, g3⟩ := first_match_spec src name hlt
  rcases Nat.lt_trichotomy (src.findIdx (fun s => iequals name s.col_name)) j with h | h | h
  · have := h3 _ s2 h g1
    rw [this] at g2
    cases g2
  · exact h
  · have := g3 j s h h1
    rw [this] at h2
    cases h2

theorem index_loop_spec (src : List SlotDescriptor) :
    ∀ (rest : List SlotDescriptor) (i : Nat) (m : List Nat), i + rest.length ≤ m.length →
      ((VSchemaScanNode.index_loop src rest i m).1.ok = true →
        (VSchemaScanNode.index_loop src rest i m).2.length = m.length ∧
        (∀ k, k < i → (VSchemaScanNode.index_loop src rest i m).2[k]? = m[k]?) ∧
        ∀ (k : Nat) (d : SlotDescriptor), rest[k]? = some d →
          ∃ (j : Nat) (s : SlotDescriptor),
            (VSchemaScanNode.index_loop src rest i m).2[i + k]? = some j ∧
            src[j]? = some s ∧ iequals d.col_name s.col_name = true ∧
            (∀ (k2 : Nat) (sk : SlotDescriptor), k2 < j → src[k2]? = some sk →
              iequals d.col_name sk.col_name = false) ∧
            s.type = d.type) ∧
      ((∃ d ∈ rest, (∀ s ∈ src, iequals d.col_name s.col_name = false) ∨
          ∃ (j : Nat) (s : SlotDescriptor), src[j]? = some s ∧
            iequals d.col_name s.col_name = true ∧
            (∀ (k2 : Nat) (sk : SlotDescriptor), k2 < j → src[k2]? = some sk →
              iequals d.col_name sk.col_name = false) ∧
            s.type ≠ d.type) →
        (VSchemaScanNode.index_loop src rest i m).1.ok = false) := by
  intro rest
  induction rest with
  | nil =>
    intro i m _
    refine ⟨fun _ => ⟨rfl, fun k _ => rfl, fun k d h => by simp at h⟩, ?_⟩
    rintro ⟨d, hd, _⟩
    cases hd
  | cons dest rest ih =>
    intro i m hlen
    simp only [List.length_cons] at hlen
    unfold VSchemaScanNode.index_loop
    simp only []
    by_cases hj : src.findIdx (fun s => iequals dest.col_name s.col_name) ≥ src.length
    · rw [if_pos hj]
      refine ⟨fun h => (by simp [Status.InternalError, Status.ok] at h), fun _ => rfl⟩
    · rw [if_neg hj]
      have hlt : src.findIdx (fun s => iequals dest.col_name s.col_name) < src.length := by
        omega
      obtain ⟨s0, g1, g2, g3⟩ := first_match_spec src dest.col_name hlt
      rw [g1]
      by_cases ht : Option.map (fun s => s.type) (some s0) ≠ some dest.type
      · rw [if_pos ht]
        refine ⟨fun h => (by simp [Status.InternalError, Status.ok] at h), fun _ => rfl⟩
      · rw [if_neg ht]
        have ht2 : s0.type = dest.type := by
          simpa using ht
        obtain ⟨ih1, ih2⟩ := ih (i + 1)
          (m.set i (src.findIdx (fun s => iequals dest.col_name s.col_name)))
          (by rw [List.length_set]; omega)
        refine ⟨fun hok => ?_, ?_⟩
        · obtain ⟨a1, a2, a3⟩ := ih1 hok
          rw [List.length_set] at a1
          refine ⟨a1, fun k hk => ?_, fun k d hd => ?_⟩
          · rw [a2 k (by omega), List.getElem?_set_ne (by omega)]
          · cases k with
            | zero =>
              simp only [List.getElem?_cons_zero, Option.some.injEq] at hd
              subst hd
              refine ⟨src.findIdx (fun s => iequals dest.col_name s.col_name), s0, ?_, g1, g2, g3,
                ht2⟩
              have e := a2 i (by omega)
              rw [List.getElem?_set_self (by omega)] at e
              exact e
            | succ k =>
              simp only [List.getElem?_cons_succ] at hd
              obtain ⟨j, s, b1, b2⟩ := a3 k d hd
              refine ⟨j, s, ?_, b2⟩
              rw [← b1]
              congr 1
              omega
        · rintro ⟨d, hd, hbad⟩
          rcases List.mem_cons.mp hd with e | e
          · subst e
            rcases hbad with hb | ⟨j, s, c1, c2, c3, c4⟩
            · have hm : s0 ∈ src := by
                obtain ⟨h1, e1⟩ := List.getElem?_eq_some.mp g1
                rw [← e1]; exact List.getElem_mem _
              rw [hb s0 hm] at g2
              cases g2
            · have := first_match_unique src d.col_name j s c1 c2 c3
              rw [this, c1] at g1
              cases g1
              exact absurd ht2 c4
          · exact ih2 ⟨d, e, hbad⟩

/-- The two ways in which `prepare` ends on a node that is not initialised:
with an error before the node is marked as initialised, or past the loop over
the destination slots, which then has accepted every slot. -/
theorem prepare_shape (node : VSchemaScanNode) (state : RuntimeState)
    (h : node._is_init = false) :
    ((node.prepare (some state)).1.ok = false ∧ (node.prepare (some state)).2._is_init = false) ∨
    ∃ (dest src : TupleDescriptor) (slot_num : Nat) (m : List Nat),
      state.dest_tuple_desc = some dest ∧ state.src_tuple_desc = some src ∧
      slot_num = (if src.slots.length = 0 then 0 else dest.slots.length) ∧
      m = (if slot_num > 0 then VSchemaScanNode.resize node._index_map slot_num
        else node._index_map) ∧
      (VSchemaScanNode.index_loop src.slots (dest.slots.take slot_num) 0 m).1.ok = true ∧
      (node.prepare (some state)).2._is_init = true ∧
      (node.prepare (some state)).2._index_map
        = (VSchemaScanNode.index_loop src.slots (dest.slots.take slot_num) 0 m).2 ∧
      (node.prepare (some state)).2._dest_tuple_desc = some dest ∧
      (node.prepare (some state)).2._src_tuple_desc = some src := by
  cases h1 : state.scan_node_prepare.ok with
  | false => left; simp [VSchemaScanNode.prepare, h, h1]
  | true =>
  have h1c : state.scan_node_prepare.code = TStatusCode.OK := by simpa [Status.ok] using h1
  cases h2 : state.mem_pool with
  | false => left; simp [VSchemaScanNode.prepare, h, h1c, h2, Status.InternalError, Status.ok]
  | true =>
  cases h3 : state.dest_tuple_desc with
  | none => left; simp [VSchemaScanNode.prepare, h, h1c, h2, h3, Status.InternalError, Status.ok]
  | some dest =>
  cases h4 : state.schema_table with
  | false =>
    left; simp [VSchemaScanNode.prepare, h, h1c, h2, h3, h4, Status.InternalError, Status.ok]
  | true =>
  cases h5 : state.scanner with
  | none =>
    left; simp [VSchemaScanNode.prepare, h, h1c, h2, h3, h4, h5, Status.InternalError, Status.ok]
  | some scanner =>
  cases h6 : (scanner.init (some node._scanner_param) node._pool).1.ok with
  | false =>
    have h6c : ¬ (scanner.init (some node._scanner_param) node._pool).1.code = TStatusCode.OK := by
      simpa [Status.ok] using h6
    left; simp [VSchemaScanNode.prepare, h, h1c, h2, h3, h4, h5, h6c, Status.InternalError,
      Status.ok]
  | true =>
  have h6c : (scanner.init (some node._scanner_param) node._pool).1.code = TStatusCode.OK := by
    simpa [Status.ok] using h6
  cases h7 : state.src_tuple_desc with
  | none =>
    left; simp [VSchemaScanNode.prepare, h, h1c, h2, h3, h4, h5, h6c, h7, Status.InternalError,
      Status.ok]
  | some src =>
  cases h8 : state.src_tuple with
  | false =>
    left; simp [VSchemaScanNode.prepare, h, h1c, h2, h3, h4, h5, h6c, h7, h8,
      Status.InternalError, Status.ok]
  | true =>
  cases h9 : (VSchemaScanNode.index_loop src.slots
      (dest.slots.take (if src.slots.length = 0 then 0 else dest.slots.length)) 0
      (if (if src.slots.length = 0 then 0 else dest.slots.length) > 0 then
        VSchemaScanNode.resize node._index_map
          (if src.slots.length = 0 then 0 else dest.slots.length)
        else node._index_map)).1.ok with
  | false =>
    have h9c := h9
    simp only [Status.ok, decide_eq_false_iff_not] at h9c
    left
    simp [VSchemaScanNode.prepare, h, h1c, h2, h3, h4, h5, h6c, h7, h8, Status.InternalError,
      Status.ok]
    simp at h9c
    simp [h9c, h]
  | true =>
    have h9c := h9
    simp only [Status.ok, decide_eq_true_eq] at h9c
    right
    refine ⟨dest, src, _, _, rfl, rfl, rfl, rfl, h9, ?_⟩
    simp at h9c
    cases h10 : state.src_single_tuple <;> cases h11 : state.dest_single_tuple <;>
      simp [VSchemaScanNode.prepare, h, h1c, h2, h3, h4, h5, h6c, h7, h8, h9c, h10, h11,
        Status.InternalError, Status.ok]

theorem resize_length (index_map : List Nat) (n : Nat) :
    (VSchemaScanNode.resize index_map n).length = n := by
  simp only [VSchemaScanNode.resize, List.length_append, List.length_take, List.length_replicate]
  omega

/-- C29. Column mapping in `VSchemaScanNode::prepare`.  On a node whose index
map fits whenever it is initialised (a newly constructed node is not
initialised), a `prepare` that succeeds leaves the node initialised, and on an
initialised node the index map fits the stored tuple descriptors: with a source
tuple that is not empty, the entry of every destination slot is a valid source
slot index, the smallest one whose column name equals the destination name
ignoring case, and that source slot has the type of the destination slot.  On
a node that is not initialised the stored descriptors are those of the state,
and `prepare` fails if some destination column has no source column of its
name or if the first one of its name has another type. -/
theorem prepare_index_map (node : VSchemaScanNode) (state : RuntimeState)
    (hinv : node._is_init = true → node.index_map_valid) :
    ((node.prepare (some state)).1.ok = true → (node.prepare (some state)).2._is_init = true) ∧
    ((node.prepare (some state)).2._is_init = true →
      (node.prepare (some state)).2.index_map_valid) ∧
    (node._is_init = false → (node.prepare (some state)).1.ok = true →
      (node.prepare (some state)).2._dest_tuple_desc = state.dest_tuple_desc ∧
      (node.prepare (some state)).2._src_tuple_desc = state.src_tuple_desc) ∧
    (node._is_init = false → ∀ (dest src : TupleDescriptor),
      state.dest_tuple_desc = some dest → state.src_tuple_desc = some src → src.slots ≠ [] →
      (∃ d ∈ dest.slots, (∀ s ∈ src.slots, iequals d.col_name s.col_name = false) ∨
        ∃ (j : Nat) (s : SlotDescriptor), src.slots[j]? = some s ∧
          iequals d.col_name s.col_name = true ∧
          (∀ (k : Nat) (sk : SlotDescriptor), k < j → src.slots[k]? = some sk →
            iequals d.col_name sk.col_name = false) ∧
          s.type ≠ d.type) →
      (node.prepare (some state)).1.ok = false) := by
  cases hi : node._is_init with
  | true =>
    have e : node.prepare (some state) = (Status.OK, node) := by
      simp [VSchemaScanNode.prepare, hi]
    rw [e]
    exact ⟨fun _ => hi, fun _ => hinv hi, fun h => (by cases h), fun h => (by cases h)⟩
  | false =>
    rcases prepare_shape node state hi with ⟨a1, a2⟩ | ⟨dest, src, slot_num, m, b1, b2, b3, b4,
      b5, b6, b7, b8, b9⟩
    · refine ⟨fun h => ?_, fun h => ?_, fun _ h => ?_, fun _ _ _ _ _ _ _ => a1⟩
      · rw [a1] at h; cases h
      · rw [a2] at h; cases h
      · rw [a1] at h; cases h
    · have hspec : src.slots ≠ [] →
          slot_num = dest.slots.length ∧ 0 + (dest.slots.take slot_num).length ≤ m.length ∧
          dest.slots.take slot_num = dest.slots := by
        intro hne
        have hl : src.slots.length ≠ 0 := fun h0 => hne (List.length_eq_zero.mp h0)
        rw [if_neg hl] at b3
        refine ⟨b3, ?_, ?_⟩
        · rw [b4, b3, List.take_length]
          by_cases hp : dest.slots.length > 0
          · rw [if_pos hp, resize_length]; omega
          · rw [if_neg hp]; omega
        · rw [b3, List.take_length]
      refine ⟨fun _ => b6, fun _ => ?_, fun _ _ => ⟨b8.trans b1.symm, b9.trans b2.symm⟩, ?_⟩
      · refine ⟨dest, src, b8, b9, fun hne i d hd => ?_⟩
        obtain ⟨c1, c2, c3⟩ := hspec hne
        obtain ⟨_, _, g⟩ := (index_loop_spec src.slots (dest.slots.take slot_num) 0 m c2).1 b5
        obtain ⟨j, s, g1, g2⟩ := g i d (by rw [c3]; exact hd)
        rw [Nat.zero_add] at g1
        exact ⟨j, s, by rw [b7]; exact g1, g2⟩
      · intro _ dest2 src2 e1 e2 hne hbad
        rw [b1] at e1
        rw [b2] at e2
        cases e1
        cases e2
        obtain ⟨c1, c2, c3⟩ := hspec hne
        have := (index_loop_spec src.slots (dest.slots.take slot_num) 0 m c2).2
          (by rw [c3]; exact hbad)
        rw [this] at b5
        cases b5

theorem prepare_index_map_witness :
    (VSchemaScanNode.construct (some ⟨0⟩) sample_param)._is_init = false ∧
    ((VSchemaScanNode.construct (some ⟨0⟩) sample_param).prepare (some sample_state)).1.ok = true ∧
    ((VSchemaScanNode.construct (some ⟨0⟩) sample_param).prepare (some sample_state)).2._index_map
      = [2, 1] ∧
    ((VSchemaScanNode.construct (some ⟨0⟩) sample_param).prepare
      (some sample_state)).2.index_map_valid :=
  ⟨rfl, by decide, by decide,
    (prepare_index_map (VSchemaScanNode.construct (some ⟨0⟩) sample_param) sample_state
      (fun h => (by cases h))).2.1 (by decide)⟩

/-! ## Claims on the life cycle of a scanner -/

theorem SchemaScanner.init_of_init (s : SchemaScanner) (h : s._is_init = true)
    (param : Option SchemaScannerParam) (pool : Option ObjectPool) :
    s.init param pool = (Status.OK, s) := by
  simp [SchemaScanner.init, h]

theorem SchemaScanner.inits_of_init (calls : List (Option SchemaScannerParam × Option ObjectPool)) :
    ∀ s : SchemaScanner, s._is_init = true →
      (s.inits calls).2 = s ∧ ∀ st ∈ (s.inits calls).1, st = Status.OK := by
  induction calls with
  | nil => intro s _; exact ⟨rfl, fun st h => by cases h⟩
  | cons c rest ih =>
    intro s h
    obtain ⟨param, pool⟩ := c
    simp only [SchemaScanner.inits, SchemaScanner.init_of_init s h]
    obtain ⟨i1, i2⟩ := ih s h
    refine ⟨i1, fun st hst => ?_⟩
    rcases List.mem_cons.mp hst with h1 | h1
    · exact h1
    · exact i2 st h1

theorem SchemaScanner.init_fresh (s : SchemaScanner) (h : s._is_init = false)
    (param : Option SchemaScannerParam) (pool : Option ObjectPool) :
    (((s.init param pool).1.ok = true ↔ param ≠ none ∧ pool ≠ none ∧ s._columns ≠ []) ∧
      ((s.init param pool).1.ok = false → s.init param pool
        = (Status.InternalError "invalid parameter", s)) ∧
      ((s.init param pool).1.ok = true → s.init param pool
        = (Status.OK, { s with _param := param, _is_init := true }))) := by
  cases param with
  | none => simp [SchemaScanner.init, h, Status.InternalError, Status.ok]
  | some p =>
    cases pool with
    | none => simp [SchemaScanner.init, h, Status.InternalError, Status.ok]
    | some q =>
      by_cases hc : s._columns = []
      · simp [SchemaScanner.init, h, hc, Status.InternalError, Status.ok]
      · have hc2 : s._columns.isEmpty = false := by
          cases hcols : s._columns with
          | nil => exact absurd hcols hc
          | cons a l => rfl
        simp [SchemaScanner.init, h, hc, hc2, Status.OK, Status.ok]

theorem SchemaScanner.inits_spec (calls : List (Option SchemaScannerParam × Option ObjectPool)) :
    ∀ s : SchemaScanner, s._is_init = false →
      ((s.inits calls).2._is_init = true ↔ ∃ st ∈ (s.inits calls).1, st.ok = true) := by
  induction calls with
  | nil =>
    intro s h
    simp [SchemaScanner.inits, h]
  | cons c rest ih =>
    intro s h
    obtain ⟨param, pool⟩ := c
    obtain ⟨f1, f2, f3⟩ := SchemaScanner.init_fresh s h param pool
    simp only [SchemaScanner.inits, List.mem_cons, exists_eq_or_imp]
    cases hok : (s.init param pool).1.ok with
    | false =>
      rw [f2 hok]
      have := ih s h
      simpa using this
    | true =>
      have e := f3 hok
      have hi : (s.init param pool).2._is_init = true := by rw [e]
      have := (SchemaScanner.inits_of_init rest _ hi).1
      rw [this]
      simp [hi]

/-- C30. Life cycle of a `SchemaScanner`.  After any sequence of `init` calls on
a newly constructed scanner, the scanner is initialised exactly when one of the
calls returned OK, and while none has, `start` and the `get_next_block` of the
base class return an error.  On a scanner that is not initialised, `init`
returns OK exactly when `param` and `pool` are not null and the column list is
not empty, sets the parameter only then, and else leaves the scanner as it was.
On an initialised scanner every sequence of `init` calls returns OK each time
and leaves the scanner, its stored parameter included, unchanged. -/
theorem scanner_lifecycle (columns : List ColumnDesc)
    (calls later : List (Option SchemaScannerParam × Option ObjectPool)) (s : SchemaScanner)
    (param : Option SchemaScannerParam) (pool : Option ObjectPool)
    (block : Option Block) (eos : Option Bool) :
    ((((SchemaScanner.construct columns).inits calls).2._is_init = true ↔
        ∃ st ∈ ((SchemaScanner.construct columns).inits calls).1, st.ok = true) ∧
      ((∀ st ∈ ((SchemaScanner.construct columns).inits calls).1, st.ok = false) →
        ((SchemaScanner.construct columns).inits calls).2.start.ok = false ∧
        (((SchemaScanner.construct columns).inits calls).2.get_next_block block eos).1.ok
          = false)) ∧
    (s._is_init = false →
      s.start.ok = false ∧ (s.get_next_block block eos).1.ok = false ∧
      ((s.init param pool).1.ok = true ↔ param ≠ none ∧ pool ≠ none ∧ s._columns ≠ []) ∧
      ((s.init param pool).1.ok = false → (s.init param pool).2 = s) ∧
      ((s.init param pool).1.ok = true →
        (s.init param pool).2 = { s with _param := param, _is_init := true })) ∧
    (s._is_init = true →
      (s.inits later).2 = s ∧ (∀ st ∈ (s.inits later).1, st = Status.OK) ∧
      s.init param pool = (Status.OK, s)) := by
  have hstart : ∀ t : SchemaScanner, t._is_init = false →
      t.start.ok = false ∧ (t.get_next_block block eos).1.ok = false := by
    intro t ht
    simp [SchemaScanner.start, SchemaScanner.get_next_block, ht, Status.InternalError, Status.ok]
  have hspec := SchemaScanner.inits_spec calls (SchemaScanner.construct columns) rfl
  refine ⟨⟨hspec, fun hall => ?_⟩, fun h => ?_, fun h => ?_⟩
  · apply hstart
    cases hi : ((SchemaScanner.construct columns).inits calls).2._is_init with
    | false => rfl
    | true =>
      obtain ⟨st, hst, hok⟩ := hspec.mp hi
      rw [hall st hst] at hok
      cases hok
  · obtain ⟨f1, f2, f3⟩ := SchemaScanner.init_fresh s h param pool
    refine ⟨(hstart s h).1, (hstart s h).2, f1, fun hf => ?_, fun hs => ?_⟩
    · rw [f2 hf]
    · rw [f3 hs]
  · exact ⟨(SchemaScanner.inits_of_init later s h).1, (SchemaScanner.inits_of_init later s h).2,
      SchemaScanner.init_of_init s h param pool⟩

theorem scanner_lifecycle_witness :
    (SchemaScanner.construct SchemaRowsetsScanner._s_tbls_columns)._is_init = false ∧
    ((SchemaScanner.construct SchemaRowsetsScanner._s_tbls_columns).init
        (some sample_param) (some ⟨0⟩)).1.ok = true ∧
    (SchemaScanner.construct SchemaRowsetsScanner._s_tbls_columns).start.ok = false :=
  ⟨rfl,
    ((scanner_lifecycle [] [] [] (SchemaScanner.construct SchemaRowsetsScanner._s_tbls_columns)
      (some sample_param) (some ⟨0⟩) none none).2.1 rfl).2.2.1.mpr (by decide),
    ((scanner_lifecycle [] [] [] (SchemaScanner.construct SchemaRowsetsScanner._s_tbls_columns)
      (some sample_param) (some ⟨0⟩) none none).2.1 rfl).1⟩

end doris
